import Mathlib

/-!
# TLV encoding of the game engine: writer, reader and typed entries

Shallow embedding of `src/tlv/tlv_writer.cpp`, `src/tlv/tlv_reader.cpp` and
`src/tlv/tlv_entry.cpp`.

Conventions of the embedding

* `std::byte` is `Fin 256`; an owned `std::vector<std::byte>` is a `List Byte`.
* `std::uint32_t` is a `Nat` below `2 ^ 32`; every conversion to `std::uint32_t`
  in the source is an explicit `% 2 ^ 32` here. `std::size_t` is 64 bits wide.
* The target is little-endian, so the object representation of a 32-bit value
  is its four bytes, least significant first.
* A non-owning `std::span<const std::byte>` is the address of its first byte
  together with the bytes it views.
* `ensure` throws `game::Exception`; throwing functions return `Except Exception`.
-/

set_option autoImplicit false

namespace game

/-! ## Bytes, 32-bit values and spans -/

/-- One `std::byte`. -/
abbrev Byte := Fin 256

/-- Object representation of a `std::uint32_t` (conversion to 32 bits, then the
four bytes in little-endian order). -/
def uint32_bytes (value : Nat) : List Byte :=
  [Fin.ofNat (value % 2 ^ 32), Fin.ofNat (value % 2 ^ 32 / 2 ^ 8),
   Fin.ofNat (value % 2 ^ 32 / 2 ^ 16), Fin.ofNat (value % 2 ^ 32 / 2 ^ 24)]

/-- The call `std::memcpy(&value, src, sizeof(std::uint32_t))` into a
value-initialised `std::uint32_t`: the first four bytes at `src`, read in
little-endian order. -/
def load_uint32 (src : List Byte) : Nat :=
  (src.take 4).foldr (fun b acc => b.val + 256 * acc) 0

/-- Contents of a `std::vector<std::uint32_t>` of `count` elements filled by
`memcpy` from the bytes at `src`. -/
def load_uint32_array : Nat → List Byte → List Nat
  | 0, _ => []
  | count + 1, src => load_uint32 src :: load_uint32_array count (src.drop 4)

/-- Object representation of a contiguous range of `std::uint32_t`. -/
def uint32_array_bytes (value : List Nat) : List Byte :=
  (value.map uint32_bytes).flatten

/-- A `std::span<const std::byte>`: the pointer `data()` and the viewed bytes. -/
structure Span where
  data : Nat
  bytes : List Byte
deriving DecidableEq

/-- The function `std::span::size`. -/
def Span.size (s : Span) : Nat := s.bytes.length

/-- The function `std::span::subspan(offset, count)`. -/
def Span.subspan (s : Span) (offset count : Nat) : Span :=
  ⟨s.data + offset, (s.bytes.drop offset).take count⟩

/-- The function `std::span::last(count)`. -/
def Span.last (s : Span) (count : Nat) : Span :=
  ⟨s.data + (s.size - count), s.bytes.drop (s.size - count)⟩

/-- The span over an owned buffer stored at address `addr`. -/
def span_of (addr : Nat) (buffer : List Byte) : Span := ⟨addr, buffer⟩

/-! ## Errors (`utils/error.h`) -/

/-- The exception `game::Exception`, carrying its message. -/
structure Exception where
  what : String
deriving DecidableEq

/-- The function `ensure(predicate, msg)`: throws when the predicate is false. -/
def ensure (predicate : Bool) (msg : String) : Except Exception Unit :=
  if predicate then pure () else throw ⟨msg⟩

/-! ## Graphics types carried by the format -/

/-- The type `enum class TextureUsage` (underlying type `int`, four bytes), kept as the
bit pattern of its underlying value so that any decoded value is representable. -/
structure TextureUsage where
  value : Nat
deriving DecidableEq

def TextureUsage.FRAMEBUFFER : TextureUsage := ⟨0⟩
def TextureUsage.DEPTH : TextureUsage := ⟨1⟩
def TextureUsage.SRGB : TextureUsage := ⟨2⟩
def TextureUsage.DATA : TextureUsage := ⟨3⟩

/-- The type `enum class TextureFormat` (underlying type `int`, four bytes). -/
structure TextureFormat where
  value : Nat
deriving DecidableEq

def TextureFormat.RGB : TextureFormat := ⟨0⟩
def TextureFormat.RGBA : TextureFormat := ⟨1⟩

/-- The type `struct TextureDescription`. -/
structure TextureDescription where
  width : Nat
  height : Nat
  format : TextureFormat
  usage : TextureUsage
  data : List Byte
deriving DecidableEq

/-- The constant `sizeof(VertexData)`: eleven `float`s (position, normal, tangent as
`Vector3`, then `UV`), no padding. -/
def sizeof_VertexData : Nat := 44

/-- The type `struct VertexData`. The TLV code never looks at a field: it only copies the
object representation, so a vertex is kept as its 44 bytes. -/
structure VertexData where
  bytes : List Byte
  size_eq : bytes.length = sizeof_VertexData
deriving DecidableEq

/-- The call `std::memcpy(&value, src, sizeof(VertexData))` into a
value-initialised (all zero) `VertexData`. -/
def load_vertex_data (src : List Byte) : VertexData :=
  ⟨src.take sizeof_VertexData ++
      List.replicate (sizeof_VertexData - (src.take sizeof_VertexData).length) 0,
    by simp only [List.length_append, List.length_take, List.length_replicate]; omega⟩

/-- Contents of `count` contiguous `VertexData` objects read from the bytes at `src`. -/
def load_vertex_data_array : Nat → List Byte → List VertexData
  | 0, _ => []
  | count + 1, src =>
    load_vertex_data src :: load_vertex_data_array count (src.drop sizeof_VertexData)

/-- Object representation of a contiguous range of `VertexData`. -/
def vertex_data_array_bytes (value : List VertexData) : List Byte :=
  (value.map VertexData.bytes).flatten

/-- The type `struct MeshData`: the contents of its two spans. -/
structure MeshData where
  vertices : List VertexData
  indices : List Nat
deriving DecidableEq

/-! ## `tlv_entry.h`: the tag catalogue and the entry -/

/-- The type `enum class TLVType : std::uint32_t`, kept as its underlying value: an entry
read from a buffer can carry any 32-bit tag. -/
structure TLVType where
  value : Nat
deriving DecidableEq

def TLVType.UINT32 : TLVType := ⟨0⟩
def TLVType.UINT32_ARRAY : TLVType := ⟨1⟩
def TLVType.STRING : TLVType := ⟨2⟩
def TLVType.BYTE_ARRAY : TLVType := ⟨3⟩
def TLVType.TEXTURE_FORMAT : TLVType := ⟨4⟩
def TLVType.TEXTURE_USAGE : TLVType := ⟨5⟩
def TLVType.VERTEX_DATA : TLVType := ⟨6⟩
def TLVType.VERTEX_DATA_ARRAY : TLVType := ⟨7⟩
def TLVType.TEXTURE_DESCRIPTION : TLVType := ⟨8⟩
def TLVType.MESH_DATA : TLVType := ⟨9⟩

/-- The type `class TLVEntry`: a tag and a non-owning view of the value. -/
structure TLVEntry where
  type_ : TLVType
  value_ : Span
deriving DecidableEq

/-- The function `TLVEntry::type`. -/
def TLVEntry.type (e : TLVEntry) : TLVType := e.type_

/-- The function `TLVEntry::size`: header plus value, converted to `std::uint32_t`. -/
def TLVEntry.size (e : TLVEntry) : Nat := (4 + 4 + e.value_.size) % 2 ^ 32

/-- The function `TLVEntry::uint32_value`. -/
def TLVEntry.uint32_value (e : TLVEntry) : Except Exception Nat := do
  ensure (e.type_ == TLVType.UINT32) "incorrect type"
  ensure (e.value_.size == 4) "incorrect size"
  pure (load_uint32 e.value_.bytes)

/-- Outcome of filling a freshly allocated `std::vector` by one `std::memcpy`:
`filled value` when the bytes copied fit the storage of the vector, which then holds
`value`; `overrun allocated copied` when `std::memcpy` is given `copied` bytes to
write into `allocated < copied` bytes of storage, a write past the end of the vector
after which the behaviour of the program is undefined. -/
inductive Filled (α : Type) where
  | filled (value : α)
  | overrun (allocated copied : Nat)
deriving DecidableEq

/-- The function `TLVEntry::uint32_array_value`: a vector of
`value_.size() / sizeof(std::uint32_t)` elements, that many times 4 bytes of storage,
into which one `std::memcpy` writes `value_.size()` bytes. -/
def TLVEntry.uint32_array_value (e : TLVEntry) : Except Exception (Filled (List Nat)) := do
  ensure (e.type_ == TLVType.UINT32_ARRAY) "incorrect type"
  let count := e.value_.size / 4
  if e.value_.size ≤ count * 4 then
    pure (.filled (load_uint32_array count e.value_.bytes))
  else
    pure (.overrun (count * 4) e.value_.size)

/-- The function `TLVEntry::string_value`; a `std::string` is its sequence of bytes. -/
def TLVEntry.string_value (e : TLVEntry) : Except Exception (List Byte) := do
  ensure (e.type_ == TLVType.STRING) "incorrect type"
  pure e.value_.bytes

/-- The function `TLVEntry::byte_array_value`. -/
def TLVEntry.byte_array_value (e : TLVEntry) : Except Exception (List Byte) := do
  ensure (e.type_ == TLVType.BYTE_ARRAY) "incorrect type"
  pure e.value_.bytes

/-- The function `TLVEntry::texture_format_value`. -/
def TLVEntry.texture_format_value (e : TLVEntry) : Except Exception TextureFormat := do
  ensure (e.type_ == TLVType.TEXTURE_FORMAT) "incorrect type"
  ensure (e.value_.size == 4) "incorrect size"
  pure ⟨load_uint32 e.value_.bytes⟩

/-- The function `TLVEntry::texture_usage_value`. -/
def TLVEntry.texture_usage_value (e : TLVEntry) : Except Exception TextureUsage := do
  ensure (e.type_ == TLVType.TEXTURE_USAGE) "incorrect type"
  ensure (e.value_.size == 4) "incorrect size"
  pure ⟨load_uint32 e.value_.bytes⟩

/-- The function `TLVEntry::vertex_data_value`. -/
def TLVEntry.vertex_data_value (e : TLVEntry) : Except Exception VertexData := do
  ensure (e.type_ == TLVType.VERTEX_DATA) "incorrect type"
  ensure (e.value_.size == sizeof_VertexData) "incorrect size"
  pure (load_vertex_data e.value_.bytes)

/-- The function `TLVEntry::vertex_data_array_value`: a vector of
`value_.size() / sizeof(VertexData)` elements, that many times 44 bytes of storage,
into which one `std::memcpy` writes `value_.size()` bytes. -/
def TLVEntry.vertex_data_array_value (e : TLVEntry) :
    Except Exception (Filled (List VertexData)) := do
  ensure (e.type_ == TLVType.VERTEX_DATA_ARRAY) "incorrect type"
  let count := e.value_.size / sizeof_VertexData
  if e.value_.size ≤ count * sizeof_VertexData then
    pure (.filled (load_vertex_data_array count e.value_.bytes))
  else
    pure (.overrun (count * sizeof_VertexData) e.value_.size)

/-! ## `tlv_reader.h`, `tlv_reader.cpp` -/

/-- The type `class TLVReader::Iterator`: the part of the buffer not yet consumed. -/
structure Iterator where
  buffer_ : Span
deriving DecidableEq

/-- The function `TLVReader::Iterator::operator*`. -/
def Iterator.deref (it : Iterator) : Except Exception TLVEntry := do
  ensure (decide (it.buffer_.size ≥ 4 + 4)) "invalid entry size"
  let type : TLVType := ⟨load_uint32 it.buffer_.bytes⟩
  let length := load_uint32 (it.buffer_.bytes.drop 4)
  ensure (decide (it.buffer_.size ≥ 4 + 4 + length)) "invalid length"
  pure ⟨type, it.buffer_.subspan (4 + 4) length⟩

/-- The function `TLVReader::Iterator::operator++()`, the pre-increment: the advanced
iterator. -/
def Iterator.increment (it : Iterator) : Except Exception Iterator := do
  let entry ← it.deref
  pure ⟨it.buffer_.last (it.buffer_.size - entry.size)⟩

/-- The function `TLVReader::Iterator::operator++(int)`, the post-increment: the copy returned and the
advanced iterator. -/
def Iterator.post_increment (it : Iterator) : Except Exception (Iterator × Iterator) := do
  let tmp := it
  let it ← it.increment
  pure (tmp, it)

/-- The function `TLVReader::Iterator::operator==`. -/
def Iterator.eq (it other : Iterator) : Bool :=
  (other.buffer_.data == it.buffer_.data) && (other.buffer_.size == it.buffer_.size)

/-- The type `class TLVReader`. -/
structure TLVReader where
  buffer_ : Span
deriving DecidableEq

/-- The function `TLVReader::begin`. -/
def TLVReader.begin (self : TLVReader) : Iterator := ⟨self.buffer_⟩

/-- The function `TLVReader::end`. -/
def TLVReader.end_ (self : TLVReader) : Iterator :=
  ⟨⟨self.buffer_.data + self.buffer_.size, []⟩⟩

/-! ## Composite getters and name probes of `TLVEntry` -/

/-- The function `TLVEntry::texture_description_value`. -/
def TLVEntry.texture_description_value (e : TLVEntry) : Except Exception TextureDescription := do
  ensure (e.type_ == TLVType.TEXTURE_DESCRIPTION) "incorrect type"
  let reader := TLVReader.mk e.value_
  let reader_cursor := reader.begin
  ensure ((← reader_cursor.deref).type == TLVType.STRING) "first member not string"
  let reader_cursor ← reader_cursor.increment
  let width ← (← reader_cursor.deref).uint32_value
  let reader_cursor ← reader_cursor.increment
  ensure (!(reader_cursor.eq reader.end_)) "texture TLV too small"
  let height ← (← reader_cursor.deref).uint32_value
  let reader_cursor ← reader_cursor.increment
  ensure (!(reader_cursor.eq reader.end_)) "texture TLV too small"
  let format ← (← reader_cursor.deref).texture_format_value
  let reader_cursor ← reader_cursor.increment
  ensure (!(reader_cursor.eq reader.end_)) "texture TLV too small"
  let usage ← (← reader_cursor.deref).texture_usage_value
  let reader_cursor ← reader_cursor.increment
  ensure (!(reader_cursor.eq reader.end_)) "texture TLV too small"
  let data ← (← reader_cursor.deref).byte_array_value
  let reader_cursor ← reader_cursor.increment
  ensure (reader_cursor.eq reader.end_) "texture TLV too large"
  pure ⟨width, height, format, usage, data⟩

/-- The function `TLVEntry::is_texture`. -/
def TLVEntry.is_texture (e : TLVEntry) (name : List Byte) : Except Exception Bool := do
  if e.type_ != TLVType.TEXTURE_DESCRIPTION then
    pure false
  else
    let reader := TLVReader.mk e.value_
    let reader_cursor := reader.begin
    let texture_name ← (← reader_cursor.deref).string_value
    pure (texture_name == name)

/-- The function `TLVEntry::mesh_value`. The two spans of the result view the value bytes of
the second and third nested entries, reinterpreted as `VertexData` and
`std::uint32_t`. -/
def TLVEntry.mesh_value (e : TLVEntry) : Except Exception MeshData := do
  ensure (e.type_ == TLVType.MESH_DATA) "incorrect type"
  let reader := TLVReader.mk e.value_
  let reader_cursor := reader.begin
  ensure ((← reader_cursor.deref).type == TLVType.STRING) "first member not string"
  let reader_cursor ← reader_cursor.increment
  ensure ((← reader_cursor.deref).type == TLVType.VERTEX_DATA_ARRAY)
    "second member not vertex data array"
  let vertex_data :=
    load_vertex_data_array ((← reader_cursor.deref).value_.size / sizeof_VertexData)
      (← reader_cursor.deref).value_.bytes
  let reader_cursor ← reader_cursor.increment
  ensure ((← reader_cursor.deref).type == TLVType.UINT32_ARRAY) "third member not uint32 array"
  let index_data :=
    load_uint32_array ((← reader_cursor.deref).value_.size / 4)
      (← reader_cursor.deref).value_.bytes
  let reader_cursor ← reader_cursor.increment
  ensure (reader_cursor.eq reader.end_) "texture TLV too large"
  pure ⟨vertex_data, index_data⟩

/-- The function `TLVEntry::is_mesh`. -/
def TLVEntry.is_mesh (e : TLVEntry) (name : List Byte) : Except Exception Bool := do
  if e.type_ != TLVType.MESH_DATA then
    pure false
  else
    let reader := TLVReader.mk e.value_
    let reader_cursor := reader.begin
    let mesh_name ← (← reader_cursor.deref).string_value
    pure (mesh_name == name)

/-! ## `tlv_writer.h`, `tlv_writer.cpp` -/

/-- The function `write_bytes`: insert `data` at the end of `buffer`. -/
def write_bytes (buffer : List Byte) (data : List Byte) : List Byte :=
  buffer ++ data

/-- The function `write_entry`: the tag, the length, then the value. -/
def write_entry (buffer : List Byte) (type : TLVType) (length : Nat) (value : List Byte) :
    List Byte :=
  let buffer := write_bytes buffer (uint32_bytes type.value)
  let buffer := write_bytes buffer (uint32_bytes length)
  write_bytes buffer value

/-- The type `class TLVWriter`. -/
structure TLVWriter where
  buffer_ : List Byte := []
deriving DecidableEq

/-- The function `TLVWriter::yield`: the returned buffer and the writer afterwards. -/
def TLVWriter.yield (self : TLVWriter) : List Byte × TLVWriter :=
  let tmp : List Byte := []
  (self.buffer_, ⟨tmp⟩)

/-- The function `TLVWriter::write(std::uint32_t)`. -/
def TLVWriter.write_uint32 (self : TLVWriter) (value : Nat) : TLVWriter :=
  let type := TLVType.UINT32
  let length := 4
  let value_bytes := (uint32_bytes value).take length
  ⟨write_entry self.buffer_ type length value_bytes⟩

/-- The function `TLVWriter::write(std::span<const std::uint32_t>)`. -/
def TLVWriter.write_uint32_array (self : TLVWriter) (value : List Nat) : TLVWriter :=
  let type := TLVType.UINT32_ARRAY
  let length := (value.length * 4 % 2 ^ 64) % 2 ^ 32
  let value_bytes := (uint32_array_bytes value).take length
  ⟨write_entry self.buffer_ type length value_bytes⟩

/-- The function `TLVWriter::write(std::string_view)`. -/
def TLVWriter.write_string (self : TLVWriter) (value : List Byte) : TLVWriter :=
  let type := TLVType.STRING
  let length := value.length % 2 ^ 32
  let value_bytes := value.take length
  ⟨write_entry self.buffer_ type length value_bytes⟩

/-- The function `TLVWriter::write(std::span<const std::byte>)`. -/
def TLVWriter.write_byte_array (self : TLVWriter) (value : List Byte) : TLVWriter :=
  let type := TLVType.BYTE_ARRAY
  let length := value.length % 2 ^ 32
  let value_bytes := value.take length
  ⟨write_entry self.buffer_ type length value_bytes⟩

/-- The function `TLVWriter::write(TextureFormat)`. -/
def TLVWriter.write_texture_format (self : TLVWriter) (value : TextureFormat) : TLVWriter :=
  let type := TLVType.TEXTURE_FORMAT
  let length := 4
  let value_bytes := (uint32_bytes value.value).take length
  ⟨write_entry self.buffer_ type length value_bytes⟩

/-- The function `TLVWriter::write(TextureUsage)`. -/
def TLVWriter.write_texture_usage (self : TLVWriter) (value : TextureUsage) : TLVWriter :=
  let type := TLVType.TEXTURE_USAGE
  let length := 4
  let value_bytes := (uint32_bytes value.value).take length
  ⟨write_entry self.buffer_ type length value_bytes⟩

/-- The function `TLVWriter::write(const VertexData &)`. -/
def TLVWriter.write_vertex_data (self : TLVWriter) (value : VertexData) : TLVWriter :=
  let type := TLVType.VERTEX_DATA
  let length := sizeof_VertexData
  let value_bytes := value.bytes.take length
  ⟨write_entry self.buffer_ type length value_bytes⟩

/-- The function `TLVWriter::write(std::span<const VertexData>)`. -/
def TLVWriter.write_vertex_data_array (self : TLVWriter) (value : List VertexData) : TLVWriter :=
  let type := TLVType.VERTEX_DATA_ARRAY
  let length := (value.length * sizeof_VertexData % 2 ^ 64) % 2 ^ 32
  let value_bytes := (vertex_data_array_bytes value).take length
  ⟨write_entry self.buffer_ type length value_bytes⟩

/-- The nested buffer of `TLVWriter::write(name, width, height, format, usage, data)`:
what its local `writer` yields after the six field writes. -/
def texture_description_value_bytes (name : List Byte) (width height : Nat)
    (format : TextureFormat) (usage : TextureUsage) (data : List Byte) : List Byte :=
  let writer : TLVWriter := {}
  let writer := writer.write_string name
  let writer := writer.write_uint32 width
  let writer := writer.write_uint32 height
  let writer := writer.write_texture_format format
  let writer := writer.write_texture_usage usage
  let writer := writer.write_byte_array data
  writer.yield.1

/-- The function `TLVWriter::write(name, width, height, format, usage, data)`. -/
def TLVWriter.write_texture_description (self : TLVWriter) (name : List Byte)
    (width height : Nat) (format : TextureFormat) (usage : TextureUsage) (data : List Byte) :
    TLVWriter :=
  let value := texture_description_value_bytes name width height format usage data
  let type := TLVType.TEXTURE_DESCRIPTION
  let length := value.length % 2 ^ 32
  ⟨write_entry self.buffer_ type length value⟩

/-- The nested buffer of `TLVWriter::write(name, vertices, indices)`: what its
local `writer` yields after the three field writes. -/
def mesh_data_value_bytes (name : List Byte) (vertices : List VertexData)
    (indices : List Nat) : List Byte :=
  let writer : TLVWriter := {}
  let writer := writer.write_string name
  let writer := writer.write_vertex_data_array vertices
  let writer := writer.write_uint32_array indices
  writer.yield.1

/-- The function `TLVWriter::write(name, vertices, indices)`. -/
def TLVWriter.write_mesh_data (self : TLVWriter) (name : List Byte)
    (vertices : List VertexData) (indices : List Nat) : TLVWriter :=
  let value := mesh_data_value_bytes name vertices indices
  let type := TLVType.MESH_DATA
  let length := value.length % 2 ^ 32
  ⟨write_entry self.buffer_ type length value⟩

/-! ## Sequences of calls and the range-based loop -/

/-- One call of an overload of `TLVWriter::write`, with its arguments. -/
inductive WriteCall where
  | uint32 (value : Nat)
  | uint32_array (value : List Nat)
  | string (value : List Byte)
  | byte_array (value : List Byte)
  | texture_format (value : TextureFormat)
  | texture_usage (value : TextureUsage)
  | vertex_data (value : VertexData)
  | vertex_data_array (value : List VertexData)
  | texture_description (name : List Byte) (width height : Nat) (format : TextureFormat)
      (usage : TextureUsage) (data : List Byte)
  | mesh_data (name : List Byte) (vertices : List VertexData) (indices : List Nat)

/-- Overload resolution of `TLVWriter::write`. -/
def TLVWriter.write (self : TLVWriter) : WriteCall → TLVWriter
  | .uint32 value => self.write_uint32 value
  | .uint32_array value => self.write_uint32_array value
  | .string value => self.write_string value
  | .byte_array value => self.write_byte_array value
  | .texture_format value => self.write_texture_format value
  | .texture_usage value => self.write_texture_usage value
  | .vertex_data value => self.write_vertex_data value
  | .vertex_data_array value => self.write_vertex_data_array value
  | .texture_description name width height format usage data =>
    self.write_texture_description name width height format usage data
  | .mesh_data name vertices indices => self.write_mesh_data name vertices indices

/-- A sequence of `write` calls on one writer, in order. -/
def TLVWriter.write_all (self : TLVWriter) (calls : List WriteCall) : TLVWriter :=
  calls.foldl TLVWriter.write self

/-- The tag the overload selected by a call passes to `write_entry`. -/
def WriteCall.type : WriteCall → TLVType
  | .uint32 _ => TLVType.UINT32
  | .uint32_array _ => TLVType.UINT32_ARRAY
  | .string _ => TLVType.STRING
  | .byte_array _ => TLVType.BYTE_ARRAY
  | .texture_format _ => TLVType.TEXTURE_FORMAT
  | .texture_usage _ => TLVType.TEXTURE_USAGE
  | .vertex_data _ => TLVType.VERTEX_DATA
  | .vertex_data_array _ => TLVType.VERTEX_DATA_ARRAY
  | .texture_description _ _ _ _ _ _ => TLVType.TEXTURE_DESCRIPTION
  | .mesh_data _ _ _ => TLVType.MESH_DATA

/-- The complete bytes of the value a call is given: the object representation
of a primitive argument, the nested buffer of a composite one. -/
def WriteCall.value : WriteCall → List Byte
  | .uint32 value => uint32_bytes value
  | .uint32_array value => uint32_array_bytes value
  | .string value => value
  | .byte_array value => value
  | .texture_format value => uint32_bytes value.value
  | .texture_usage value => uint32_bytes value.value
  | .vertex_data value => value.bytes
  | .vertex_data_array value => vertex_data_array_bytes value
  | .texture_description name width height format usage data =>
    texture_description_value_bytes name width height format usage data
  | .mesh_data name vertices indices => mesh_data_value_bytes name vertices indices

/-- The iterator after `n` calls of `operator++()`. -/
def Iterator.advance : Nat → Iterator → Except Exception Iterator
  | 0, it => pure it
  | n + 1, it => do
    let it ← it.increment
    Iterator.advance n it

/-- The loop `for (it = begin; it != last; ++it)` collecting `*it`, run for at
most `fuel` iterations; `none` when the fuel is used up before the loop ends. -/
def Iterator.collect (last : Iterator) : Nat → Iterator → Option (Except Exception (List TLVEntry))
  | 0, _ => none
  | fuel + 1, it =>
    if it.eq last then some (.ok [])
    else
      match it.deref with
      | .error err => some (.error err)
      | .ok entry =>
        match it.increment with
        | .error err => some (.error err)
        | .ok next =>
          match Iterator.collect last fuel next with
          | none => none
          | some (.error err) => some (.error err)
          | some (.ok entries) => some (.ok (entry :: entries))

/-- The range-based loop over a reader, `for (const auto &entry : reader)`. -/
def TLVReader.entries (self : TLVReader) (fuel : Nat) : Option (Except Exception (List TLVEntry)) :=
  Iterator.collect self.end_ fuel self.begin

/-- A sample vertex: the 44 bytes `0x00, 0x01, ..., 0x2b`. -/
def sample_vertex : VertexData :=
  ⟨(List.range 44).map (fun i => Fin.ofNat i), by decide⟩

/-! ## Reference decoding and the scan by name -/

/-- The little-endian 32-bit value of the four bytes of `s` at `offset`, written
out byte by byte; a byte past the end of `s` counts as zero. -/
def little_endian_32 (s : List Byte) (offset : Nat) : Nat :=
  (s.getD offset 0).val + 2 ^ 8 * (s.getD (offset + 1) 0).val
    + 2 ^ 16 * (s.getD (offset + 2) 0).val + 2 ^ 24 * (s.getD (offset + 3) 0).val

/-- The number of bytes the value of a call takes in the format when no length
is cut to 32 bits: the object representation of a primitive argument, the
records of the fields of a composite one. -/
def WriteCall.value_size : WriteCall → Nat
  | .uint32 _ => 4
  | .uint32_array value => 4 * value.length
  | .string value => value.length
  | .byte_array value => value.length
  | .texture_format _ => 4
  | .texture_usage _ => 4
  | .vertex_data _ => sizeof_VertexData
  | .vertex_data_array value => sizeof_VertexData * value.length
  | .texture_description name _ _ _ _ data =>
    (8 + name.length) + 12 + 12 + 12 + 12 + (8 + data.length)
  | .mesh_data name vertices indices =>
    (8 + name.length) + (8 + sizeof_VertexData * vertices.length) + (8 + 4 * indices.length)

/-- Whether a call is the mesh overload with the name `q`. -/
def WriteCall.is_mesh_named (q : List Byte) : WriteCall → Bool
  | .mesh_data name _ _ => name == q
  | _ => false

/-- Whether a call is the texture overload with the name `q`. -/
def WriteCall.is_texture_named (q : List Byte) : WriteCall → Bool
  | .texture_description name _ _ _ _ _ => name == q
  | _ => false

/-- The algorithm `std::ranges::find_if` between `it` and `last`: the first
iterator whose entry satisfies `pred`, or `last`; run for at most `fuel`
iterations, `none` when the fuel is used up before the scan ends. -/
def Iterator.find_if (pred : TLVEntry → Except Exception Bool) (last : Iterator) :
    Nat → Iterator → Option (Except Exception Iterator)
  | 0, _ => none
  | fuel + 1, it =>
    if it.eq last then some (.ok it)
    else
      match it.deref with
      | .error err => some (.error err)
      | .ok entry =>
        match pred entry with
        | .error err => some (.error err)
        | .ok true => some (.ok it)
        | .ok false =>
          match it.increment with
          | .error err => some (.error err)
          | .ok next => Iterator.find_if pred last fuel next

/-- The scan `std::ranges::find_if(reader, pred)` of `Mesh::Mesh(const TLVReader &, name)`. -/
def TLVReader.find_if (self : TLVReader) (pred : TLVEntry → Except Exception Bool)
    (fuel : Nat) : Option (Except Exception Iterator) :=
  Iterator.find_if pred self.end_ fuel self.begin

/-- The entries of the records of a sequence of calls laid out from address `a`:
each with the tag of its call and a value starting 8 bytes into its record. -/
def written_entries (a : Nat) : List WriteCall → List TLVEntry
  | [] => []
  | c :: cs => ⟨c.type, ⟨a + 8, c.value⟩⟩ :: written_entries (a + (8 + c.value.length)) cs

/-- A sample sequence of calls: a texture named `"a"`, a mesh named `"m"`, one
`std::uint32_t`, and a mesh named `"n"` without vertices or indices. -/
def sample_calls : List WriteCall :=
  [WriteCall.texture_description [0x61] 1 1 TextureFormat.RGB TextureUsage.SRGB [0xaa],
   WriteCall.mesh_data [0x6d] [sample_vertex] [0, 1, 2],
   WriteCall.uint32 7,
   WriteCall.mesh_data [0x6e] [] []]

/-- The bytes of one record: tag, length, value. -/
def record_bytes (type : Nat) (value : List Byte) : List Byte :=
  uint32_bytes type ++ (uint32_bytes value.length ++ value)

/-- The buffer made of the given records (tag and value), back to back. -/
def buffer_of_records (records : List (Nat × List Byte)) : List Byte :=
  (records.map (fun r => record_bytes r.1 r.2)).flatten

/-- Whether a call is one of the two composite overloads. -/
def WriteCall.is_composite : WriteCall → Bool
  | .texture_description _ _ _ _ _ _ => true
  | .mesh_data _ _ _ => true
  | _ => false

/-- The byte count `value_.size()` that `TLVEntry::uint32_array_value` passes to
`std::memcpy`. -/
def TLVEntry.uint32_array_value_copied_bytes (e : TLVEntry) : Nat := e.value_.size

/-- The bytes of storage of the vector `TLVEntry::uint32_array_value` copies into:
`value_.size() / sizeof(std::uint32_t)` elements of 4 bytes. -/
def TLVEntry.uint32_array_value_allocated_bytes (e : TLVEntry) : Nat := e.value_.size / 4 * 4

/-- The byte count `value_.size()` that `TLVEntry::vertex_data_array_value` passes
to `std::memcpy`. -/
def TLVEntry.vertex_data_array_value_copied_bytes (e : TLVEntry) : Nat := e.value_.size

/-- The bytes of storage of the vector `TLVEntry::vertex_data_array_value` copies
into: `value_.size() / sizeof(VertexData)` elements of 44 bytes. -/
def TLVEntry.vertex_data_array_value_allocated_bytes (e : TLVEntry) : Nat :=
  e.value_.size / sizeof_VertexData * sizeof_VertexData

/-! ## Framing lemmas -/

theorem uint32_bytes_length (v : Nat) : (uint32_bytes v).length = 4 := rfl

theorem load_uint32_uint32_bytes (v : Nat) (rest : List Byte) :
    load_uint32 (uint32_bytes v ++ rest) = v % 2 ^ 32 := by
  simp only [load_uint32, uint32_bytes, List.cons_append, List.nil_append, List.take_succ_cons,
    List.take_zero, List.foldr_cons, List.foldr_nil, Fin.ofNat, Fin.val_mk]
  omega

theorem drop_uint32_bytes (v : Nat) (rest : List Byte) :
    (uint32_bytes v ++ rest).drop 4 = rest := by
  simp [uint32_bytes]

theorem drop_header (t n : Nat) (rest : List Byte) :
    (uint32_bytes t ++ (uint32_bytes n ++ rest)).drop 8 = rest := by
  simp [uint32_bytes]

theorem ensure_true (msg : String) : ensure true msg = .ok () := rfl

theorem ensure_of (c : Bool) (msg : String) (h : c = true) : ensure c msg = .ok () := by
  subst h; rfl

theorem ok_bind {α β : Type} (x : α) (f : α → Except Exception β) :
    (Except.ok x >>= f) = f x := rfl

theorem deref_record (a t : Nat) (p rest : List Byte) (hp : p.length < 2 ^ 32) :
    Iterator.deref ⟨⟨a, uint32_bytes t ++ (uint32_bytes p.length ++ (p ++ rest))⟩⟩
      = .ok ⟨⟨t % 2 ^ 32⟩, ⟨a + 8, p⟩⟩ := by
  have h1 : load_uint32 (uint32_bytes p.length ++ (p ++ rest)) = p.length := by
    rw [load_uint32_uint32_bytes]; exact Nat.mod_eq_of_lt hp
  have e1 : ensure (decide ((uint32_bytes t ++ (uint32_bytes p.length ++ (p ++ rest))).length
      ≥ 4 + 4)) "invalid entry size" = .ok () := by
    apply ensure_of; simp [uint32_bytes_length]; omega
  have e2 : ensure (decide ((uint32_bytes t ++ (uint32_bytes p.length ++ (p ++ rest))).length
      ≥ 4 + 4 + p.length)) "invalid length" = .ok () := by
    apply ensure_of; simp [uint32_bytes_length]; omega
  simp only [Iterator.deref, Span.size, Span.subspan, drop_uint32_bytes, load_uint32_uint32_bytes,
    h1, e1, e2, ok_bind, Nat.reduceAdd, drop_header, List.take_left, pure, Except.pure]

theorem increment_record (a t : Nat) (p rest : List Byte) (hp : p.length + 8 < 2 ^ 32) :
    Iterator.increment ⟨⟨a, uint32_bytes t ++ (uint32_bytes p.length ++ (p ++ rest))⟩⟩
      = .ok ⟨⟨a + (8 + p.length), rest⟩⟩ := by
  have hs : (4 + 4 + p.length) % 2 ^ 32 = 8 + p.length := by omega
  have hl : (uint32_bytes t ++ (uint32_bytes p.length ++ (p ++ rest))).length
      - (8 + p.length) = rest.length := by
    simp [uint32_bytes_length]; omega
  have hd : (uint32_bytes t ++ (uint32_bytes p.length ++ (p ++ rest))).length - rest.length
      = 8 + p.length := by
    simp [uint32_bytes_length]; omega
  have hdrop : (uint32_bytes t ++ (uint32_bytes p.length ++ (p ++ rest))).drop (8 + p.length)
      = rest := by
    rw [← List.drop_drop, drop_header, List.drop_left]
  simp only [Iterator.increment, deref_record a t p rest (by omega), ok_bind, TLVEntry.size,
    Span.size, Span.last, hs, hl, hd, hdrop, pure, Except.pure]

/-! ## Buffers produced by the writer -/

theorem uint32_array_bytes_length (xs : List Nat) : (uint32_array_bytes xs).length = xs.length * 4 := by
  induction xs with
  | nil => rfl
  | cons x xs ih =>
    simp only [uint32_array_bytes, List.map_cons, List.flatten_cons, List.length_append,
      uint32_bytes_length, List.length_cons] at ih ⊢
    omega

theorem vertex_data_array_bytes_length (vs : List VertexData) :
    (vertex_data_array_bytes vs).length = vs.length * sizeof_VertexData := by
  induction vs with
  | nil => rfl
  | cons v vs ih =>
    simp only [vertex_data_array_bytes, List.map_cons, List.flatten_cons, List.length_append,
      v.size_eq, List.length_cons, sizeof_VertexData] at ih ⊢
    omega

theorem write_entry_eq (b : List Byte) (t : TLVType) (n : Nat) (p : List Byte) :
    write_entry b t n p = b ++ (uint32_bytes t.value ++ (uint32_bytes n ++ p)) := by
  simp [write_entry, write_bytes]

theorem write_uint32_buffer (w : TLVWriter) (v : Nat) :
    (w.write_uint32 v).buffer_
      = w.buffer_ ++ (uint32_bytes 0 ++ (uint32_bytes 4 ++ uint32_bytes v)) := by
  simp only [TLVWriter.write_uint32, write_entry_eq, TLVType.UINT32]
  rfl

theorem write_string_buffer (w : TLVWriter) (s : List Byte) (h : s.length < 2 ^ 32) :
    (w.write_string s).buffer_
      = w.buffer_ ++ (uint32_bytes 2 ++ (uint32_bytes s.length ++ s)) := by
  simp only [TLVWriter.write_string, write_entry_eq, TLVType.STRING, Nat.mod_eq_of_lt h,
    List.take_length]

theorem write_byte_array_buffer (w : TLVWriter) (d : List Byte) (h : d.length < 2 ^ 32) :
    (w.write_byte_array d).buffer_
      = w.buffer_ ++ (uint32_bytes 3 ++ (uint32_bytes d.length ++ d)) := by
  simp only [TLVWriter.write_byte_array, write_entry_eq, TLVType.BYTE_ARRAY, Nat.mod_eq_of_lt h,
    List.take_length]

theorem load_uint32_uint32_bytes_self (v : Nat) (hv : v < 2 ^ 32) :
    load_uint32 (uint32_bytes v) = v := by
  have h := load_uint32_uint32_bytes v []
  rw [List.append_nil] at h
  rw [h, Nat.mod_eq_of_lt hv]

theorem begin_deref_single (addr t : Nat) (p : List Byte) (hp : p.length < 2 ^ 32) :
    (TLVReader.mk (span_of addr (uint32_bytes t ++ (uint32_bytes p.length ++ p)))).begin.deref
      = .ok ⟨⟨t % 2 ^ 32⟩, ⟨addr + 8, p⟩⟩ := by
  have h := deref_record addr t p [] hp
  rw [List.append_nil] at h
  exact h

theorem write_uint32_array_buffer (w : TLVWriter) (xs : List Nat)
    (h : (uint32_array_bytes xs).length < 2 ^ 32) :
    (w.write_uint32_array xs).buffer_
      = w.buffer_ ++ (uint32_bytes 1 ++
          (uint32_bytes (uint32_array_bytes xs).length ++ uint32_array_bytes xs)) := by
  have hl := uint32_array_bytes_length xs
  have h1 : xs.length * 4 % 2 ^ 64 % 2 ^ 32 = (uint32_array_bytes xs).length := by omega
  simp only [TLVWriter.write_uint32_array, write_entry_eq, TLVType.UINT32_ARRAY, h1,
    List.take_length]

theorem write_vertex_data_array_buffer (w : TLVWriter) (vs : List VertexData)
    (h : (vertex_data_array_bytes vs).length < 2 ^ 32) :
    (w.write_vertex_data_array vs).buffer_
      = w.buffer_ ++ (uint32_bytes 7 ++
          (uint32_bytes (vertex_data_array_bytes vs).length ++ vertex_data_array_bytes vs)) := by
  have hl := vertex_data_array_bytes_length vs
  have h1 : vs.length * sizeof_VertexData % 2 ^ 64 % 2 ^ 32
      = (vertex_data_array_bytes vs).length := by
    rw [hl] at h ⊢; omega
  simp only [TLVWriter.write_vertex_data_array, write_entry_eq, TLVType.VERTEX_DATA_ARRAY, h1,
    List.take_length]

theorem load_uint32_array_bytes (xs : List Nat) (hx : ∀ x ∈ xs, x < 2 ^ 32) (rest : List Byte) :
    load_uint32_array xs.length (uint32_array_bytes xs ++ rest) = xs := by
  induction xs with
  | nil => rfl
  | cons x xs ih =>
    have hx0 : x < 2 ^ 32 := hx x (List.mem_cons_self x xs)
    have hxs : ∀ y ∈ xs, y < 2 ^ 32 := fun y hy => hx y (List.mem_cons_of_mem x hy)
    have e : uint32_array_bytes (x :: xs) ++ rest
        = uint32_bytes x ++ (uint32_array_bytes xs ++ rest) := by
      simp [uint32_array_bytes]
    rw [e, List.length_cons, load_uint32_array, load_uint32_uint32_bytes, drop_uint32_bytes,
      ih hxs, Nat.mod_eq_of_lt hx0]

theorem load_vertex_data_bytes (v : VertexData) (rest : List Byte) :
    load_vertex_data (v.bytes ++ rest) = v := by
  cases v with
  | mk bytes size_eq =>
    simp only [load_vertex_data, VertexData.mk.injEq]
    rw [← size_eq, List.take_left]
    simp

theorem load_vertex_data_array_bytes (vs : List VertexData) (rest : List Byte) :
    load_vertex_data_array vs.length (vertex_data_array_bytes vs ++ rest) = vs := by
  induction vs with
  | nil => rfl
  | cons v vs ih =>
    have e : vertex_data_array_bytes (v :: vs) ++ rest
        = v.bytes ++ (vertex_data_array_bytes vs ++ rest) := by
      simp [vertex_data_array_bytes]
    rw [e, List.length_cons, load_vertex_data_array, load_vertex_data_bytes, ← v.size_eq,
      List.drop_left, ih]

theorem write_texture_format_buffer (w : TLVWriter) (v : TextureFormat) :
    (w.write_texture_format v).buffer_
      = w.buffer_ ++ (uint32_bytes 4 ++ (uint32_bytes 4 ++ uint32_bytes v.value)) := by
  simp only [TLVWriter.write_texture_format, write_entry_eq, TLVType.TEXTURE_FORMAT]
  rfl

theorem write_texture_usage_buffer (w : TLVWriter) (v : TextureUsage) :
    (w.write_texture_usage v).buffer_
      = w.buffer_ ++ (uint32_bytes 5 ++ (uint32_bytes 4 ++ uint32_bytes v.value)) := by
  simp only [TLVWriter.write_texture_usage, write_entry_eq, TLVType.TEXTURE_USAGE]
  rfl

theorem write_vertex_data_buffer (w : TLVWriter) (v : VertexData) :
    (w.write_vertex_data v).buffer_
      = w.buffer_ ++ (uint32_bytes 6 ++ (uint32_bytes 44 ++ v.bytes)) := by
  have h : v.bytes.take sizeof_VertexData = v.bytes := by
    rw [← v.size_eq, List.take_length]
  simp only [TLVWriter.write_vertex_data, write_entry_eq, TLVType.VERTEX_DATA, h]
  rfl

theorem texture_description_value_bytes_eq (name : List Byte) (width height : Nat)
    (format : TextureFormat) (usage : TextureUsage) (data : List Byte)
    (hn : name.length < 2 ^ 32) (hd : data.length < 2 ^ 32) :
    texture_description_value_bytes name width height format usage data
      = uint32_bytes 2 ++ (uint32_bytes name.length ++ (name ++
        (uint32_bytes 0 ++ (uint32_bytes 4 ++ (uint32_bytes width ++
        (uint32_bytes 0 ++ (uint32_bytes 4 ++ (uint32_bytes height ++
        (uint32_bytes 4 ++ (uint32_bytes 4 ++ (uint32_bytes format.value ++
        (uint32_bytes 5 ++ (uint32_bytes 4 ++ (uint32_bytes usage.value ++
        (uint32_bytes 3 ++ (uint32_bytes data.length ++ (data ++ []))))))))))))))))) := by
  simp only [texture_description_value_bytes, TLVWriter.yield, write_byte_array_buffer _ _ hd,
    write_texture_usage_buffer, write_texture_format_buffer, write_uint32_buffer,
    write_string_buffer _ _ hn, List.nil_append, List.append_assoc, List.append_nil]

theorem eq_end_false (a b : Nat) (bytes : List Byte) (h : 0 < bytes.length) :
    Iterator.eq ⟨⟨a, bytes⟩⟩ ⟨⟨b, []⟩⟩ = false := by
  simp only [Iterator.eq, Span.size, List.length_nil, Bool.and_eq_false_iff, beq_eq_false_iff_ne]
  right; omega

theorem eq_end_true (a b : Nat) (h : b = a) :
    Iterator.eq ⟨⟨a, []⟩⟩ ⟨⟨b, []⟩⟩ = true := by
  simp [Iterator.eq, Span.size, h]

theorem deref_record4 (a t v : Nat) (rest : List Byte) :
    Iterator.deref ⟨⟨a, uint32_bytes t ++ (uint32_bytes 4 ++ (uint32_bytes v ++ rest))⟩⟩
      = .ok ⟨⟨t % 2 ^ 32⟩, ⟨a + 8, uint32_bytes v⟩⟩ :=
  deref_record a t (uint32_bytes v) rest (by rw [uint32_bytes_length]; norm_num)

theorem increment_record4 (a t v : Nat) (rest : List Byte) :
    Iterator.increment ⟨⟨a, uint32_bytes t ++ (uint32_bytes 4 ++ (uint32_bytes v ++ rest))⟩⟩
      = .ok ⟨⟨a + (8 + 4), rest⟩⟩ :=
  increment_record a t (uint32_bytes v) rest (by rw [uint32_bytes_length]; norm_num)

theorem eq_end_false_record (a b t : Nat) (rest : List Byte) :
    Iterator.eq ⟨⟨a, uint32_bytes t ++ rest⟩⟩ ⟨⟨b, []⟩⟩ = false :=
  eq_end_false a b _ (by rw [List.length_append, uint32_bytes_length]; omega)

theorem texture_description_value_fields (a : Nat) (name : List Byte) (width height : Nat)
    (format : TextureFormat) (usage : TextureUsage) (data : List Byte)
    (hw : width < 2 ^ 32) (hh : height < 2 ^ 32)
    (hf : format.value < 2 ^ 32) (hu : usage.value < 2 ^ 32)
    (hn : name.length + 8 < 2 ^ 32) (hd : data.length + 8 < 2 ^ 32) :
    TLVEntry.texture_description_value ⟨TLVType.TEXTURE_DESCRIPTION, ⟨a,
        uint32_bytes 2 ++ (uint32_bytes name.length ++ (name ++
        (uint32_bytes 0 ++ (uint32_bytes 4 ++ (uint32_bytes width ++
        (uint32_bytes 0 ++ (uint32_bytes 4 ++ (uint32_bytes height ++
        (uint32_bytes 4 ++ (uint32_bytes 4 ++ (uint32_bytes format.value ++
        (uint32_bytes 5 ++ (uint32_bytes 4 ++ (uint32_bytes usage.value ++
        (uint32_bytes 3 ++ (uint32_bytes data.length ++ (data ++ [])))))))))))))))))⟩⟩
      = Except.ok ⟨width, height, format, usage, data⟩ := by
  simp only [TLVEntry.texture_description_value, TLVReader.begin, TLVReader.end_, ok_bind,
    deref_record4, increment_record4, deref_record _ 2 name _ (by omega),
    increment_record _ 2 name _ hn, deref_record _ 3 data _ (by omega),
    increment_record _ 3 data _ hd, TLVEntry.type, eq_end_false_record,
    TLVEntry.uint32_value, TLVEntry.texture_format_value, TLVEntry.texture_usage_value,
    TLVEntry.byte_array_value, Span.size, uint32_bytes_length,
    load_uint32_uint32_bytes_self _ hw, load_uint32_uint32_bytes_self _ hh,
    load_uint32_uint32_bytes_self _ hf, load_uint32_uint32_bytes_self _ hu,
    TLVType.STRING, TLVType.UINT32, TLVType.TEXTURE_FORMAT, TLVType.TEXTURE_USAGE,
    TLVType.BYTE_ARRAY, TLVType.TEXTURE_DESCRIPTION, Nat.reducePow, Nat.reduceMod,
    beq_self_eq_true, ensure_true, Bool.not_false]
  rw [eq_end_true _ _ (by
    simp only [List.length_append, uint32_bytes_length, List.length_nil]; omega)]
  rfl

theorem load_uint32_array_self (xs : List Nat) (hx : ∀ x ∈ xs, x < 2 ^ 32) :
    load_uint32_array ((uint32_array_bytes xs).length / 4) (uint32_array_bytes xs) = xs := by
  have h := load_uint32_array_bytes xs hx []
  rw [List.append_nil] at h
  have hd : (uint32_array_bytes xs).length / 4 = xs.length := by
    rw [uint32_array_bytes_length]; omega
  rw [hd, h]

theorem load_vertex_data_array_self (vs : List VertexData) :
    load_vertex_data_array ((vertex_data_array_bytes vs).length / sizeof_VertexData)
      (vertex_data_array_bytes vs) = vs := by
  have h := load_vertex_data_array_bytes vs []
  rw [List.append_nil] at h
  have hd : (vertex_data_array_bytes vs).length / sizeof_VertexData = vs.length := by
    rw [vertex_data_array_bytes_length]; simp [sizeof_VertexData]
  rw [hd, h]

theorem mesh_data_value_bytes_eq (name : List Byte) (vertices : List VertexData)
    (indices : List Nat) (hn : name.length < 2 ^ 32)
    (hv : (vertex_data_array_bytes vertices).length < 2 ^ 32)
    (hi : (uint32_array_bytes indices).length < 2 ^ 32) :
    mesh_data_value_bytes name vertices indices
      = uint32_bytes 2 ++ (uint32_bytes name.length ++ (name ++
        (uint32_bytes 7 ++ (uint32_bytes (vertex_data_array_bytes vertices).length ++
          (vertex_data_array_bytes vertices ++
        (uint32_bytes 1 ++ (uint32_bytes (uint32_array_bytes indices).length ++
          (uint32_array_bytes indices ++ [])))))))) := by
  simp only [mesh_data_value_bytes, TLVWriter.yield, write_uint32_array_buffer _ _ hi,
    write_vertex_data_array_buffer _ _ hv, write_string_buffer _ _ hn, List.nil_append,
    List.append_assoc, List.append_nil]

theorem mesh_value_fields (a : Nat) (name : List Byte) (vertices : List VertexData)
    (indices : List Nat) (hx : ∀ x ∈ indices, x < 2 ^ 32)
    (hn : name.length + 8 < 2 ^ 32)
    (hv : (vertex_data_array_bytes vertices).length + 8 < 2 ^ 32)
    (hi : (uint32_array_bytes indices).length + 8 < 2 ^ 32) :
    TLVEntry.mesh_value ⟨TLVType.MESH_DATA, ⟨a,
        uint32_bytes 2 ++ (uint32_bytes name.length ++ (name ++
        (uint32_bytes 7 ++ (uint32_bytes (vertex_data_array_bytes vertices).length ++
          (vertex_data_array_bytes vertices ++
        (uint32_bytes 1 ++ (uint32_bytes (uint32_array_bytes indices).length ++
          (uint32_array_bytes indices ++ []))))))))⟩⟩
      = Except.ok ⟨vertices, indices⟩ := by
  simp only [TLVEntry.mesh_value, TLVReader.begin, TLVReader.end_, ok_bind,
    deref_record _ 2 name _ (by omega), increment_record _ 2 name _ hn,
    deref_record _ 7 (vertex_data_array_bytes vertices) _ (by omega),
    increment_record _ 7 (vertex_data_array_bytes vertices) _ hv,
    deref_record _ 1 (uint32_array_bytes indices) _ (by omega),
    increment_record _ 1 (uint32_array_bytes indices) _ hi,
    TLVEntry.type, Span.size, load_vertex_data_array_self, load_uint32_array_self _ hx,
    TLVType.STRING, TLVType.VERTEX_DATA_ARRAY, TLVType.UINT32_ARRAY, TLVType.MESH_DATA,
    Nat.reducePow, Nat.reduceMod, beq_self_eq_true, ensure_true]
  rw [eq_end_true _ _ (by
    simp only [List.length_append, uint32_bytes_length, List.length_nil]; omega)]
  rfl

theorem uint32_bytes_mod (n : Nat) : uint32_bytes (n % 2 ^ 32) = uint32_bytes n := by
  simp only [uint32_bytes, Nat.mod_mod]

theorem write_texture_description_buffer (w : TLVWriter) (name : List Byte)
    (width height : Nat) (format : TextureFormat) (usage : TextureUsage) (data : List Byte) :
    (w.write_texture_description name width height format usage data).buffer_
      = w.buffer_ ++ (uint32_bytes 8 ++
          (uint32_bytes (texture_description_value_bytes name width height format usage
              data).length ++
            texture_description_value_bytes name width height format usage data)) := by
  simp only [TLVWriter.write_texture_description, write_entry_eq, TLVType.TEXTURE_DESCRIPTION,
    uint32_bytes_mod]

theorem write_mesh_data_buffer (w : TLVWriter) (name : List Byte)
    (vertices : List VertexData) (indices : List Nat) :
    (w.write_mesh_data name vertices indices).buffer_
      = w.buffer_ ++ (uint32_bytes 9 ++
          (uint32_bytes (mesh_data_value_bytes name vertices indices).length ++
            mesh_data_value_bytes name vertices indices)) := by
  simp only [TLVWriter.write_mesh_data, write_entry_eq, TLVType.MESH_DATA, uint32_bytes_mod]

theorem write_call_buffer (w : TLVWriter) (c : WriteCall) (h : c.value.length < 2 ^ 32) :
    (w.write c).buffer_
      = w.buffer_ ++ (uint32_bytes c.type.value ++ (uint32_bytes c.value.length ++ c.value)) := by
  cases c with
  | uint32 v =>
    simp only [WriteCall.value, WriteCall.type, TLVWriter.write, write_uint32_buffer,
      uint32_bytes_length, TLVType.UINT32]
  | uint32_array xs =>
    simp only [WriteCall.value] at h
    simp only [WriteCall.value, WriteCall.type, TLVWriter.write,
      write_uint32_array_buffer w xs h, TLVType.UINT32_ARRAY]
  | string v =>
    simp only [WriteCall.value] at h
    simp only [WriteCall.value, WriteCall.type, TLVWriter.write, write_string_buffer w v h,
      TLVType.STRING]
  | byte_array v =>
    simp only [WriteCall.value] at h
    simp only [WriteCall.value, WriteCall.type, TLVWriter.write, write_byte_array_buffer w v h,
      TLVType.BYTE_ARRAY]
  | texture_format v =>
    simp only [WriteCall.value, WriteCall.type, TLVWriter.write, write_texture_format_buffer,
      uint32_bytes_length, TLVType.TEXTURE_FORMAT]
  | texture_usage v =>
    simp only [WriteCall.value, WriteCall.type, TLVWriter.write, write_texture_usage_buffer,
      uint32_bytes_length, TLVType.TEXTURE_USAGE]
  | vertex_data v =>
    simp only [WriteCall.value, WriteCall.type, TLVWriter.write, write_vertex_data_buffer,
      v.size_eq, sizeof_VertexData, TLVType.VERTEX_DATA]
  | vertex_data_array vs =>
    simp only [WriteCall.value] at h
    simp only [WriteCall.value, WriteCall.type, TLVWriter.write,
      write_vertex_data_array_buffer w vs h, TLVType.VERTEX_DATA_ARRAY]
  | texture_description name width height format usage data =>
    simp only [WriteCall.value, WriteCall.type, TLVWriter.write,
      write_texture_description_buffer, TLVType.TEXTURE_DESCRIPTION]
  | mesh_data name vertices indices =>
    simp only [WriteCall.value, WriteCall.type, TLVWriter.write, write_mesh_data_buffer,
      TLVType.MESH_DATA]

theorem write_call_type_lt (c : WriteCall) : c.type.value < 2 ^ 32 := by
  cases c <;> simp [WriteCall.type, TLVType.UINT32, TLVType.UINT32_ARRAY, TLVType.STRING,
    TLVType.BYTE_ARRAY, TLVType.TEXTURE_FORMAT, TLVType.TEXTURE_USAGE, TLVType.VERTEX_DATA,
    TLVType.VERTEX_DATA_ARRAY, TLVType.TEXTURE_DESCRIPTION, TLVType.MESH_DATA]

theorem write_all_buffer (calls : List WriteCall)
    (h : ∀ c ∈ calls, c.value.length < 2 ^ 32) (w : TLVWriter) :
    (w.write_all calls).buffer_ = w.buffer_ ++ (TLVWriter.write_all {} calls).buffer_ := by
  induction calls generalizing w with
  | nil => simp [TLVWriter.write_all]
  | cons c cs ih =>
    have hc := h c (List.mem_cons_self c cs)
    have hcs : ∀ d ∈ cs, d.value.length < 2 ^ 32 := fun d hd => h d (List.mem_cons_of_mem c hd)
    have e1 : w.write_all (c :: cs) = (w.write c).write_all cs := rfl
    have e2 : TLVWriter.write_all {} (c :: cs) = (TLVWriter.write {} c).write_all cs := rfl
    rw [e1, e2, ih hcs (w.write c), ih hcs (TLVWriter.write {} c), write_call_buffer w c hc,
      write_call_buffer {} c hc]
    simp

theorem write_all_cons_buffer (c : WriteCall) (cs : List WriteCall)
    (h : ∀ d ∈ c :: cs, d.value.length < 2 ^ 32) :
    (TLVWriter.write_all {} (c :: cs)).buffer_
      = uint32_bytes c.type.value ++ (uint32_bytes c.value.length ++
          (c.value ++ (TLVWriter.write_all {} cs).buffer_)) := by
  have hc := h c (List.mem_cons_self c cs)
  have hcs : ∀ d ∈ cs, d.value.length < 2 ^ 32 := fun d hd => h d (List.mem_cons_of_mem c hd)
  have e2 : TLVWriter.write_all {} (c :: cs) = (TLVWriter.write {} c).write_all cs := rfl
  rw [e2, write_all_buffer cs hcs, write_call_buffer {} c hc]
  simp

theorem collect_write_all (calls : List WriteCall)
    (h : ∀ c ∈ calls, c.value.length < 2 ^ 32 - 8) (a last fuel : Nat)
    (hlast : last = a + (TLVWriter.write_all {} calls).buffer_.length)
    (hfuel : calls.length < fuel) :
    ∃ entries,
      Iterator.collect ⟨⟨last, []⟩⟩ fuel ⟨⟨a, (TLVWriter.write_all {} calls).buffer_⟩⟩
        = some (.ok entries)
      ∧ entries.map (fun e => (e.type, e.value_.bytes))
        = calls.map (fun c => (c.type, c.value)) := by
  induction calls generalizing a fuel with
  | nil =>
    obtain ⟨f, rfl⟩ : ∃ f, fuel = f + 1 := ⟨fuel - 1, by simp at hfuel; omega⟩
    refine ⟨[], ?_, rfl⟩
    have e : (TLVWriter.write_all {} ([] : List WriteCall)).buffer_ = [] := rfl
    rw [e] at hlast ⊢
    simp only [Iterator.collect, eq_end_true a last (by simpa using hlast), if_true]
  | cons c cs ih =>
    obtain ⟨f, rfl⟩ : ∃ f, fuel = f + 1 := ⟨fuel - 1, by simp at hfuel; omega⟩
    have hc := h c (List.mem_cons_self c cs)
    have hcs : ∀ d ∈ cs, d.value.length < 2 ^ 32 - 8 :=
      fun d hd => h d (List.mem_cons_of_mem c hd)
    have hb := write_all_cons_buffer c cs (fun d hd => by have := h d hd; omega)
    rw [hb] at hlast ⊢
    obtain ⟨es, hes, hmap⟩ := ih hcs (a + (8 + c.value.length)) f
      (by rw [hlast]; simp only [List.length_append, uint32_bytes_length]; omega)
      (by simpa using hfuel)
    refine ⟨⟨⟨c.type.value⟩, ⟨a + 8, c.value⟩⟩ :: es, ?_, ?_⟩
    · simp only [Iterator.collect, eq_end_false_record, Bool.false_eq_true, if_false,
        deref_record a c.type.value c.value _ (by omega),
        increment_record a c.type.value c.value _ (by omega), hes,
        Nat.mod_eq_of_lt (write_call_type_lt c)]
    · rw [List.map_cons, List.map_cons, hmap]
      rfl

theorem advance_write_all (calls : List WriteCall)
    (h : ∀ c ∈ calls, c.value.length < 2 ^ 32 - 8) (a : Nat) :
    Iterator.advance calls.length ⟨⟨a, (TLVWriter.write_all {} calls).buffer_⟩⟩
      = .ok ⟨⟨a + (TLVWriter.write_all {} calls).buffer_.length, []⟩⟩ := by
  induction calls generalizing a with
  | nil => rfl
  | cons c cs ih =>
    have hc := h c (List.mem_cons_self c cs)
    have hcs : ∀ d ∈ cs, d.value.length < 2 ^ 32 - 8 :=
      fun d hd => h d (List.mem_cons_of_mem c hd)
    have hb := write_all_cons_buffer c cs (fun d hd => by have := h d hd; omega)
    rw [hb]
    simp only [List.length_cons, Iterator.advance,
      increment_record a c.type.value c.value _ (by omega), ok_bind, ih hcs]
    congr 3
    simp only [List.length_append, uint32_bytes_length]; omega

/-! ## Round trips of the primitive overloads -/

/-- C1: a `std::uint32_t` written into a fresh writer is read back unchanged by
`uint32_value()` on the entry at `begin()` of a reader over the yielded buffer. -/
theorem write_uint32_round_trip (addr v : Nat) (hv : v < 2 ^ 32) :
    (TLVReader.mk (span_of addr (TLVWriter.write_uint32 {} v).yield.1)).begin.deref
      >>= TLVEntry.uint32_value = Except.ok v := by
  have h := begin_deref_single addr 0 (uint32_bytes v) (by simp [uint32_bytes_length])
  rw [uint32_bytes_length] at h
  simp only [TLVWriter.yield, write_uint32_buffer, List.nil_append, h, ok_bind,
    TLVEntry.uint32_value, Span.size, uint32_bytes_length, load_uint32_uint32_bytes_self v hv]
  rfl

/-- Witness of C1 at `v = 0xaabbccdd`. -/
theorem write_uint32_round_trip_witness :
    (TLVReader.mk (span_of 0 (TLVWriter.write_uint32 {} 0xaabbccdd).yield.1)).begin.deref
      >>= TLVEntry.uint32_value = Except.ok 0xaabbccdd :=
  write_uint32_round_trip 0 0xaabbccdd (by norm_num)

/-- C2: a string shorter than `2 ^ 32` bytes written into a fresh writer is read
back byte for byte by `string_value()` on the entry at `begin()`. -/
theorem write_string_round_trip (addr : Nat) (s : List Byte) (hs : s.length < 2 ^ 32) :
    (TLVReader.mk (span_of addr (TLVWriter.write_string {} s).yield.1)).begin.deref
      >>= TLVEntry.string_value = Except.ok s := by
  simp only [TLVWriter.yield, write_string_buffer _ s hs, List.nil_append,
    begin_deref_single addr 2 s hs, ok_bind, TLVEntry.string_value]
  rfl

/-- Witness of C2 at `s = "hello world"`. -/
theorem write_string_round_trip_witness :
    (TLVReader.mk (span_of 0 (TLVWriter.write_string {}
        [0x68, 0x65, 0x6c, 0x6c, 0x6f, 0x20, 0x77, 0x6f, 0x72, 0x6c, 0x64]).yield.1)).begin.deref
      >>= TLVEntry.string_value
      = Except.ok [0x68, 0x65, 0x6c, 0x6c, 0x6f, 0x20, 0x77, 0x6f, 0x72, 0x6c, 0x64] :=
  write_string_round_trip 0 _ (by norm_num)

/-- C3: a byte sequence shorter than `2 ^ 32` bytes written into a fresh writer
is read back unchanged by `byte_array_value()` on the entry at `begin()`. -/
theorem write_byte_array_round_trip (addr : Nat) (d : List Byte) (hd : d.length < 2 ^ 32) :
    (TLVReader.mk (span_of addr (TLVWriter.write_byte_array {} d).yield.1)).begin.deref
      >>= TLVEntry.byte_array_value = Except.ok d := by
  simp only [TLVWriter.yield, write_byte_array_buffer _ d hd, List.nil_append,
    begin_deref_single addr 3 d hd, ok_bind, TLVEntry.byte_array_value]
  rfl

/-- Witness of C3 at `d = [0xaa, 0xbb, 0xcc]`. -/
theorem write_byte_array_round_trip_witness :
    (TLVReader.mk (span_of 0 (TLVWriter.write_byte_array {} [0xaa, 0xbb, 0xcc]).yield.1)).begin.deref
      >>= TLVEntry.byte_array_value = Except.ok [0xaa, 0xbb, 0xcc] :=
  write_byte_array_round_trip 0 _ (by norm_num)

/-- C6: a list of 32-bit values whose object representation is shorter than
`2 ^ 32` bytes, written into a fresh writer, is read back element for element by
`uint32_array_value()` on the entry at `begin()`; the copy fills the vector
exactly. -/
theorem write_uint32_array_round_trip (addr : Nat) (xs : List Nat)
    (hx : ∀ x ∈ xs, x < 2 ^ 32) (hlen : 4 * xs.length < 2 ^ 32) :
    (TLVReader.mk (span_of addr (TLVWriter.write_uint32_array {} xs).yield.1)).begin.deref
      >>= TLVEntry.uint32_array_value = Except.ok (Filled.filled xs) := by
  have hl := uint32_array_bytes_length xs
  have hp : (uint32_array_bytes xs).length < 2 ^ 32 := by omega
  have hd : (uint32_array_bytes xs).length / 4 = xs.length := by omega
  have hc : (uint32_array_bytes xs).length ≤ xs.length * 4 := by omega
  have hload := load_uint32_array_bytes xs hx []
  rw [List.append_nil] at hload
  simp only [TLVWriter.yield, write_uint32_array_buffer _ xs hp, List.nil_append,
    begin_deref_single addr 1 _ hp, ok_bind, TLVEntry.uint32_array_value, Span.size, hd, hload,
    if_pos hc]
  rfl

/-- Witness of C6 at `xs = [1, 0xaabbccdd, 0]`. -/
theorem write_uint32_array_round_trip_witness :
    (TLVReader.mk (span_of 0
        (TLVWriter.write_uint32_array {} [1, 0xaabbccdd, 0]).yield.1)).begin.deref
      >>= TLVEntry.uint32_array_value = Except.ok (Filled.filled [1, 0xaabbccdd, 0]) :=
  write_uint32_array_round_trip 0 [1, 0xaabbccdd, 0] (by decide) (by norm_num)

/-! ## Round trips of the composite overloads -/

/-- C4: a texture description whose nested encoding (name record, four 12-byte
scalar records, data record) is shorter than `2 ^ 32` bytes, written into a fresh
writer, is read back field for field by `texture_description_value()`. -/
theorem write_texture_description_round_trip (addr : Nat) (name : List Byte)
    (width height : Nat) (format : TextureFormat) (usage : TextureUsage) (data : List Byte)
    (hw : width < 2 ^ 32) (hh : height < 2 ^ 32)
    (hf : format.value < 2 ^ 32) (hu : usage.value < 2 ^ 32)
    (hsize : (8 + name.length) + 12 + 12 + 12 + 12 + (8 + data.length) < 2 ^ 32) :
    (TLVReader.mk (span_of addr (TLVWriter.write_texture_description {} name width height
        format usage data).yield.1)).begin.deref
      >>= TLVEntry.texture_description_value
      = Except.ok ⟨width, height, format, usage, data⟩ := by
  have hn : name.length < 2 ^ 32 := by omega
  have hd : data.length < 2 ^ 32 := by omega
  have hv := texture_description_value_bytes_eq name width height format usage data hn hd
  have hlen : (texture_description_value_bytes name width height format usage data).length
      = (8 + name.length) + 12 + 12 + 12 + 12 + (8 + data.length) := by
    rw [hv]; simp only [List.length_append, uint32_bytes_length, List.length_nil]; omega
  have hlt : (texture_description_value_bytes name width height format usage data).length
      < 2 ^ 32 := by omega
  have ho := begin_deref_single addr 8
    (texture_description_value_bytes name width height format usage data) hlt
  simp only [TLVWriter.yield, TLVWriter.write_texture_description, write_entry_eq,
    List.nil_append, TLVType.TEXTURE_DESCRIPTION, Nat.mod_eq_of_lt hlt, ho, ok_bind]
  rw [hv]
  exact texture_description_value_fields (addr + 8) name width height format usage data
    hw hh hf hu (by omega) (by omega)

/-- Witness of C4 at `"tex.png"`, 100, 101, `RGB`, `SRGB`, `[0xaa, 0xbb, 0xcc]`. -/
theorem write_texture_description_round_trip_witness :
    (TLVReader.mk (span_of 0 (TLVWriter.write_texture_description {}
        [0x74, 0x65, 0x78, 0x2e, 0x70, 0x6e, 0x67] 100 101 TextureFormat.RGB TextureUsage.SRGB
        [0xaa, 0xbb, 0xcc]).yield.1)).begin.deref
      >>= TLVEntry.texture_description_value
      = Except.ok ⟨100, 101, TextureFormat.RGB, TextureUsage.SRGB, [0xaa, 0xbb, 0xcc]⟩ :=
  write_texture_description_round_trip 0 [0x74, 0x65, 0x78, 0x2e, 0x70, 0x6e, 0x67] 100 101
    TextureFormat.RGB TextureUsage.SRGB [0xaa, 0xbb, 0xcc]
    (by norm_num) (by norm_num) (by norm_num [TextureFormat.RGB])
    (by norm_num [TextureUsage.SRGB]) (by norm_num)

/-- C5: a mesh whose nested encoding (name record, vertex array record, index
array record) is shorter than `2 ^ 32` bytes, written into a fresh writer, is read
back by `mesh_value()` with the same vertices and the same indices. -/
theorem write_mesh_data_round_trip (addr : Nat) (name : List Byte)
    (vertices : List VertexData) (indices : List Nat)
    (hx : ∀ x ∈ indices, x < 2 ^ 32)
    (hsize : (8 + name.length) + (8 + 44 * vertices.length) + (8 + 4 * indices.length)
      < 2 ^ 32) :
    (TLVReader.mk (span_of addr
        (TLVWriter.write_mesh_data {} name vertices indices).yield.1)).begin.deref
      >>= TLVEntry.mesh_value = Except.ok ⟨vertices, indices⟩ := by
  have hvl := vertex_data_array_bytes_length vertices
  have hil := uint32_array_bytes_length indices
  simp only [sizeof_VertexData] at hvl
  have hb := mesh_data_value_bytes_eq name vertices indices (by omega) (by omega) (by omega)
  have hlt : (mesh_data_value_bytes name vertices indices).length < 2 ^ 32 := by
    rw [hb]; simp only [List.length_append, uint32_bytes_length, List.length_nil]; omega
  have ho := begin_deref_single addr 9 (mesh_data_value_bytes name vertices indices) hlt
  simp only [TLVWriter.yield, TLVWriter.write_mesh_data, write_entry_eq,
    List.nil_append, TLVType.MESH_DATA, Nat.mod_eq_of_lt hlt, ho, ok_bind]
  rw [hb]
  exact mesh_value_fields (addr + 8) name vertices indices hx (by omega) (by omega) (by omega)

/-- Witness of C5: a mesh named `"m"` with one vertex and the indices `0, 1, 2`. -/
theorem write_mesh_data_round_trip_witness :
    (TLVReader.mk (span_of 0
        (TLVWriter.write_mesh_data {} [0x6d] [sample_vertex] [0, 1, 2]).yield.1)).begin.deref
      >>= TLVEntry.mesh_value = Except.ok ⟨[sample_vertex], [0, 1, 2]⟩ :=
  write_mesh_data_round_trip 0 [0x6d] [sample_vertex] [0, 1, 2] (by decide) (by norm_num)

/-! ## Layout of the written buffer -/

/-- C7: one `write(std::uint32_t)` on a fresh writer yields exactly 12 bytes: tag 0,
length 4 and the value, each as four little-endian bytes; for `0xAABBCCDD` the
buffer is `00 00 00 00 04 00 00 00 DD CC BB AA`. -/
theorem write_uint32_yields_twelve_bytes (v : Nat) :
    (TLVWriter.write_uint32 {} v).yield.1
        = [0, 0, 0, 0, 4, 0, 0, 0, Fin.ofNat (v % 256), Fin.ofNat (v / 2 ^ 8 % 256),
            Fin.ofNat (v / 2 ^ 16 % 256), Fin.ofNat (v / 2 ^ 24 % 256)]
      ∧ (TLVWriter.write_uint32 {} v).yield.1.length = 12
      ∧ (TLVWriter.write_uint32 {} 0xAABBCCDD).yield.1
        = [0x00, 0x00, 0x00, 0x00, 0x04, 0x00, 0x00, 0x00, 0xDD, 0xCC, 0xBB, 0xAA] := by
  refine ⟨?_, rfl, by decide⟩
  simp only [TLVWriter.yield, write_uint32_buffer, List.nil_append, uint32_bytes,
    List.cons_append, List.cons.injEq, and_true, Fin.ofNat, Fin.mk.injEq]
  refine ⟨?_, ?_, ?_, ?_, ?_, ?_, ?_, ?_, ?_, ?_, ?_, ?_⟩ <;> first | rfl | omega

/-- C8: on a writer holding the bytes `b`, each primitive overload given a value
whose payload `p` is shorter than `2 ^ 32` bytes leaves the buffer
`b ++ LE32(tag) ++ LE32(|p|) ++ p`, with tags 0 to 7 in the order `UINT32`,
`UINT32_ARRAY`, `STRING`, `BYTE_ARRAY`, `TEXTURE_FORMAT`, `TEXTURE_USAGE`,
`VERTEX_DATA`, `VERTEX_DATA_ARRAY`; the composite overloads write tags 8 and 9;
every call keeps the bytes `b` as the start of the buffer. -/
theorem write_appends_tag_length_value (b : List Byte) (v : Nat) (xs : List Nat)
    (s d : List Byte) (format : TextureFormat) (usage : TextureUsage) (vertex : VertexData)
    (vertices : List VertexData) (name : List Byte) (width height : Nat) (c : WriteCall)
    (hxs : (uint32_array_bytes xs).length < 2 ^ 32) (hs : s.length < 2 ^ 32)
    (hd : d.length < 2 ^ 32) (hvs : (vertex_data_array_bytes vertices).length < 2 ^ 32) :
    (TLVWriter.write_uint32 ⟨b⟩ v).buffer_
        = b ++ uint32_bytes 0 ++ uint32_bytes (uint32_bytes v).length ++ uint32_bytes v
      ∧ (TLVWriter.write_uint32_array ⟨b⟩ xs).buffer_
        = b ++ uint32_bytes 1 ++ uint32_bytes (uint32_array_bytes xs).length
            ++ uint32_array_bytes xs
      ∧ (TLVWriter.write_string ⟨b⟩ s).buffer_
        = b ++ uint32_bytes 2 ++ uint32_bytes s.length ++ s
      ∧ (TLVWriter.write_byte_array ⟨b⟩ d).buffer_
        = b ++ uint32_bytes 3 ++ uint32_bytes d.length ++ d
      ∧ (TLVWriter.write_texture_format ⟨b⟩ format).buffer_
        = b ++ uint32_bytes 4 ++ uint32_bytes (uint32_bytes format.value).length
            ++ uint32_bytes format.value
      ∧ (TLVWriter.write_texture_usage ⟨b⟩ usage).buffer_
        = b ++ uint32_bytes 5 ++ uint32_bytes (uint32_bytes usage.value).length
            ++ uint32_bytes usage.value
      ∧ (TLVWriter.write_vertex_data ⟨b⟩ vertex).buffer_
        = b ++ uint32_bytes 6 ++ uint32_bytes vertex.bytes.length ++ vertex.bytes
      ∧ (TLVWriter.write_vertex_data_array ⟨b⟩ vertices).buffer_
        = b ++ uint32_bytes 7 ++ uint32_bytes (vertex_data_array_bytes vertices).length
            ++ vertex_data_array_bytes vertices
      ∧ (TLVWriter.write_texture_description ⟨b⟩ name width height format usage d).buffer_
        = b ++ uint32_bytes 8
            ++ uint32_bytes (texture_description_value_bytes name width height format usage
                d).length
            ++ texture_description_value_bytes name width height format usage d
      ∧ (TLVWriter.write_mesh_data ⟨b⟩ name vertices xs).buffer_
        = b ++ uint32_bytes 9 ++ uint32_bytes (mesh_data_value_bytes name vertices xs).length
            ++ mesh_data_value_bytes name vertices xs
      ∧ ((TLVWriter.write ⟨b⟩ c).buffer_.take b.length = b) := by
  refine ⟨?_, ?_, ?_, ?_, ?_, ?_, ?_, ?_, ?_, ?_, ?_⟩
  · simp only [write_uint32_buffer, uint32_bytes_length, List.append_assoc]
  · simp only [write_uint32_array_buffer _ xs hxs, List.append_assoc]
  · simp only [write_string_buffer _ s hs, List.append_assoc]
  · simp only [write_byte_array_buffer _ d hd, List.append_assoc]
  · simp only [write_texture_format_buffer, uint32_bytes_length, List.append_assoc]
  · simp only [write_texture_usage_buffer, uint32_bytes_length, List.append_assoc]
  · simp only [write_vertex_data_buffer, vertex.size_eq, sizeof_VertexData, List.append_assoc]
  · simp only [write_vertex_data_array_buffer _ vertices hvs, List.append_assoc]
  · simp only [write_texture_description_buffer, List.append_assoc]
  · simp only [write_mesh_data_buffer, List.append_assoc]
  · cases c <;>
      simp only [TLVWriter.write, TLVWriter.write_uint32, TLVWriter.write_uint32_array,
        TLVWriter.write_string, TLVWriter.write_byte_array, TLVWriter.write_texture_format,
        TLVWriter.write_texture_usage, TLVWriter.write_vertex_data,
        TLVWriter.write_vertex_data_array, TLVWriter.write_texture_description,
        TLVWriter.write_mesh_data, write_entry_eq, List.take_left]

/-- Witness of C8: a writer already holding one byte, and small values for every overload. -/
theorem write_appends_tag_length_value_witness :
    (TLVWriter.write_uint32 ⟨[0xff]⟩ 7).buffer_
        = [0xff] ++ uint32_bytes 0 ++ uint32_bytes (uint32_bytes 7).length ++ uint32_bytes 7
      ∧ (TLVWriter.write_uint32_array ⟨[0xff]⟩ [1, 2]).buffer_
        = [0xff] ++ uint32_bytes 1 ++ uint32_bytes (uint32_array_bytes [1, 2]).length
            ++ uint32_array_bytes [1, 2]
      ∧ (TLVWriter.write_string ⟨[0xff]⟩ [0x79, 0x6f]).buffer_
        = [0xff] ++ uint32_bytes 2 ++ uint32_bytes [(0x79 : Byte), 0x6f].length ++ [0x79, 0x6f]
      ∧ (TLVWriter.write_byte_array ⟨[0xff]⟩ [0xaa, 0xbb, 0xcc]).buffer_
        = [0xff] ++ uint32_bytes 3 ++ uint32_bytes [(0xaa : Byte), 0xbb, 0xcc].length
            ++ [0xaa, 0xbb, 0xcc]
      ∧ (TLVWriter.write_texture_format ⟨[0xff]⟩ TextureFormat.RGBA).buffer_
        = [0xff] ++ uint32_bytes 4 ++ uint32_bytes (uint32_bytes TextureFormat.RGBA.value).length
            ++ uint32_bytes TextureFormat.RGBA.value
      ∧ (TLVWriter.write_texture_usage ⟨[0xff]⟩ TextureUsage.DATA).buffer_
        = [0xff] ++ uint32_bytes 5 ++ uint32_bytes (uint32_bytes TextureUsage.DATA.value).length
            ++ uint32_bytes TextureUsage.DATA.value
      ∧ (TLVWriter.write_vertex_data ⟨[0xff]⟩ sample_vertex).buffer_
        = [0xff] ++ uint32_bytes 6 ++ uint32_bytes sample_vertex.bytes.length
            ++ sample_vertex.bytes
      ∧ (TLVWriter.write_vertex_data_array ⟨[0xff]⟩ [sample_vertex]).buffer_
        = [0xff] ++ uint32_bytes 7
            ++ uint32_bytes (vertex_data_array_bytes [sample_vertex]).length
            ++ vertex_data_array_bytes [sample_vertex]
      ∧ (TLVWriter.write_texture_description ⟨[0xff]⟩ [0x74] 100 101 TextureFormat.RGBA
            TextureUsage.DATA [0xaa, 0xbb, 0xcc]).buffer_
        = [0xff] ++ uint32_bytes 8
            ++ uint32_bytes (texture_description_value_bytes [0x74] 100 101 TextureFormat.RGBA
                TextureUsage.DATA [0xaa, 0xbb, 0xcc]).length
            ++ texture_description_value_bytes [0x74] 100 101 TextureFormat.RGBA
                TextureUsage.DATA [0xaa, 0xbb, 0xcc]
      ∧ (TLVWriter.write_mesh_data ⟨[0xff]⟩ [0x74] [sample_vertex] [1, 2]).buffer_
        = [0xff] ++ uint32_bytes 9
            ++ uint32_bytes (mesh_data_value_bytes [0x74] [sample_vertex] [1, 2]).length
            ++ mesh_data_value_bytes [0x74] [sample_vertex] [1, 2]
      ∧ ((TLVWriter.write ⟨[0xff]⟩ (WriteCall.uint32 7)).buffer_.take [(0xff : Byte)].length
          = [0xff]) :=
  write_appends_tag_length_value [0xff] 7 [1, 2] [0x79, 0x6f] [0xaa, 0xbb, 0xcc]
    TextureFormat.RGBA TextureUsage.DATA sample_vertex [sample_vertex] [0x74] 100 101
    (WriteCall.uint32 7) (by decide) (by decide) (by decide) (by decide)

/-! ## Yield -/

/-- C9: `yield()` returns the accumulated bytes and leaves the buffer empty; a
second `yield()` right after returns the empty buffer; after writes `A`, a yield,
writes `B` and a second yield, the second result is what a fresh writer yields
after `B` alone. -/
theorem yield_drains_buffer (w : TLVWriter) (A B : List WriteCall) :
    w.yield.1 = w.buffer_
      ∧ w.yield.2.buffer_ = []
      ∧ w.yield.2 = ({} : TLVWriter)
      ∧ w.yield.2.yield.1 = []
      ∧ ((TLVWriter.write_all {} A).yield.1 = (TLVWriter.write_all {} A).buffer_)
      ∧ ((((TLVWriter.write_all {} A).yield.2).write_all B).yield.1
          = (TLVWriter.write_all {} B).yield.1)
      ∧ ((((w.write_all A).yield.2).write_all B).yield.1
          = (TLVWriter.write_all {} B).yield.1) :=
  ⟨rfl, rfl, rfl, rfl, rfl, rfl, rfl⟩

/-! ## Iteration over a written buffer -/

/-- C10: for `N` write calls of any kinds on a fresh writer, each value shorter
than `2 ^ 32 - 8` bytes, the range loop over a reader on the yielded buffer ends
(given more than `N` units of fuel) with exactly `N` entries, the i-th carrying
the tag and the value bytes of the i-th call, and `N` increments from `begin()`
give an iterator equal to `end()`. -/
theorem reader_yields_written_entries (addr : Nat) (calls : List WriteCall) (fuel : Nat)
    (h : ∀ c ∈ calls, c.value.length < 2 ^ 32 - 8) (hfuel : calls.length < fuel) :
    (∃ entries,
        (TLVReader.mk (span_of addr (TLVWriter.write_all {} calls).yield.1)).entries fuel
          = some (.ok entries)
        ∧ entries.length = calls.length
        ∧ entries.map (fun e => (e.type, e.value_.bytes))
          = calls.map (fun c => (c.type, c.value)))
      ∧ (∃ it,
        Iterator.advance calls.length
            (TLVReader.mk (span_of addr (TLVWriter.write_all {} calls).yield.1)).begin
          = .ok it
        ∧ it.eq (TLVReader.mk (span_of addr (TLVWriter.write_all {} calls).yield.1)).end_
          = true) := by
  constructor
  · obtain ⟨es, hes, hmap⟩ := collect_write_all calls h addr
      (addr + (TLVWriter.write_all {} calls).buffer_.length) fuel rfl hfuel
    refine ⟨es, hes, ?_, hmap⟩
    have := congrArg List.length hmap
    simpa using this
  · exact ⟨_, advance_write_all calls h addr, eq_end_true _ _ rfl⟩

/-- Witness of C10: `UINT32 0xaabbccdd` then `STRING "yo"`, the 22-byte buffer of
the range loop test. -/
theorem reader_yields_written_entries_witness :
    ((TLVWriter.write_all {} [WriteCall.uint32 0xaabbccdd, WriteCall.string [0x79, 0x6f]]).yield.1
        = [0x00, 0x00, 0x00, 0x00, 0x04, 0x00, 0x00, 0x00, 0xdd, 0xcc, 0xbb, 0xaa,
           0x02, 0x00, 0x00, 0x00, 0x02, 0x00, 0x00, 0x00, 0x79, 0x6f])
      ∧ ((∃ entries,
        (TLVReader.mk (span_of 0 (TLVWriter.write_all {}
            [WriteCall.uint32 0xaabbccdd, WriteCall.string [0x79, 0x6f]]).yield.1)).entries 3
          = some (.ok entries)
        ∧ entries.length = [WriteCall.uint32 0xaabbccdd, WriteCall.string [0x79, 0x6f]].length
        ∧ entries.map (fun e => (e.type, e.value_.bytes))
          = [WriteCall.uint32 0xaabbccdd, WriteCall.string [0x79, 0x6f]].map
              (fun c => (c.type, c.value)))
      ∧ (∃ it,
        Iterator.advance [WriteCall.uint32 0xaabbccdd, WriteCall.string [0x79, 0x6f]].length
            (TLVReader.mk (span_of 0 (TLVWriter.write_all {}
              [WriteCall.uint32 0xaabbccdd, WriteCall.string [0x79, 0x6f]]).yield.1)).begin
          = .ok it
        ∧ it.eq (TLVReader.mk (span_of 0 (TLVWriter.write_all {}
              [WriteCall.uint32 0xaabbccdd, WriteCall.string [0x79, 0x6f]]).yield.1)).end_
          = true)) :=
  ⟨by decide, reader_yields_written_entries 0
    [WriteCall.uint32 0xaabbccdd, WriteCall.string [0x79, 0x6f]] 3 (by decide) (by decide)⟩

/-! ## Dereference -/

theorem load_uint32_eq_little_endian_32 (s : List Byte) :
    load_uint32 s = little_endian_32 s 0 := by
  rcases s with _ | ⟨a, _ | ⟨b, _ | ⟨c, _ | ⟨d, t⟩⟩⟩⟩ <;>
    simp [load_uint32, little_endian_32] <;> omega

theorem load_uint32_drop_eq_little_endian_32 (s : List Byte) :
    load_uint32 (s.drop 4) = little_endian_32 s 4 := by
  rw [load_uint32_eq_little_endian_32]
  simp only [little_endian_32, List.getD_eq_getElem?_getD, List.getElem?_drop]

theorem deref_of_fits (it : Iterator) (h8 : 8 ≤ it.buffer_.size)
    (hL : 8 + load_uint32 (it.buffer_.bytes.drop 4) ≤ it.buffer_.size) :
    it.deref = .ok ⟨⟨load_uint32 it.buffer_.bytes⟩,
      it.buffer_.subspan 8 (load_uint32 (it.buffer_.bytes.drop 4))⟩ := by
  have e1 : ensure (decide (it.buffer_.size ≥ 4 + 4)) "invalid entry size" = .ok () :=
    ensure_of _ _ (by simpa using h8)
  have e2 : ensure (decide (it.buffer_.size ≥ 4 + 4 + load_uint32 (it.buffer_.bytes.drop 4)))
      "invalid length" = .ok () :=
    ensure_of _ _ (by simp only [decide_eq_true_eq]; omega)
  simp only [Iterator.deref, e1, e2, ok_bind, Nat.reduceAdd, pure, Except.pure]

theorem ensure_of_false (c : Bool) (msg : String) (h : c = false) :
    ensure c msg = .error ⟨msg⟩ := by
  subst h; rfl

theorem error_bind {α β : Type} (err : Exception) (f : α → Except Exception β) :
    (Except.error err >>= f) = Except.error err := rfl

theorem deref_of_short (it : Iterator) (h : it.buffer_.size < 8) :
    it.deref = .error ⟨"invalid entry size"⟩ := by
  have e1 : ensure (decide (it.buffer_.size ≥ 4 + 4)) "invalid entry size"
      = .error ⟨"invalid entry size"⟩ :=
    ensure_of_false _ _ (by simp only [decide_eq_false_iff_not]; omega)
  simp only [Iterator.deref, e1, error_bind]

theorem deref_of_cut_value (it : Iterator) (h8 : 8 ≤ it.buffer_.size)
    (hL : it.buffer_.size < 8 + load_uint32 (it.buffer_.bytes.drop 4)) :
    it.deref = .error ⟨"invalid length"⟩ := by
  have e1 : ensure (decide (it.buffer_.size ≥ 4 + 4)) "invalid entry size" = .ok () :=
    ensure_of _ _ (by simpa using h8)
  have e2 : ensure (decide (it.buffer_.size ≥ 4 + 4 + load_uint32 (it.buffer_.bytes.drop 4)))
      "invalid length" = .error ⟨"invalid length"⟩ :=
    ensure_of_false _ _ (by simp only [decide_eq_false_iff_not]; omega)
  simp only [Iterator.deref, e1, ok_bind, e2, error_bind]

/-- C11: when the slice `s` of an iterator has at least 8 bytes and at least
`8 + L` bytes, `L` being the little-endian 32-bit value at `s[4..8)`, `operator*`
returns the entry whose tag is the little-endian 32-bit value at `s[0..4)` and
whose value is the `L` bytes `s[8 .. 8+L)`, starting 8 bytes after the start of
the slice. The operator is `const`: it returns an entry and no iterator. -/
theorem deref_returns_record (it : Iterator) (h8 : 8 ≤ it.buffer_.size)
    (hL : 8 + little_endian_32 it.buffer_.bytes 4 ≤ it.buffer_.size) :
    it.deref = .ok ⟨⟨little_endian_32 it.buffer_.bytes 0⟩,
        ⟨it.buffer_.data + 8,
          (it.buffer_.bytes.drop 8).take (little_endian_32 it.buffer_.bytes 4)⟩⟩
      ∧ ((it.buffer_.bytes.drop 8).take (little_endian_32 it.buffer_.bytes 4)).length
        = little_endian_32 it.buffer_.bytes 4 := by
  rw [← load_uint32_drop_eq_little_endian_32] at hL ⊢
  rw [← load_uint32_eq_little_endian_32]
  refine ⟨by rw [deref_of_fits it h8 hL]; rfl, ?_⟩
  simp only [List.length_take, List.length_drop]
  simp only [Span.size] at hL
  omega

/-- Witness of C11: the 12-byte buffer `00 00 00 00 04 00 00 00 dd cc bb aa`. -/
theorem deref_returns_record_witness :
    (Iterator.deref ⟨⟨0, [0x00, 0x00, 0x00, 0x00, 0x04, 0x00, 0x00, 0x00, 0xdd, 0xcc, 0xbb, 0xaa]⟩⟩
        = .ok ⟨⟨little_endian_32
              [0x00, 0x00, 0x00, 0x00, 0x04, 0x00, 0x00, 0x00, 0xdd, 0xcc, 0xbb, 0xaa] 0⟩,
          ⟨0 + 8, (List.drop 8
              [0x00, 0x00, 0x00, 0x00, 0x04, 0x00, 0x00, 0x00, 0xdd, 0xcc, 0xbb, 0xaa]).take
            (little_endian_32
              [0x00, 0x00, 0x00, 0x00, 0x04, 0x00, 0x00, 0x00, 0xdd, 0xcc, 0xbb, 0xaa] 4)⟩⟩
      ∧ ((List.drop 8
              [(0x00 : Byte), 0x00, 0x00, 0x00, 0x04, 0x00, 0x00, 0x00, 0xdd, 0xcc, 0xbb, 0xaa]).take
            (little_endian_32
              [0x00, 0x00, 0x00, 0x00, 0x04, 0x00, 0x00, 0x00, 0xdd, 0xcc, 0xbb, 0xaa] 4)).length
        = little_endian_32
            [0x00, 0x00, 0x00, 0x00, 0x04, 0x00, 0x00, 0x00, 0xdd, 0xcc, 0xbb, 0xaa] 4)
      ∧ Iterator.deref
          ⟨⟨0, [0x00, 0x00, 0x00, 0x00, 0x04, 0x00, 0x00, 0x00, 0xdd, 0xcc, 0xbb, 0xaa]⟩⟩
        = .ok ⟨TLVType.UINT32, ⟨8, [0xdd, 0xcc, 0xbb, 0xaa]⟩⟩
      ∧ TLVEntry.uint32_value ⟨TLVType.UINT32, ⟨8, [0xdd, 0xcc, 0xbb, 0xaa]⟩⟩
        = .ok 0xaabbccdd :=
  ⟨deref_returns_record
      ⟨⟨0, [0x00, 0x00, 0x00, 0x00, 0x04, 0x00, 0x00, 0x00, 0xdd, 0xcc, 0xbb, 0xaa]⟩⟩
      (by decide) (by decide),
    by rfl, by rfl⟩

/-- C12: `operator*` throws exactly when the slice has fewer than 8 bytes or fewer
than `8 + L` bytes, `L` being the length declared at `s[4..8)`; it returns an
entry exactly when the slice has at least 8 and at least `8 + L` bytes. -/
theorem deref_raises_iff (it : Iterator) :
    ((∃ err, it.deref = .error err)
        ↔ (it.buffer_.size < 8 ∨ it.buffer_.size < 8 + little_endian_32 it.buffer_.bytes 4))
      ∧ ((∃ entry, it.deref = .ok entry)
        ↔ (8 ≤ it.buffer_.size ∧ 8 + little_endian_32 it.buffer_.bytes 4 ≤ it.buffer_.size)) := by
  rw [← load_uint32_drop_eq_little_endian_32]
  by_cases h8 : it.buffer_.size < 8
  · have h := deref_of_short it h8
    constructor
    · exact ⟨fun _ => Or.inl h8, fun _ => ⟨_, h⟩⟩
    · constructor
      · rintro ⟨entry, he⟩; rw [h] at he; cases he
      · rintro ⟨h, _⟩; omega
  · by_cases hL : it.buffer_.size < 8 + load_uint32 (it.buffer_.bytes.drop 4)
    · have h := deref_of_cut_value it (by omega) hL
      constructor
      · exact ⟨fun _ => Or.inr hL, fun _ => ⟨_, h⟩⟩
      · constructor
        · rintro ⟨entry, he⟩; rw [h] at he; cases he
        · rintro ⟨_, h⟩; omega
    · have h := deref_of_fits it (by omega) (by omega)
      constructor
      · constructor
        · rintro ⟨err, he⟩; rw [h] at he; cases he
        · rintro (h | h) <;> omega
      · exact ⟨fun _ => ⟨by omega, by omega⟩, fun _ => ⟨_, h⟩⟩

/-! ## Increment -/

theorem increment_of_fits (it : Iterator) (h8 : 8 ≤ it.buffer_.size)
    (hL : 8 + load_uint32 (it.buffer_.bytes.drop 4) ≤ it.buffer_.size) :
    it.increment = .ok ⟨it.buffer_.last (it.buffer_.size
      - (4 + 4 + (it.buffer_.subspan 8 (load_uint32 (it.buffer_.bytes.drop 4))).size) % 2 ^ 32)⟩ := by
  simp only [Iterator.increment, deref_of_fits it h8 hL, ok_bind, TLVEntry.size, pure, Except.pure]

theorem increment_of_deref_error (it : Iterator) (err : Exception)
    (h : it.deref = .error err) : it.increment = .error err := by
  simp only [Iterator.increment, h, error_bind]

theorem increment_large_record (a t : Nat) (p rest : List Byte)
    (hp : p.length = 4294967288) :
    Iterator.deref ⟨⟨a, uint32_bytes t ++ (uint32_bytes p.length ++ (p ++ rest))⟩⟩
        = .ok ⟨⟨t % 2 ^ 32⟩, ⟨a + 8, p⟩⟩
      ∧ Iterator.increment ⟨⟨a, uint32_bytes t ++ (uint32_bytes p.length ++ (p ++ rest))⟩⟩
        = .ok ⟨⟨a, uint32_bytes t ++ (uint32_bytes p.length ++ (p ++ rest))⟩⟩ := by
  have hd := deref_record a t p rest (by omega)
  refine ⟨hd, ?_⟩
  have hs : (4 + 4 + p.length) % 2 ^ 32 = 0 := by omega
  simp only [Iterator.increment, hd, ok_bind, TLVEntry.size, Span.size, hs, Span.last,
    Nat.sub_zero, Nat.sub_self, Nat.add_zero, List.drop_zero, pure, Except.pure]

theorem increment_large_string (p : List Byte) (hp : p.length = 4294967288) :
    Iterator.deref ⟨⟨0, (TLVWriter.write_string {} p).yield.1⟩⟩
        = .ok ⟨TLVType.STRING, ⟨8, p⟩⟩
      ∧ Iterator.increment ⟨⟨0, (TLVWriter.write_string {} p).yield.1⟩⟩
        = .ok ⟨⟨0, (TLVWriter.write_string {} p).yield.1⟩⟩
      ∧ (TLVWriter.write_string {} p).yield.1.length = 8 + 4294967288 := by
  have hb := write_string_buffer {} p (by rw [hp]; norm_num)
  have h := increment_large_record 0 2 p [] hp
  simp only [List.append_nil, Nat.zero_add] at h
  simp only [TLVWriter.yield, hb, List.nil_append]
  refine ⟨h.1, h.2, ?_⟩
  simp only [List.length_append, uint32_bytes_length, hp]

/-- C14, the code at the failing input: over the buffer a writer yields for a
string of `2 ^ 32 - 8` bytes, `operator*` succeeds with declared length
`L = 2 ^ 32 - 8`, and `operator++` returns the iterator with the same slice of
`2 ^ 32` bytes: no byte is removed, where the claim has the first `8 + L` bytes
removed and nothing left. -/
theorem increment_keeps_slice_of_large_record :
    Iterator.deref ⟨⟨0, (TLVWriter.write_string {} (List.replicate 4294967288 0)).yield.1⟩⟩
        = .ok ⟨TLVType.STRING, ⟨8, List.replicate 4294967288 0⟩⟩
      ∧ Iterator.increment
          ⟨⟨0, (TLVWriter.write_string {} (List.replicate 4294967288 0)).yield.1⟩⟩
        = .ok ⟨⟨0, (TLVWriter.write_string {} (List.replicate 4294967288 0)).yield.1⟩⟩
      ∧ (TLVWriter.write_string {} (List.replicate 4294967288 0)).yield.1.length
        = 8 + 4294967288 :=
  increment_large_string (List.replicate 4294967288 0) (List.length_replicate _ _)

/-! ## Truncated buffers -/

theorem truncated_after_large_string (p : List Byte) (hp : p.length = 4294967288) (v : Nat) :
    ((TLVWriter.write_string {} p).write_uint32 v).yield.1.length = 4294967296 + 12
      ∧ Iterator.advance 1 (TLVReader.mk (span_of 0
            (((TLVWriter.write_string {} p).write_uint32 v).yield.1.take 4294967306))).begin
        = .ok (TLVReader.mk (span_of 0
            (((TLVWriter.write_string {} p).write_uint32 v).yield.1.take 4294967306))).begin
      ∧ (TLVReader.mk (span_of 0
            (((TLVWriter.write_string {} p).write_uint32 v).yield.1.take 4294967306))).begin.deref
        = .ok ⟨TLVType.STRING, ⟨8, p⟩⟩
      ∧ (TLVReader.mk (span_of 0
            (((TLVWriter.write_string {} p).write_uint32 v).yield.1.take
              4294967306))).begin.increment
        = .ok (TLVReader.mk (span_of 0
            (((TLVWriter.write_string {} p).write_uint32 v).yield.1.take 4294967306))).begin := by
  have hb : ((TLVWriter.write_string {} p).write_uint32 v).yield.1
      = (uint32_bytes 2 ++ (uint32_bytes p.length ++ p))
        ++ (uint32_bytes 0 ++ (uint32_bytes 4 ++ uint32_bytes v)) := by
    simp only [TLVWriter.yield, write_uint32_buffer, write_string_buffer _ p (by rw [hp]; norm_num),
      List.nil_append]
  have hX : (uint32_bytes 2 ++ (uint32_bytes p.length ++ p)).length = 4294967296 := by
    simp only [List.length_append, uint32_bytes_length, hp]
  have ht : ((TLVWriter.write_string {} p).write_uint32 v).yield.1.take 4294967306
      = uint32_bytes 2 ++ (uint32_bytes p.length ++ (p ++
          (uint32_bytes 0 ++ (uint32_bytes 4 ++ uint32_bytes v)).take 10)) := by
    rw [hb, List.take_append_eq_append_take, List.take_of_length_le (by omega), hX]
    simp only [List.append_assoc]
  have h := increment_large_record 0 2 p
    ((uint32_bytes 0 ++ (uint32_bytes 4 ++ uint32_bytes v)).take 10) hp
  refine ⟨?_, ?_, ?_, ?_⟩
  · rw [hb, List.length_append, hX]; rfl
  · simp only [ht, TLVReader.begin, span_of, Iterator.advance, h.2, ok_bind]; rfl
  · simp only [ht, TLVReader.begin, span_of, h.1]; rfl
  · simp only [ht, TLVReader.begin, span_of, h.2]

/-- C13, the code at the failing input: the buffer a writer yields for a string
of `2 ^ 32 - 8` zero bytes followed by the `std::uint32_t` `0xaabbccdd` has two
records, `2 ^ 32 + 12` bytes; cut to its first `2 ^ 32 + 10` bytes, inside the
second record, the iterator reached from `begin()` by one increment is `begin()`
again, and both `operator*` and `operator++` return on it instead of throwing. -/
theorem truncation_missed_after_large_record :
    ((TLVWriter.write_string {} (List.replicate 4294967288 0)).write_uint32
          0xaabbccdd).yield.1.length = 4294967296 + 12
      ∧ Iterator.advance 1 (TLVReader.mk (span_of 0
            (((TLVWriter.write_string {} (List.replicate 4294967288 0)).write_uint32
              0xaabbccdd).yield.1.take 4294967306))).begin
        = .ok (TLVReader.mk (span_of 0
            (((TLVWriter.write_string {} (List.replicate 4294967288 0)).write_uint32
              0xaabbccdd).yield.1.take 4294967306))).begin
      ∧ (TLVReader.mk (span_of 0
            (((TLVWriter.write_string {} (List.replicate 4294967288 0)).write_uint32
              0xaabbccdd).yield.1.take 4294967306))).begin.deref
        = .ok ⟨TLVType.STRING, ⟨8, List.replicate 4294967288 0⟩⟩
      ∧ (TLVReader.mk (span_of 0
            (((TLVWriter.write_string {} (List.replicate 4294967288 0)).write_uint32
              0xaabbccdd).yield.1.take 4294967306))).begin.increment
        = .ok (TLVReader.mk (span_of 0
            (((TLVWriter.write_string {} (List.replicate 4294967288 0)).write_uint32
              0xaabbccdd).yield.1.take 4294967306))).begin :=
  truncated_after_large_string (List.replicate 4294967288 0) (List.length_replicate _ _)
    0xaabbccdd

/-! ## Comparison with `end()` -/

theorem increment_end_fixed (it next : Iterator) (h : it.increment = .ok next) :
    next.buffer_.data + next.buffer_.size = it.buffer_.data + it.buffer_.size := by
  unfold Iterator.increment at h
  cases hd : it.deref with
  | error err => rw [hd] at h; cases h
  | ok entry =>
    rw [hd, ok_bind] at h
    cases h
    simp only [Span.last, Span.size, List.length_drop]
    omega

theorem advance_end_fixed (n : Nat) (it last : Iterator) (h : Iterator.advance n it = .ok last) :
    last.buffer_.data + last.buffer_.size = it.buffer_.data + it.buffer_.size := by
  induction n generalizing it with
  | zero =>
    cases h
    rfl
  | succ n ih =>
    unfold Iterator.advance at h
    cases hi : it.increment with
    | error err => rw [hi] at h; cases h
    | ok next =>
      rw [hi, ok_bind] at h
      rw [ih next h, increment_end_fixed it next hi]

theorem eq_end_iff (it : Iterator) (reader : TLVReader)
    (h : it.buffer_.data + it.buffer_.size = reader.buffer_.data + reader.buffer_.size) :
    it.eq reader.end_ = true ↔ it.buffer_.size = 0 := by
  simp only [Iterator.eq, TLVReader.end_, Span.size, List.length_nil, Bool.and_eq_true,
    beq_iff_eq]
  simp only [Span.size] at h
  constructor
  · rintro ⟨_, h2⟩; omega
  · intro h0; constructor <;> omega

/-- C15: an iterator reached from `begin()` by successful increments keeps the
end position of the buffer; it compares equal to `end()` exactly when its
remaining length is 0, and never when some bytes remain; `begin()` equals
`end()` exactly when the buffer is empty. -/
theorem reachable_eq_end_iff (reader : TLVReader) (n : Nat) (it : Iterator)
    (h : Iterator.advance n reader.begin = .ok it) :
    (it.eq reader.end_ = true ↔ it.buffer_.size = 0)
      ∧ (0 < it.buffer_.size → it.eq reader.end_ = false)
      ∧ it.buffer_.data + it.buffer_.size = reader.buffer_.data + reader.buffer_.size
      ∧ (reader.begin.eq reader.end_ = true ↔ reader.buffer_.bytes = []) := by
  have hinv := advance_end_fixed n reader.begin it h
  have hiff := eq_end_iff it reader hinv
  refine ⟨hiff, ?_, hinv, ?_⟩
  · intro hpos
    cases he : it.eq reader.end_ with
    | false => rfl
    | true => have := hiff.mp he; omega
  · rw [eq_end_iff reader.begin reader rfl]
    exact List.length_eq_zero

/-- Witness of C15: the 12-byte buffer of one `UINT32` record and the iterator
after one increment; the reader over 3 trailing bytes has `begin()` different
from `end()`. -/
theorem reachable_eq_end_iff_witness :
    ((Iterator.eq ⟨⟨12, []⟩⟩
          (TLVReader.mk ⟨0, [0x00, 0x00, 0x00, 0x00, 0x04, 0x00, 0x00, 0x00,
            0xdd, 0xcc, 0xbb, 0xaa]⟩).end_ = true
        ↔ (⟨⟨12, []⟩⟩ : Iterator).buffer_.size = 0)
      ∧ (0 < (⟨⟨12, []⟩⟩ : Iterator).buffer_.size →
          Iterator.eq ⟨⟨12, []⟩⟩
            (TLVReader.mk ⟨0, [0x00, 0x00, 0x00, 0x00, 0x04, 0x00, 0x00, 0x00,
              0xdd, 0xcc, 0xbb, 0xaa]⟩).end_ = false)
      ∧ (⟨⟨12, []⟩⟩ : Iterator).buffer_.data + (⟨⟨12, []⟩⟩ : Iterator).buffer_.size
        = (TLVReader.mk ⟨0, [0x00, 0x00, 0x00, 0x00, 0x04, 0x00, 0x00, 0x00,
            0xdd, 0xcc, 0xbb, 0xaa]⟩).buffer_.data
          + (TLVReader.mk ⟨0, [0x00, 0x00, 0x00, 0x00, 0x04, 0x00, 0x00, 0x00,
            0xdd, 0xcc, 0xbb, 0xaa]⟩).buffer_.size
      ∧ ((TLVReader.mk ⟨0, [0x00, 0x00, 0x00, 0x00, 0x04, 0x00, 0x00, 0x00,
            0xdd, 0xcc, 0xbb, 0xaa]⟩).begin.eq
          (TLVReader.mk ⟨0, [0x00, 0x00, 0x00, 0x00, 0x04, 0x00, 0x00, 0x00,
            0xdd, 0xcc, 0xbb, 0xaa]⟩).end_ = true
        ↔ (TLVReader.mk ⟨0, [0x00, 0x00, 0x00, 0x00, 0x04, 0x00, 0x00, 0x00,
            0xdd, 0xcc, 0xbb, 0xaa]⟩).buffer_.bytes = []))
      ∧ Iterator.eq (TLVReader.mk ⟨0, [0x01, 0x02, 0x03]⟩).begin
          (TLVReader.mk ⟨0, [0x01, 0x02, 0x03]⟩).end_ = false :=
  ⟨reachable_eq_end_iff
      (TLVReader.mk ⟨0, [0x00, 0x00, 0x00, 0x00, 0x04, 0x00, 0x00, 0x00, 0xdd, 0xcc, 0xbb, 0xaa]⟩)
      1 ⟨⟨12, []⟩⟩ (by rfl),
    by rfl⟩

/-! ## Typed getters -/

theorem ensure_beq_of_eq {α : Type} [DecidableEq α] (a b : α) (msg : String) (h : a = b) :
    ensure (a == b) msg = .ok () :=
  ensure_of _ _ (by simp [h])

theorem ensure_beq_of_ne {α : Type} [DecidableEq α] (a b : α) (msg : String) (h : a ≠ b) :
    ensure (a == b) msg = .error ⟨msg⟩ :=
  ensure_of_false _ _ (by simp [h])

theorem uint32_value_of_tag_ne (e : TLVEntry) (h : e.type_ ≠ TLVType.UINT32) :
    e.uint32_value = .error ⟨"incorrect type"⟩ := by
  simp only [TLVEntry.uint32_value, ensure_beq_of_ne _ _ _ h, error_bind]

theorem uint32_value_of_size_ne (e : TLVEntry) (ht : e.type_ = TLVType.UINT32)
    (hs : e.value_.size ≠ 4) : e.uint32_value = .error ⟨"incorrect size"⟩ := by
  simp only [TLVEntry.uint32_value, ensure_beq_of_eq _ _ _ ht, ensure_beq_of_ne _ _ _ hs,
    ok_bind, error_bind]

theorem uint32_value_of_fits (e : TLVEntry) (ht : e.type_ = TLVType.UINT32)
    (hs : e.value_.size = 4) : e.uint32_value = .ok (load_uint32 e.value_.bytes) := by
  simp only [TLVEntry.uint32_value, ensure_beq_of_eq _ _ _ ht, ensure_beq_of_eq _ _ _ hs,
    ok_bind, pure, Except.pure]

/-- C16: `uint32_value()` throws exactly when the tag is not `UINT32` or the
value is not 4 bytes long; with tag `UINT32` and 4 value bytes it returns their
little-endian decoding. -/
theorem uint32_value_raises_iff (e : TLVEntry) :
    ((∃ err, e.uint32_value = .error err)
        ↔ (e.type_ ≠ TLVType.UINT32 ∨ e.value_.size ≠ 4))
      ∧ (e.type_ = TLVType.UINT32 → e.value_.size = 4 →
          e.uint32_value = .ok (little_endian_32 e.value_.bytes 0)) := by
  constructor
  · by_cases ht : e.type_ = TLVType.UINT32
    · by_cases hs : e.value_.size = 4
      · have h := uint32_value_of_fits e ht hs
        constructor
        · rintro ⟨err, he⟩; rw [h] at he; cases he
        · rintro (h1 | h1) <;> contradiction
      · exact ⟨fun _ => Or.inr hs, fun _ => ⟨_, uint32_value_of_size_ne e ht hs⟩⟩
    · exact ⟨fun _ => Or.inl ht, fun _ => ⟨_, uint32_value_of_tag_ne e ht⟩⟩
  · intro ht hs
    rw [uint32_value_of_fits e ht hs, load_uint32_eq_little_endian_32]

/-- Witness of C16: `UINT32` with the bytes `dd cc bb aa` gives `0xaabbccdd`;
`UINT32` with the three bytes `dd cc bb` throws. -/
theorem uint32_value_raises_iff_witness :
    TLVEntry.uint32_value ⟨TLVType.UINT32, ⟨0, [0xdd, 0xcc, 0xbb, 0xaa]⟩⟩
        = .ok (little_endian_32 [0xdd, 0xcc, 0xbb, 0xaa] 0)
      ∧ little_endian_32 [0xdd, 0xcc, 0xbb, 0xaa] 0 = 0xaabbccdd
      ∧ ∃ err, TLVEntry.uint32_value ⟨TLVType.UINT32, ⟨0, [0xdd, 0xcc, 0xbb]⟩⟩ = .error err :=
  ⟨(uint32_value_raises_iff ⟨TLVType.UINT32, ⟨0, [0xdd, 0xcc, 0xbb, 0xaa]⟩⟩).2 rfl rfl,
    by decide,
    ((uint32_value_raises_iff ⟨TLVType.UINT32, ⟨0, [0xdd, 0xcc, 0xbb]⟩⟩).1).mpr
      (Or.inr (by decide))⟩

/-- C17: each of the ten typed getters, called on an entry whose tag differs from
the tag it expects, throws (with the message of its first check) whatever the
value bytes are. -/
theorem getters_reject_other_tags (e : TLVEntry) :
    (e.type_ ≠ TLVType.UINT32 → e.uint32_value = .error ⟨"incorrect type"⟩)
      ∧ (e.type_ ≠ TLVType.UINT32_ARRAY → e.uint32_array_value = .error ⟨"incorrect type"⟩)
      ∧ (e.type_ ≠ TLVType.STRING → e.string_value = .error ⟨"incorrect type"⟩)
      ∧ (e.type_ ≠ TLVType.BYTE_ARRAY → e.byte_array_value = .error ⟨"incorrect type"⟩)
      ∧ (e.type_ ≠ TLVType.TEXTURE_FORMAT →
          e.texture_format_value = .error ⟨"incorrect type"⟩)
      ∧ (e.type_ ≠ TLVType.TEXTURE_USAGE → e.texture_usage_value = .error ⟨"incorrect type"⟩)
      ∧ (e.type_ ≠ TLVType.VERTEX_DATA → e.vertex_data_value = .error ⟨"incorrect type"⟩)
      ∧ (e.type_ ≠ TLVType.VERTEX_DATA_ARRAY →
          e.vertex_data_array_value = .error ⟨"incorrect type"⟩)
      ∧ (e.type_ ≠ TLVType.TEXTURE_DESCRIPTION →
          e.texture_description_value = .error ⟨"incorrect type"⟩)
      ∧ (e.type_ ≠ TLVType.MESH_DATA → e.mesh_value = .error ⟨"incorrect type"⟩) := by
  refine ⟨?_, ?_, ?_, ?_, ?_, ?_, ?_, ?_, ?_, ?_⟩ <;> intro h
  · exact uint32_value_of_tag_ne e h
  · simp only [TLVEntry.uint32_array_value, ensure_beq_of_ne _ _ _ h, error_bind]
  · simp only [TLVEntry.string_value, ensure_beq_of_ne _ _ _ h, error_bind]
  · simp only [TLVEntry.byte_array_value, ensure_beq_of_ne _ _ _ h, error_bind]
  · simp only [TLVEntry.texture_format_value, ensure_beq_of_ne _ _ _ h, error_bind]
  · simp only [TLVEntry.texture_usage_value, ensure_beq_of_ne _ _ _ h, error_bind]
  · simp only [TLVEntry.vertex_data_value, ensure_beq_of_ne _ _ _ h, error_bind]
  · simp only [TLVEntry.vertex_data_array_value, ensure_beq_of_ne _ _ _ h, error_bind]
  · simp only [TLVEntry.texture_description_value, ensure_beq_of_ne _ _ _ h, error_bind]
  · simp only [TLVEntry.mesh_value, ensure_beq_of_ne _ _ _ h, error_bind]

/-- Witness of C17: on the `UINT32` entry holding `'h', 'i'` the nine getters of
the other tags throw, `string_value()` and `byte_array_value()` among them; on
the `STRING` entry with the same bytes `uint32_value()` throws. -/
theorem getters_reject_other_tags_witness :
    TLVEntry.string_value ⟨TLVType.UINT32, ⟨0, [0x68, 0x69]⟩⟩ = .error ⟨"incorrect type"⟩
      ∧ TLVEntry.byte_array_value ⟨TLVType.UINT32, ⟨0, [0x68, 0x69]⟩⟩
        = .error ⟨"incorrect type"⟩
      ∧ TLVEntry.uint32_array_value ⟨TLVType.UINT32, ⟨0, [0x68, 0x69]⟩⟩
        = .error ⟨"incorrect type"⟩
      ∧ TLVEntry.texture_format_value ⟨TLVType.UINT32, ⟨0, [0x68, 0x69]⟩⟩
        = .error ⟨"incorrect type"⟩
      ∧ TLVEntry.texture_usage_value ⟨TLVType.UINT32, ⟨0, [0x68, 0x69]⟩⟩
        = .error ⟨"incorrect type"⟩
      ∧ TLVEntry.vertex_data_value ⟨TLVType.UINT32, ⟨0, [0x68, 0x69]⟩⟩
        = .error ⟨"incorrect type"⟩
      ∧ TLVEntry.vertex_data_array_value ⟨TLVType.UINT32, ⟨0, [0x68, 0x69]⟩⟩
        = .error ⟨"incorrect type"⟩
      ∧ TLVEntry.texture_description_value ⟨TLVType.UINT32, ⟨0, [0x68, 0x69]⟩⟩
        = .error ⟨"incorrect type"⟩
      ∧ TLVEntry.mesh_value ⟨TLVType.UINT32, ⟨0, [0x68, 0x69]⟩⟩ = .error ⟨"incorrect type"⟩
      ∧ TLVEntry.uint32_value ⟨TLVType.STRING, ⟨0, [0x68, 0x69]⟩⟩
        = .error ⟨"incorrect type"⟩ :=
  have h := getters_reject_other_tags ⟨TLVType.UINT32, ⟨0, [0x68, 0x69]⟩⟩
  ⟨h.2.2.1 (by decide), h.2.2.2.1 (by decide), h.2.1 (by decide), h.2.2.2.2.1 (by decide),
    h.2.2.2.2.2.1 (by decide), h.2.2.2.2.2.2.1 (by decide), h.2.2.2.2.2.2.2.1 (by decide),
    h.2.2.2.2.2.2.2.2.1 (by decide), h.2.2.2.2.2.2.2.2.2 (by decide),
    (getters_reject_other_tags ⟨TLVType.STRING, ⟨0, [0x68, 0x69]⟩⟩).1 (by decide)⟩

/-- C18: on an entry with tag `STRING`, whatever the value bytes, `string_value()`
returns exactly the value bytes and does not throw; the same holds for
`byte_array_value()` on an entry with tag `BYTE_ARRAY`. -/
theorem string_and_byte_array_value_total (value : Span) :
    TLVEntry.string_value ⟨TLVType.STRING, value⟩ = .ok value.bytes
      ∧ TLVEntry.byte_array_value ⟨TLVType.BYTE_ARRAY, value⟩ = .ok value.bytes
      ∧ TLVEntry.string_value ⟨TLVType.STRING, ⟨0, [0x68, 0x69]⟩⟩ = .ok [0x68, 0x69]
      ∧ TLVEntry.byte_array_value ⟨TLVType.BYTE_ARRAY, ⟨0, [0xaa, 0xbb, 0xcc]⟩⟩
        = .ok [0xaa, 0xbb, 0xcc]
      ∧ TLVEntry.string_value ⟨TLVType.STRING, ⟨0, []⟩⟩ = .ok [] :=
  ⟨rfl, rfl, rfl, rfl, rfl⟩

/-! ## Name probes -/

theorem string_value_of_tag_eq (e : TLVEntry) (h : e.type_ = TLVType.STRING) :
    e.string_value = .ok e.value_.bytes := by
  simp only [TLVEntry.string_value, ensure_beq_of_eq _ _ _ h, ok_bind, pure, Except.pure]

theorem string_value_of_tag_ne (e : TLVEntry) (h : e.type_ ≠ TLVType.STRING) :
    e.string_value = .error ⟨"incorrect type"⟩ := by
  simp only [TLVEntry.string_value, ensure_beq_of_ne _ _ _ h, error_bind]

theorem is_texture_of_tag_ne (e : TLVEntry) (name : List Byte)
    (h : e.type_ ≠ TLVType.TEXTURE_DESCRIPTION) : e.is_texture name = .ok false := by
  simp only [TLVEntry.is_texture, bne_iff_ne, ne_eq, h, not_false_eq_true, if_true, pure,
    Except.pure]

theorem is_mesh_of_tag_ne (e : TLVEntry) (name : List Byte)
    (h : e.type_ ≠ TLVType.MESH_DATA) : e.is_mesh name = .ok false := by
  simp only [TLVEntry.is_mesh, bne_iff_ne, ne_eq, h, not_false_eq_true, if_true, pure,
    Except.pure]

theorem is_texture_of_tag_eq (e : TLVEntry) (name : List Byte)
    (h : e.type_ = TLVType.TEXTURE_DESCRIPTION) :
    e.is_texture name
      = (Iterator.deref ⟨e.value_⟩ >>= fun first =>
          first.string_value >>= fun texture_name => pure (texture_name == name)) := by
  simp only [TLVEntry.is_texture, bne_iff_ne, ne_eq, h, not_true_eq_false, if_false,
    TLVReader.begin]

theorem is_mesh_of_tag_eq (e : TLVEntry) (name : List Byte)
    (h : e.type_ = TLVType.MESH_DATA) :
    e.is_mesh name
      = (Iterator.deref ⟨e.value_⟩ >>= fun first =>
          first.string_value >>= fun mesh_name => pure (mesh_name == name)) := by
  simp only [TLVEntry.is_mesh, bne_iff_ne, ne_eq, h, not_true_eq_false, if_false,
    TLVReader.begin]

theorem probe_of_string_record (value : Span) (name : List Byte) (h8 : 8 ≤ value.size)
    (hL : 8 + little_endian_32 value.bytes 4 ≤ value.size)
    (ht : little_endian_32 value.bytes 0 = 2) :
    (Iterator.deref ⟨value⟩ >>= fun first =>
        first.string_value >>= fun found => (pure (found == name) : Except Exception Bool))
      = .ok ((value.bytes.drop 8).take (little_endian_32 value.bytes 4) == name) := by
  rw [← load_uint32_drop_eq_little_endian_32] at hL ⊢
  rw [← load_uint32_eq_little_endian_32] at ht
  rw [deref_of_fits ⟨value⟩ h8 hL, ok_bind, string_value_of_tag_eq _ (by simp only [ht]; rfl),
    ok_bind]
  rfl

theorem probe_of_bad_record (value : Span) (name : List Byte)
    (h : value.size < 8 ∨ value.size < 8 + little_endian_32 value.bytes 4
      ∨ little_endian_32 value.bytes 0 ≠ 2) :
    ∃ err, (Iterator.deref ⟨value⟩ >>= fun first =>
        first.string_value >>= fun found => (pure (found == name) : Except Exception Bool))
      = .error err := by
  rw [← load_uint32_drop_eq_little_endian_32, ← load_uint32_eq_little_endian_32] at h
  by_cases h8 : value.size < 8
  · exact ⟨_, by rw [deref_of_short ⟨value⟩ h8, error_bind]⟩
  · have h8' : 8 ≤ value.size := by omega
    by_cases hL : value.size < 8 + load_uint32 (value.bytes.drop 4)
    · exact ⟨_, by rw [deref_of_cut_value ⟨value⟩ h8' hL, error_bind]⟩
    · have hL' : 8 + load_uint32 (value.bytes.drop 4) ≤ value.size := by omega
      have ht : load_uint32 value.bytes ≠ 2 := by
        rcases h with h | h | h
        · omega
        · omega
        · exact h
      refine ⟨⟨"incorrect type"⟩, ?_⟩
      rw [deref_of_fits ⟨value⟩ h8' hL', ok_bind,
        string_value_of_tag_ne _ (by
          intro hc
          apply ht
          have := congrArg TLVType.value hc
          exact this),
        error_bind]

/-- C19 as stated fails: on a `TEXTURE_DESCRIPTION` entry (resp. a `MESH_DATA`
entry) whose value is empty, `is_texture` (resp. `is_mesh`) throws from
`operator*`; on one whose nested value starts with a `UINT32` record it throws
from `string_value()`. No boolean is returned. -/
theorem probe_raises_on_malformed_value :
    TLVEntry.is_texture ⟨TLVType.TEXTURE_DESCRIPTION, ⟨0, []⟩⟩ []
        = .error ⟨"invalid entry size"⟩
      ∧ TLVEntry.is_mesh ⟨TLVType.MESH_DATA, ⟨0, []⟩⟩ [] = .error ⟨"invalid entry size"⟩
      ∧ TLVEntry.is_texture ⟨TLVType.TEXTURE_DESCRIPTION,
          ⟨0, [0x00, 0x00, 0x00, 0x00, 0x04, 0x00, 0x00, 0x00, 0xdd, 0xcc, 0xbb, 0xaa]⟩⟩ []
        = .error ⟨"incorrect type"⟩
      ∧ TLVEntry.is_mesh ⟨TLVType.MESH_DATA,
          ⟨0, [0x00, 0x00, 0x00, 0x00, 0x04, 0x00, 0x00, 0x00, 0xdd, 0xcc, 0xbb, 0xaa]⟩⟩ []
        = .error ⟨"incorrect type"⟩
      ∧ ¬ ∃ b : Bool, TLVEntry.is_texture ⟨TLVType.TEXTURE_DESCRIPTION, ⟨0, []⟩⟩ [] = .ok b :=
  ⟨rfl, rfl, rfl, rfl, by rintro ⟨b, hb⟩; cases hb⟩

/-- C19 amended: for every entry and name, `is_texture(name)` returns `false`
without throwing when the tag is not `TEXTURE_DESCRIPTION`; when it is and the
nested value starts with a complete record of tag `STRING`, it returns whether
the value of that record equals `name`; when it is and the nested value has
fewer than 8 bytes, fewer than `8 + L` bytes, or a first record of another tag,
it throws. The same holds for `is_mesh(name)` with `MESH_DATA`. -/
theorem probe_cases (e : TLVEntry) (name : List Byte) :
    (e.type_ ≠ TLVType.TEXTURE_DESCRIPTION → e.is_texture name = .ok false)
      ∧ (e.type_ = TLVType.TEXTURE_DESCRIPTION → 8 ≤ e.value_.size →
          8 + little_endian_32 e.value_.bytes 4 ≤ e.value_.size →
          little_endian_32 e.value_.bytes 0 = 2 →
          e.is_texture name
            = .ok ((e.value_.bytes.drop 8).take (little_endian_32 e.value_.bytes 4) == name))
      ∧ (e.type_ = TLVType.TEXTURE_DESCRIPTION →
          (e.value_.size < 8 ∨ e.value_.size < 8 + little_endian_32 e.value_.bytes 4
            ∨ little_endian_32 e.value_.bytes 0 ≠ 2) →
          ∃ err, e.is_texture name = .error err)
      ∧ (e.type_ ≠ TLVType.MESH_DATA → e.is_mesh name = .ok false)
      ∧ (e.type_ = TLVType.MESH_DATA → 8 ≤ e.value_.size →
          8 + little_endian_32 e.value_.bytes 4 ≤ e.value_.size →
          little_endian_32 e.value_.bytes 0 = 2 →
          e.is_mesh name
            = .ok ((e.value_.bytes.drop 8).take (little_endian_32 e.value_.bytes 4) == name))
      ∧ (e.type_ = TLVType.MESH_DATA →
          (e.value_.size < 8 ∨ e.value_.size < 8 + little_endian_32 e.value_.bytes 4
            ∨ little_endian_32 e.value_.bytes 0 ≠ 2) →
          ∃ err, e.is_mesh name = .error err) := by
  refine ⟨is_texture_of_tag_ne e name, ?_, ?_, is_mesh_of_tag_ne e name, ?_, ?_⟩
  · intro h h8 hL ht
    rw [is_texture_of_tag_eq e name h]
    exact probe_of_string_record e.value_ name h8 hL ht
  · intro h hbad
    rw [is_texture_of_tag_eq e name h]
    exact probe_of_bad_record e.value_ name hbad
  · intro h h8 hL ht
    rw [is_mesh_of_tag_eq e name h]
    exact probe_of_string_record e.value_ name h8 hL ht
  · intro h hbad
    rw [is_mesh_of_tag_eq e name h]
    exact probe_of_bad_record e.value_ name hbad

/-- Witness of C19 amended: a `UINT32` entry, a composite entry whose nested value
starts with the `STRING` record `"a"` followed by one stray byte, and a composite
entry with an empty value. -/
theorem probe_cases_witness :
    TLVEntry.is_texture ⟨TLVType.UINT32, ⟨0, [0x68, 0x69]⟩⟩ [0x61] = .ok false
      ∧ TLVEntry.is_mesh ⟨TLVType.UINT32, ⟨0, [0x68, 0x69]⟩⟩ [0x61] = .ok false
      ∧ TLVEntry.is_texture ⟨TLVType.TEXTURE_DESCRIPTION,
          ⟨0, [0x02, 0x00, 0x00, 0x00, 0x01, 0x00, 0x00, 0x00, 0x61, 0xff]⟩⟩ [0x61]
        = .ok ((List.drop 8 [0x02, 0x00, 0x00, 0x00, 0x01, 0x00, 0x00, 0x00, 0x61, 0xff]).take
            (little_endian_32 [0x02, 0x00, 0x00, 0x00, 0x01, 0x00, 0x00, 0x00, 0x61, 0xff] 4)
          == [0x61])
      ∧ TLVEntry.is_mesh ⟨TLVType.MESH_DATA,
          ⟨0, [0x02, 0x00, 0x00, 0x00, 0x01, 0x00, 0x00, 0x00, 0x61, 0xff]⟩⟩ [0x61]
        = .ok ((List.drop 8 [0x02, 0x00, 0x00, 0x00, 0x01, 0x00, 0x00, 0x00, 0x61, 0xff]).take
            (little_endian_32 [0x02, 0x00, 0x00, 0x00, 0x01, 0x00, 0x00, 0x00, 0x61, 0xff] 4)
          == [0x61])
      ∧ (∃ err, TLVEntry.is_texture ⟨TLVType.TEXTURE_DESCRIPTION, ⟨0, []⟩⟩ [0x61] = .error err)
      ∧ (∃ err, TLVEntry.is_mesh ⟨TLVType.MESH_DATA, ⟨0, []⟩⟩ [0x61] = .error err) :=
  ⟨(probe_cases ⟨TLVType.UINT32, ⟨0, [0x68, 0x69]⟩⟩ [0x61]).1 (by decide),
    (probe_cases ⟨TLVType.UINT32, ⟨0, [0x68, 0x69]⟩⟩ [0x61]).2.2.2.1 (by decide),
    (probe_cases ⟨TLVType.TEXTURE_DESCRIPTION,
        ⟨0, [0x02, 0x00, 0x00, 0x00, 0x01, 0x00, 0x00, 0x00, 0x61, 0xff]⟩⟩ [0x61]).2.1
      rfl (by decide) (by decide) (by decide),
    (probe_cases ⟨TLVType.MESH_DATA,
        ⟨0, [0x02, 0x00, 0x00, 0x00, 0x01, 0x00, 0x00, 0x00, 0x61, 0xff]⟩⟩ [0x61]).2.2.2.2.1
      rfl (by decide) (by decide) (by decide),
    (probe_cases ⟨TLVType.TEXTURE_DESCRIPTION, ⟨0, []⟩⟩ [0x61]).2.2.1 rfl
      (Or.inl (by decide)),
    (probe_cases ⟨TLVType.MESH_DATA, ⟨0, []⟩⟩ [0x61]).2.2.2.2.2 rfl (Or.inl (by decide))⟩

/-! ## Name probes over a written buffer -/

theorem value_length_eq_value_size (c : WriteCall) (h : c.value_size < 2 ^ 32) :
    c.value.length = c.value_size := by
  cases c with
  | uint32 v => rfl
  | uint32_array xs =>
    simp only [WriteCall.value, WriteCall.value_size, uint32_array_bytes_length]; omega
  | string v => rfl
  | byte_array v => rfl
  | texture_format v => rfl
  | texture_usage v => rfl
  | vertex_data v => exact v.size_eq
  | vertex_data_array vs =>
    simp only [WriteCall.value, WriteCall.value_size, vertex_data_array_bytes_length,
      sizeof_VertexData]
    omega
  | texture_description name width height format usage data =>
    simp only [WriteCall.value_size] at h
    simp only [WriteCall.value, WriteCall.value_size,
      texture_description_value_bytes_eq name width height format usage data (by omega)
        (by omega),
      List.length_append, uint32_bytes_length, List.length_nil]
    omega
  | mesh_data name vertices indices =>
    have hvl := vertex_data_array_bytes_length vertices
    have hil := uint32_array_bytes_length indices
    simp only [WriteCall.value_size, sizeof_VertexData] at h hvl
    simp only [WriteCall.value, WriteCall.value_size, sizeof_VertexData,
      mesh_data_value_bytes_eq name vertices indices (by omega) (by omega) (by omega),
      List.length_append, uint32_bytes_length, List.length_nil]
    omega

theorem is_mesh_of_written (a : Nat) (name : List Byte) (vertices : List VertexData)
    (indices : List Nat) (q : List Byte) (hn : name.length < 2 ^ 32) :
    TLVEntry.is_mesh ⟨TLVType.MESH_DATA, ⟨a, mesh_data_value_bytes name vertices indices⟩⟩ q
      = .ok (name == q) := by
  have hb : ∃ rest, mesh_data_value_bytes name vertices indices
      = uint32_bytes 2 ++ (uint32_bytes name.length ++ (name ++ rest)) :=
    ⟨_, by
      simp only [mesh_data_value_bytes, TLVWriter.yield, TLVWriter.write_uint32_array,
        TLVWriter.write_vertex_data_array, write_entry_eq, write_string_buffer _ _ hn,
        List.nil_append, List.append_assoc]
      rfl⟩
  obtain ⟨rest, hb⟩ := hb
  rw [is_mesh_of_tag_eq _ _ rfl, hb, deref_record a 2 name rest hn, ok_bind,
    string_value_of_tag_eq _ rfl, ok_bind]
  rfl

theorem is_texture_of_written (a : Nat) (name : List Byte) (width height : Nat)
    (format : TextureFormat) (usage : TextureUsage) (data q : List Byte)
    (hn : name.length < 2 ^ 32) :
    TLVEntry.is_texture ⟨TLVType.TEXTURE_DESCRIPTION,
        ⟨a, texture_description_value_bytes name width height format usage data⟩⟩ q
      = .ok (name == q) := by
  have hb : ∃ rest, texture_description_value_bytes name width height format usage data
      = uint32_bytes 2 ++ (uint32_bytes name.length ++ (name ++ rest)) :=
    ⟨_, by
      simp only [texture_description_value_bytes, TLVWriter.yield, TLVWriter.write_byte_array,
        write_texture_usage_buffer, write_texture_format_buffer, write_uint32_buffer,
        write_entry_eq, write_string_buffer _ _ hn, List.nil_append, List.append_assoc]
      rfl⟩
  obtain ⟨rest, hb⟩ := hb
  rw [is_texture_of_tag_eq _ _ rfl, hb, deref_record a 2 name rest hn, ok_bind,
    string_value_of_tag_eq _ rfl, ok_bind]
  rfl

theorem probe_written (c : WriteCall) (a : Nat) (q : List Byte) (h : c.value_size < 2 ^ 32) :
    TLVEntry.is_mesh ⟨c.type, ⟨a, c.value⟩⟩ q = .ok (c.is_mesh_named q)
      ∧ TLVEntry.is_texture ⟨c.type, ⟨a, c.value⟩⟩ q = .ok (c.is_texture_named q) := by
  cases c with
  | texture_description name width height format usage data =>
    simp only [WriteCall.value_size] at h
    refine ⟨is_mesh_of_tag_ne _ _ ?_,
      is_texture_of_written a name width height format usage data q (by omega)⟩
    simp [WriteCall.type, TLVType.TEXTURE_DESCRIPTION, TLVType.MESH_DATA]
  | mesh_data name vertices indices =>
    simp only [WriteCall.value_size] at h
    refine ⟨is_mesh_of_written a name vertices indices q (by omega),
      is_texture_of_tag_ne _ _ ?_⟩
    simp [WriteCall.type, TLVType.TEXTURE_DESCRIPTION, TLVType.MESH_DATA]
  | _ =>
    refine ⟨is_mesh_of_tag_ne _ _ ?_, is_texture_of_tag_ne _ _ ?_⟩ <;>
      simp [WriteCall.type, TLVType.UINT32, TLVType.UINT32_ARRAY, TLVType.STRING,
        TLVType.BYTE_ARRAY, TLVType.TEXTURE_FORMAT, TLVType.TEXTURE_USAGE, TLVType.VERTEX_DATA,
        TLVType.VERTEX_DATA_ARRAY, TLVType.TEXTURE_DESCRIPTION, TLVType.MESH_DATA]

theorem value_length_lt (calls : List WriteCall) (h : ∀ c ∈ calls, c.value_size < 2 ^ 32 - 8) :
    ∀ c ∈ calls, c.value.length < 2 ^ 32 - 8 := by
  intro c hc
  have h1 := h c hc
  rw [value_length_eq_value_size c (by omega)]
  exact h1

theorem collect_write_all_entries (calls : List WriteCall)
    (h : ∀ c ∈ calls, c.value.length < 2 ^ 32 - 8) (a last fuel : Nat)
    (hlast : last = a + (TLVWriter.write_all {} calls).buffer_.length)
    (hfuel : calls.length < fuel) :
    Iterator.collect ⟨⟨last, []⟩⟩ fuel ⟨⟨a, (TLVWriter.write_all {} calls).buffer_⟩⟩
      = some (.ok (written_entries a calls)) := by
  induction calls generalizing a fuel with
  | nil =>
    obtain ⟨f, rfl⟩ : ∃ f, fuel = f + 1 := ⟨fuel - 1, by simp at hfuel; omega⟩
    have e : (TLVWriter.write_all {} ([] : List WriteCall)).buffer_ = [] := rfl
    rw [e] at hlast ⊢
    simp only [Iterator.collect, eq_end_true a last (by simpa using hlast), if_true,
      written_entries]
  | cons c cs ih =>
    obtain ⟨f, rfl⟩ : ∃ f, fuel = f + 1 := ⟨fuel - 1, by simp at hfuel; omega⟩
    have hc := h c (List.mem_cons_self c cs)
    have hcs : ∀ d ∈ cs, d.value.length < 2 ^ 32 - 8 :=
      fun d hd => h d (List.mem_cons_of_mem c hd)
    have hb := write_all_cons_buffer c cs (fun d hd => by have := h d hd; omega)
    rw [hb] at hlast ⊢
    have hes := ih hcs (a + (8 + c.value.length)) f
      (by rw [hlast]; simp only [List.length_append, uint32_bytes_length]; omega)
      (by simpa using hfuel)
    simp only [Iterator.collect, eq_end_false_record, Bool.false_eq_true, if_false,
      deref_record a c.type.value c.value _ (by omega),
      increment_record a c.type.value c.value _ (by omega), hes,
      Nat.mod_eq_of_lt (write_call_type_lt c), written_entries]

theorem written_entries_probes (calls : List WriteCall) (q : List Byte)
    (h : ∀ c ∈ calls, c.value_size < 2 ^ 32 - 8) (a : Nat) :
    (written_entries a calls).map (fun e => e.is_mesh q)
        = calls.map (fun c => .ok (c.is_mesh_named q))
      ∧ (written_entries a calls).map (fun e => e.is_texture q)
        = calls.map (fun c => .ok (c.is_texture_named q)) := by
  induction calls generalizing a with
  | nil => exact ⟨rfl, rfl⟩
  | cons c cs ih =>
    have hc := h c (List.mem_cons_self c cs)
    have hcs : ∀ d ∈ cs, d.value_size < 2 ^ 32 - 8 :=
      fun d hd => h d (List.mem_cons_of_mem c hd)
    have hp := probe_written c (a + 8) q (by omega)
    have hi := ih hcs (a + (8 + c.value.length))
    simp only [written_entries, List.map_cons, hp.1, hp.2, hi.1, hi.2, and_self]

theorem find_if_write_all (pred : TLVEntry → Except Exception Bool) (p : WriteCall → Bool)
    (hpred : ∀ (c : WriteCall) (a : Nat), c.value_size < 2 ^ 32 →
      pred ⟨c.type, ⟨a, c.value⟩⟩ = .ok (p c))
    (calls : List WriteCall) (h : ∀ c ∈ calls, c.value_size < 2 ^ 32 - 8)
    (a last fuel : Nat)
    (hlast : last = a + (TLVWriter.write_all {} calls).buffer_.length)
    (hfuel : calls.length < fuel) :
    ∃ it,
      Iterator.find_if pred ⟨⟨last, []⟩⟩ fuel ⟨⟨a, (TLVWriter.write_all {} calls).buffer_⟩⟩
        = some (.ok it)
      ∧ Iterator.advance (calls.findIdx p) ⟨⟨a, (TLVWriter.write_all {} calls).buffer_⟩⟩
        = .ok it
      ∧ (it.eq ⟨⟨last, []⟩⟩ = true ↔ ∀ c ∈ calls, p c = false) := by
  induction calls generalizing a fuel with
  | nil =>
    obtain ⟨f, rfl⟩ : ∃ f, fuel = f + 1 := ⟨fuel - 1, by simp at hfuel; omega⟩
    have e : (TLVWriter.write_all {} ([] : List WriteCall)).buffer_ = [] := rfl
    rw [e] at hlast ⊢
    have he := eq_end_true a last (by simpa using hlast)
    refine ⟨⟨⟨a, []⟩⟩, ?_, rfl, ?_⟩
    · simp only [Iterator.find_if, he, if_true]
    · simp only [he, List.not_mem_nil, false_implies, implies_true]
  | cons c cs ih =>
    obtain ⟨f, rfl⟩ : ∃ f, fuel = f + 1 := ⟨fuel - 1, by simp at hfuel; omega⟩
    have hc := h c (List.mem_cons_self c cs)
    have hcs : ∀ d ∈ cs, d.value_size < 2 ^ 32 - 8 :=
      fun d hd => h d (List.mem_cons_of_mem c hd)
    have hlen := value_length_lt (c :: cs) h
    have hcl := hlen c (List.mem_cons_self c cs)
    have hb := write_all_cons_buffer c cs (fun d hd => by have := hlen d hd; omega)
    rw [hb] at hlast ⊢
    have hd := deref_record a c.type.value c.value (TLVWriter.write_all {} cs).buffer_
      (by omega)
    rw [Nat.mod_eq_of_lt (write_call_type_lt c)] at hd
    have hi := increment_record a c.type.value c.value (TLVWriter.write_all {} cs).buffer_
      (by omega)
    have hp := hpred c (a + 8) (by omega)
    cases hpc : p c with
    | true =>
      rw [hpc] at hp
      refine ⟨⟨⟨a, uint32_bytes c.type.value ++ (uint32_bytes c.value.length ++
        (c.value ++ (TLVWriter.write_all {} cs).buffer_))⟩⟩, ?_, ?_, ?_⟩
      · simp only [Iterator.find_if, eq_end_false_record, Bool.false_eq_true, if_false, hd, hp]
      · simp only [List.findIdx_cons, hpc, cond_true, Iterator.advance]
        rfl
      · simp only [eq_end_false_record, Bool.false_eq_true, false_iff, not_forall]
        exact ⟨c, List.mem_cons_self c cs, by simp [hpc]⟩
    | false =>
      rw [hpc] at hp
      obtain ⟨it, hf, ha, hiff⟩ := ih hcs (a + (8 + c.value.length)) f
        (by rw [hlast]; simp only [List.length_append, uint32_bytes_length]; omega)
        (by simpa using hfuel)
      refine ⟨it, ?_, ?_, ?_⟩
      · simp only [Iterator.find_if, eq_end_false_record, Bool.false_eq_true, if_false, hd, hp,
          hi, hf]
      · simp only [List.findIdx_cons, hpc, cond_false, Iterator.advance, hi, ok_bind, ha]
      · rw [hiff]
        simp only [List.mem_cons, forall_eq_or_imp, hpc, true_and]

/-- C20: over the buffer a fresh writer yields for a sequence of calls, each with
a value (for a composite call, the nested encoding of its fields) shorter than
`2 ^ 32 - 8` bytes, the range loop yields one entry per call, and on the i-th
entry `is_mesh(q)` returns, without throwing, whether the i-th call is the mesh
overload with name `q`, and `is_texture(q)` whether it is the texture overload
with name `q`. The scan `find_if` with either probe stops after as many
increments as there are calls before the first call of that kind and name, and
equals `end()` exactly when there is no such call. -/
theorem probes_match_written_names (addr : Nat) (calls : List WriteCall) (q : List Byte)
    (fuel : Nat) (h : ∀ c ∈ calls, c.value_size < 2 ^ 32 - 8) (hfuel : calls.length < fuel) :
    (∃ entries,
        (TLVReader.mk (span_of addr (TLVWriter.write_all {} calls).yield.1)).entries fuel
          = some (.ok entries)
        ∧ entries.length = calls.length
        ∧ entries.map (fun e => e.is_mesh q) = calls.map (fun c => .ok (c.is_mesh_named q))
        ∧ entries.map (fun e => e.is_texture q)
          = calls.map (fun c => .ok (c.is_texture_named q)))
      ∧ (∃ it,
        (TLVReader.mk (span_of addr (TLVWriter.write_all {} calls).yield.1)).find_if
            (fun e => e.is_mesh q) fuel = some (.ok it)
        ∧ Iterator.advance (calls.findIdx (WriteCall.is_mesh_named q))
            (TLVReader.mk (span_of addr (TLVWriter.write_all {} calls).yield.1)).begin
          = .ok it
        ∧ (it.eq (TLVReader.mk (span_of addr (TLVWriter.write_all {} calls).yield.1)).end_
            = true ↔ ∀ c ∈ calls, c.is_mesh_named q = false))
      ∧ (∃ it,
        (TLVReader.mk (span_of addr (TLVWriter.write_all {} calls).yield.1)).find_if
            (fun e => e.is_texture q) fuel = some (.ok it)
        ∧ Iterator.advance (calls.findIdx (WriteCall.is_texture_named q))
            (TLVReader.mk (span_of addr (TLVWriter.write_all {} calls).yield.1)).begin
          = .ok it
        ∧ (it.eq (TLVReader.mk (span_of addr (TLVWriter.write_all {} calls).yield.1)).end_
            = true ↔ ∀ c ∈ calls, c.is_texture_named q = false)) := by
  have hlen := value_length_lt calls h
  refine ⟨⟨written_entries addr calls, ?_, ?_, ?_, ?_⟩, ?_, ?_⟩
  · exact collect_write_all_entries calls hlen addr _ fuel rfl hfuel
  · have := congrArg List.length (written_entries_probes calls q h addr).1
    simpa using this
  · exact (written_entries_probes calls q h addr).1
  · exact (written_entries_probes calls q h addr).2
  · exact find_if_write_all (fun e => e.is_mesh q) (WriteCall.is_mesh_named q)
      (fun c a hc => (probe_written c a q hc).1) calls h addr _ fuel rfl hfuel
  · exact find_if_write_all (fun e => e.is_texture q) (WriteCall.is_texture_named q)
      (fun c a hc => (probe_written c a q hc).2) calls h addr _ fuel rfl hfuel

/-- Witness of C20: the sample sequence of calls probed for the name `"m"`; only
the second call is a mesh of that name. -/
theorem probes_match_written_names_witness :
    ((∃ entries,
        (TLVReader.mk (span_of 0 (TLVWriter.write_all {} sample_calls).yield.1)).entries 5
          = some (.ok entries)
        ∧ entries.length = sample_calls.length
        ∧ entries.map (fun e => e.is_mesh [0x6d])
          = sample_calls.map (fun c => .ok (c.is_mesh_named [0x6d]))
        ∧ entries.map (fun e => e.is_texture [0x6d])
          = sample_calls.map (fun c => .ok (c.is_texture_named [0x6d])))
      ∧ (∃ it,
        (TLVReader.mk (span_of 0 (TLVWriter.write_all {} sample_calls).yield.1)).find_if
            (fun e => e.is_mesh [0x6d]) 5 = some (.ok it)
        ∧ Iterator.advance (sample_calls.findIdx (WriteCall.is_mesh_named [0x6d]))
            (TLVReader.mk (span_of 0 (TLVWriter.write_all {} sample_calls).yield.1)).begin
          = .ok it
        ∧ (it.eq (TLVReader.mk (span_of 0 (TLVWriter.write_all {} sample_calls).yield.1)).end_
            = true ↔ ∀ c ∈ sample_calls, c.is_mesh_named [0x6d] = false))
      ∧ (∃ it,
        (TLVReader.mk (span_of 0 (TLVWriter.write_all {} sample_calls).yield.1)).find_if
            (fun e => e.is_texture [0x6d]) 5 = some (.ok it)
        ∧ Iterator.advance (sample_calls.findIdx (WriteCall.is_texture_named [0x6d]))
            (TLVReader.mk (span_of 0 (TLVWriter.write_all {} sample_calls).yield.1)).begin
          = .ok it
        ∧ (it.eq (TLVReader.mk (span_of 0 (TLVWriter.write_all {} sample_calls).yield.1)).end_
            = true ↔ ∀ c ∈ sample_calls, c.is_texture_named [0x6d] = false)))
      ∧ sample_calls.map (WriteCall.is_mesh_named [0x6d]) = [false, true, false, false]
      ∧ sample_calls.map (WriteCall.is_texture_named [0x6d]) = [false, false, false, false]
      ∧ sample_calls.findIdx (WriteCall.is_mesh_named [0x6d]) = 1
      ∧ sample_calls.findIdx (WriteCall.is_texture_named [0x6d]) = sample_calls.length :=
  ⟨probes_match_written_names 0 sample_calls [0x6d] 5 (by decide) (by decide),
    by decide, by decide, by decide, by decide⟩

/-! ## Records of bounded size: increment and truncation -/

theorem increment_removes_record (it : Iterator) (h8 : 8 ≤ it.buffer_.size)
    (hL : 8 + load_uint32 (it.buffer_.bytes.drop 4) ≤ it.buffer_.size)
    (hsmall : 8 + load_uint32 (it.buffer_.bytes.drop 4) < 2 ^ 32) :
    it.increment = .ok ⟨⟨it.buffer_.data + (8 + load_uint32 (it.buffer_.bytes.drop 4)),
      it.buffer_.bytes.drop (8 + load_uint32 (it.buffer_.bytes.drop 4))⟩⟩ := by
  have hsz : (it.buffer_.subspan 8 (load_uint32 (it.buffer_.bytes.drop 4))).size
      = load_uint32 (it.buffer_.bytes.drop 4) := by
    simp only [Span.subspan, Span.size, List.length_take, List.length_drop]
    simp only [Span.size] at hL
    omega
  have hm : (4 + 4 + load_uint32 (it.buffer_.bytes.drop 4)) % 2 ^ 32
      = 8 + load_uint32 (it.buffer_.bytes.drop 4) := by omega
  have hsub : it.buffer_.size - (it.buffer_.size - (8 + load_uint32 (it.buffer_.bytes.drop 4)))
      = 8 + load_uint32 (it.buffer_.bytes.drop 4) := by omega
  rw [increment_of_fits it h8 hL, hsz, hm]
  simp only [Span.last, hsub]

theorem buffer_of_records_cons (r : Nat × List Byte) (rs : List (Nat × List Byte))
    (rest : List Byte) :
    buffer_of_records (r :: rs) ++ rest
      = uint32_bytes r.1 ++ (uint32_bytes r.2.length ++ (r.2 ++ (buffer_of_records rs ++ rest))) := by
  simp only [buffer_of_records, record_bytes, List.map_cons, List.flatten_cons,
    List.append_assoc]

theorem buffer_of_records_append (pre post : List (Nat × List Byte)) :
    buffer_of_records (pre ++ post) = buffer_of_records pre ++ buffer_of_records post := by
  simp only [buffer_of_records, List.map_append, List.flatten_append]

theorem advance_records (rs : List (Nat × List Byte))
    (h : ∀ r ∈ rs, r.2.length < 2 ^ 32 - 8) (a : Nat) (rest : List Byte) :
    Iterator.advance rs.length ⟨⟨a, buffer_of_records rs ++ rest⟩⟩
      = .ok ⟨⟨a + (buffer_of_records rs).length, rest⟩⟩ := by
  induction rs generalizing a with
  | nil => simp [Iterator.advance, buffer_of_records, pure, Except.pure]
  | cons r rs ih =>
    have hr := h r (List.mem_cons_self r rs)
    have hrs : ∀ d ∈ rs, d.2.length < 2 ^ 32 - 8 :=
      fun d hd => h d (List.mem_cons_of_mem r hd)
    have hlen : (buffer_of_records (r :: rs)).length
        = 8 + r.2.length + (buffer_of_records rs).length := by
      have := congrArg List.length (buffer_of_records_cons r rs [])
      simp only [List.append_nil, List.length_append, uint32_bytes_length] at this
      omega
    rw [buffer_of_records_cons, hlen]
    simp only [List.length_cons, Iterator.advance,
      increment_record a r.1 r.2 _ (by omega), ok_bind, ih hrs]
    simp only [Nat.add_assoc]

theorem truncated_record_raises (a last t : Nat) (p : List Byte) (k : Nat)
    (hp : p.length < 2 ^ 32) (hk0 : 0 < k) (hk : k < 8 + p.length) :
    Iterator.eq ⟨⟨a, (record_bytes t p).take k⟩⟩ ⟨⟨last, []⟩⟩ = false
      ∧ ∃ err, Iterator.deref ⟨⟨a, (record_bytes t p).take k⟩⟩ = .error err
        ∧ Iterator.increment ⟨⟨a, (record_bytes t p).take k⟩⟩ = .error err := by
  have hrl : (record_bytes t p).length = 8 + p.length := by
    simp only [record_bytes, List.length_append, uint32_bytes_length]; omega
  have hsize : ((record_bytes t p).take k).length = k := by
    rw [List.length_take, hrl]; omega
  refine ⟨eq_end_false a last _ (by omega), ?_⟩
  by_cases h8 : k < 8
  · have hd := deref_of_short ⟨⟨a, (record_bytes t p).take k⟩⟩
      (by simp only [Span.size, hsize]; exact h8)
    exact ⟨_, hd, increment_of_deref_error _ _ hd⟩
  · have hload : load_uint32 (((record_bytes t p).take k).drop 4) = p.length := by
      have e : ((record_bytes t p).take k).drop 4
          = (uint32_bytes p.length ++ p).take (k - 4) := by
        rw [List.drop_take, record_bytes, drop_uint32_bytes]
      have e4 : (uint32_bytes p.length ++ p).take (k - 4)
          = uint32_bytes p.length ++ p.take (k - 4 - 4) := by
        rw [List.take_append_eq_append_take, uint32_bytes_length,
          List.take_of_length_le (by rw [uint32_bytes_length]; omega)]
      rw [e, e4, load_uint32_uint32_bytes, Nat.mod_eq_of_lt hp]
    have hd := deref_of_cut_value ⟨⟨a, (record_bytes t p).take k⟩⟩
      (by simp only [Span.size, hsize]; omega)
      (by simp only [Span.size, hsize, hload]; exact hk)
    exact ⟨_, hd, increment_of_deref_error _ _ hd⟩

theorem truncation_detected_after_small_records (addr : Nat)
    (pre post : List (Nat × List Byte)) (t : Nat) (p : List Byte) (k : Nat)
    (hpre : ∀ r ∈ pre, r.2.length < 2 ^ 32 - 8) (hp : p.length < 2 ^ 32)
    (hk0 : 0 < k) (hk : k < 8 + p.length) :
    ∃ it,
      Iterator.advance pre.length
          (TLVReader.mk (span_of addr ((buffer_of_records (pre ++ (t, p) :: post)).take
            ((buffer_of_records pre).length + k)))).begin = .ok it
        ∧ it.eq (TLVReader.mk (span_of addr ((buffer_of_records (pre ++ (t, p) :: post)).take
            ((buffer_of_records pre).length + k)))).end_ = false
        ∧ ∃ err, it.deref = .error err ∧ it.increment = .error err := by
  have hrl : (record_bytes t p).length = 8 + p.length := by
    simp only [record_bytes, List.length_append, uint32_bytes_length]; omega
  have hcut : (buffer_of_records (pre ++ (t, p) :: post)).take
      ((buffer_of_records pre).length + k)
      = buffer_of_records pre ++ (record_bytes t p).take k := by
    have e : buffer_of_records ((t, p) :: post)
        = record_bytes t p ++ buffer_of_records post := by
      simp only [buffer_of_records, List.map_cons, List.flatten_cons]
    rw [buffer_of_records_append, e, List.take_append_eq_append_take,
      List.take_of_length_le (by omega), Nat.add_sub_cancel_left,
      List.take_append_of_le_length (by omega)]
  obtain ⟨hne, err, hd, hi⟩ := truncated_record_raises
    (addr + (buffer_of_records pre).length)
    (addr + (buffer_of_records pre ++ (record_bytes t p).take k).length) t p k hp hk0 hk
  refine ⟨⟨⟨addr + (buffer_of_records pre).length, (record_bytes t p).take k⟩⟩, ?_, ?_,
    err, hd, hi⟩
  · rw [hcut]
    exact advance_records pre hpre addr _
  · rw [hcut]
    exact hne

/-! ## Probes and the first nested record -/

theorem probe_of_first_record (a : Nat) (p rest name : List Byte) (hp : p.length < 2 ^ 32) :
    (Iterator.deref ⟨⟨a, record_bytes 2 p ++ rest⟩⟩ >>= fun first =>
        first.string_value >>= fun found => (pure (found == name) : Except Exception Bool))
      = .ok (p == name) := by
  have hb : record_bytes 2 p ++ rest = uint32_bytes 2 ++ (uint32_bytes p.length ++ (p ++ rest)) := by
    simp only [record_bytes, List.append_assoc]
  rw [hb, deref_record a 2 p rest hp, ok_bind, string_value_of_tag_eq _ rfl, ok_bind]
  rfl

/-- C21: two entries of the same composite tag whose nested values begin with the
same complete `STRING` record (value `p`, shorter than `2 ^ 32` bytes) get the same
boolean from the probe, `p == name`, and neither call throws, whatever bytes
`rest1` and `rest2` follow the record and wherever the values are stored. -/
theorem probe_depends_on_first_record (a1 a2 : Nat) (p rest1 rest2 name : List Byte)
    (hp : p.length < 2 ^ 32) :
    TLVEntry.is_texture ⟨TLVType.TEXTURE_DESCRIPTION, ⟨a1, record_bytes 2 p ++ rest1⟩⟩ name
        = .ok (p == name)
      ∧ TLVEntry.is_texture ⟨TLVType.TEXTURE_DESCRIPTION, ⟨a2, record_bytes 2 p ++ rest2⟩⟩ name
        = .ok (p == name)
      ∧ TLVEntry.is_mesh ⟨TLVType.MESH_DATA, ⟨a1, record_bytes 2 p ++ rest1⟩⟩ name
        = .ok (p == name)
      ∧ TLVEntry.is_mesh ⟨TLVType.MESH_DATA, ⟨a2, record_bytes 2 p ++ rest2⟩⟩ name
        = .ok (p == name) := by
  refine ⟨?_, ?_, ?_, ?_⟩
  · rw [is_texture_of_tag_eq _ _ rfl]; exact probe_of_first_record a1 p rest1 name hp
  · rw [is_texture_of_tag_eq _ _ rfl]; exact probe_of_first_record a2 p rest2 name hp
  · rw [is_mesh_of_tag_eq _ _ rfl]; exact probe_of_first_record a1 p rest1 name hp
  · rw [is_mesh_of_tag_eq _ _ rfl]; exact probe_of_first_record a2 p rest2 name hp

/-- Witness of C21: the name record `"m"` followed by nothing, and followed by a
record of tag 7 that declares 255 bytes and holds one. -/
theorem probe_depends_on_first_record_witness :
    TLVEntry.is_texture ⟨TLVType.TEXTURE_DESCRIPTION, ⟨0, record_bytes 2 [0x6d] ++ []⟩⟩ [0x6d]
        = .ok ([(0x6d : Byte)] == [0x6d])
      ∧ TLVEntry.is_texture ⟨TLVType.TEXTURE_DESCRIPTION,
          ⟨64, record_bytes 2 [0x6d] ++ [0x07, 0x00, 0x00, 0x00, 0xff, 0x00, 0x00, 0x00, 0x01]⟩⟩
          [0x6d]
        = .ok ([(0x6d : Byte)] == [0x6d])
      ∧ TLVEntry.is_mesh ⟨TLVType.MESH_DATA, ⟨0, record_bytes 2 [0x6d] ++ []⟩⟩ [0x6d]
        = .ok ([(0x6d : Byte)] == [0x6d])
      ∧ TLVEntry.is_mesh ⟨TLVType.MESH_DATA,
          ⟨64, record_bytes 2 [0x6d] ++ [0x07, 0x00, 0x00, 0x00, 0xff, 0x00, 0x00, 0x00, 0x01]⟩⟩
          [0x6d]
        = .ok ([(0x6d : Byte)] == [0x6d]) :=
  probe_depends_on_first_record 0 64 [0x6d] []
    [0x07, 0x00, 0x00, 0x00, 0xff, 0x00, 0x00, 0x00, 0x01] [0x6d] (by decide)

/-! ## The nested buffer of a composite write -/

theorem texture_fields_lt (name : List Byte) (width height : Nat) (format : TextureFormat)
    (usage : TextureUsage) (data : List Byte)
    (h : (8 + name.length) + 12 + 12 + 12 + 12 + (8 + data.length) < 2 ^ 32) :
    ∀ c ∈ [WriteCall.string name, WriteCall.uint32 width, WriteCall.uint32 height,
        WriteCall.texture_format format, WriteCall.texture_usage usage,
        WriteCall.byte_array data], c.value.length < 2 ^ 32 - 8 := by
  intro c hc
  simp only [List.mem_cons, List.mem_singleton, List.not_mem_nil, or_false] at hc
  rcases hc with rfl | rfl | rfl | rfl | rfl | rfl <;>
    simp only [WriteCall.value, uint32_bytes_length] <;> omega

theorem mesh_fields_lt (name : List Byte) (vertices : List VertexData) (indices : List Nat)
    (h : (8 + name.length) + (8 + 44 * vertices.length) + (8 + 4 * indices.length) < 2 ^ 32) :
    ∀ c ∈ [WriteCall.string name, WriteCall.vertex_data_array vertices,
        WriteCall.uint32_array indices], c.value.length < 2 ^ 32 - 8 := by
  intro c hc
  simp only [List.mem_cons, List.mem_singleton, List.not_mem_nil, or_false] at hc
  rcases hc with rfl | rfl | rfl <;>
    simp only [WriteCall.value, vertex_data_array_bytes_length, uint32_array_bytes_length,
      sizeof_VertexData] <;> omega

/-- C22: a composite write on a writer holding `b` leaves
`b ++ LE32(tag) ++ LE32(|n|) ++ n`, tag 8 for a texture and 9 for a mesh, where `n`
is the buffer a fresh writer yields after the field writes in schema order; when
the nested encoding of the fields is shorter than `2 ^ 32` bytes, the range loop
of a reader over `n` alone yields exactly the 6 (resp. 3) entries with the tags
of the schema, and 6 (resp. 3) increments from `begin()` give `end()`. -/
theorem composite_write_nests_fresh_buffer (b : List Byte) (addr : Nat) (name : List Byte)
    (width height : Nat) (format : TextureFormat) (usage : TextureUsage) (data : List Byte)
    (vertices : List VertexData) (indices : List Nat)
    (htex : (8 + name.length) + 12 + 12 + 12 + 12 + (8 + data.length) < 2 ^ 32)
    (hmesh : (8 + name.length) + (8 + 44 * vertices.length) + (8 + 4 * indices.length)
      < 2 ^ 32) :
    ((TLVWriter.write_texture_description ⟨b⟩ name width height format usage data).buffer_
        = b ++ uint32_bytes 8
          ++ uint32_bytes ((((((({} : TLVWriter).write_string name).write_uint32
              width).write_uint32 height).write_texture_format format).write_texture_usage
              usage).write_byte_array data).yield.1.length
          ++ ((((((({} : TLVWriter).write_string name).write_uint32
              width).write_uint32 height).write_texture_format format).write_texture_usage
              usage).write_byte_array data).yield.1)
      ∧ (∃ entries,
          (TLVReader.mk (span_of addr ((((((({} : TLVWriter).write_string name).write_uint32
              width).write_uint32 height).write_texture_format format).write_texture_usage
              usage).write_byte_array data).yield.1)).entries 7 = some (.ok entries)
          ∧ entries.map TLVEntry.type
            = [TLVType.STRING, TLVType.UINT32, TLVType.UINT32, TLVType.TEXTURE_FORMAT,
                TLVType.TEXTURE_USAGE, TLVType.BYTE_ARRAY])
      ∧ (∃ it,
          Iterator.advance 6
              (TLVReader.mk (span_of addr ((((((({} : TLVWriter).write_string
                name).write_uint32 width).write_uint32 height).write_texture_format
                format).write_texture_usage usage).write_byte_array data).yield.1)).begin
            = .ok it
          ∧ it.eq (TLVReader.mk (span_of addr ((((((({} : TLVWriter).write_string
                name).write_uint32 width).write_uint32 height).write_texture_format
                format).write_texture_usage usage).write_byte_array data).yield.1)).end_
            = true)
      ∧ ((TLVWriter.write_mesh_data ⟨b⟩ name vertices indices).buffer_
        = b ++ uint32_bytes 9
          ++ uint32_bytes (((({} : TLVWriter).write_string name).write_vertex_data_array
              vertices).write_uint32_array indices).yield.1.length
          ++ (((({} : TLVWriter).write_string name).write_vertex_data_array
              vertices).write_uint32_array indices).yield.1)
      ∧ (∃ entries,
          (TLVReader.mk (span_of addr (((({} : TLVWriter).write_string
              name).write_vertex_data_array vertices).write_uint32_array
              indices).yield.1)).entries 4 = some (.ok entries)
          ∧ entries.map TLVEntry.type
            = [TLVType.STRING, TLVType.VERTEX_DATA_ARRAY, TLVType.UINT32_ARRAY])
      ∧ (∃ it,
          Iterator.advance 3
              (TLVReader.mk (span_of addr (((({} : TLVWriter).write_string
                name).write_vertex_data_array vertices).write_uint32_array
                indices).yield.1)).begin
            = .ok it
          ∧ it.eq (TLVReader.mk (span_of addr (((({} : TLVWriter).write_string
                name).write_vertex_data_array vertices).write_uint32_array
                indices).yield.1)).end_
            = true) := by
  have htl := texture_fields_lt name width height format usage data htex
  have hml := mesh_fields_lt name vertices indices hmesh
  have ht := collect_write_all_entries _ htl addr _ 7 rfl (by simp)
  have hm := collect_write_all_entries _ hml addr _ 4 rfl (by simp)
  refine ⟨?_, ⟨_, ht, rfl⟩, ⟨_, advance_write_all _ htl addr, eq_end_true _ _ rfl⟩,
    ?_, ⟨_, hm, rfl⟩, ⟨_, advance_write_all _ hml addr, eq_end_true _ _ rfl⟩⟩
  · rw [write_texture_description_buffer]
    simp only [List.append_assoc]
    rfl
  · rw [write_mesh_data_buffer]
    simp only [List.append_assoc]
    rfl

/-- Witness of C22: a texture named `"t"` of 100 by 101 with one data byte and a
mesh named `"t"` with one vertex and three indices, on a writer holding one byte. -/
theorem composite_write_nests_fresh_buffer_witness :
    ((TLVWriter.write_texture_description ⟨[0xff]⟩ [0x74] 100 101 TextureFormat.RGB TextureUsage.SRGB [0xaa]).buffer_
        = [0xff] ++ uint32_bytes 8
          ++ uint32_bytes ((((((({} : TLVWriter).write_string [0x74]).write_uint32
              100).write_uint32 101).write_texture_format TextureFormat.RGB).write_texture_usage
              TextureUsage.SRGB).write_byte_array [0xaa]).yield.1.length
          ++ ((((((({} : TLVWriter).write_string [0x74]).write_uint32
              100).write_uint32 101).write_texture_format TextureFormat.RGB).write_texture_usage
              TextureUsage.SRGB).write_byte_array [0xaa]).yield.1)
      ∧ (∃ entries,
          (TLVReader.mk (span_of 0 ((((((({} : TLVWriter).write_string [0x74]).write_uint32
              100).write_uint32 101).write_texture_format TextureFormat.RGB).write_texture_usage
              TextureUsage.SRGB).write_byte_array [0xaa]).yield.1)).entries 7 = some (.ok entries)
          ∧ entries.map TLVEntry.type
            = [TLVType.STRING, TLVType.UINT32, TLVType.UINT32, TLVType.TEXTURE_FORMAT,
                TLVType.TEXTURE_USAGE, TLVType.BYTE_ARRAY])
      ∧ (∃ it,
          Iterator.advance 6
              (TLVReader.mk (span_of 0 ((((((({} : TLVWriter).write_string
                [0x74]).write_uint32 100).write_uint32 101).write_texture_format
                TextureFormat.RGB).write_texture_usage TextureUsage.SRGB).write_byte_array [0xaa]).yield.1)).begin
            = .ok it
          ∧ it.eq (TLVReader.mk (span_of 0 ((((((({} : TLVWriter).write_string
                [0x74]).write_uint32 100).write_uint32 101).write_texture_format
                TextureFormat.RGB).write_texture_usage TextureUsage.SRGB).write_byte_array [0xaa]).yield.1)).end_
            = true)
      ∧ ((TLVWriter.write_mesh_data ⟨[0xff]⟩ [0x74] [sample_vertex] [0, 1, 2]).buffer_
        = [0xff] ++ uint32_bytes 9
          ++ uint32_bytes (((({} : TLVWriter).write_string [0x74]).write_vertex_data_array
              [sample_vertex]).write_uint32_array [0, 1, 2]).yield.1.length
          ++ (((({} : TLVWriter).write_string [0x74]).write_vertex_data_array
              [sample_vertex]).write_uint32_array [0, 1, 2]).yield.1)
      ∧ (∃ entries,
          (TLVReader.mk (span_of 0 (((({} : TLVWriter).write_string
              [0x74]).write_vertex_data_array [sample_vertex]).write_uint32_array
              [0, 1, 2]).yield.1)).entries 4 = some (.ok entries)
          ∧ entries.map TLVEntry.type
            = [TLVType.STRING, TLVType.VERTEX_DATA_ARRAY, TLVType.UINT32_ARRAY])
      ∧ (∃ it,
          Iterator.advance 3
              (TLVReader.mk (span_of 0 (((({} : TLVWriter).write_string
                [0x74]).write_vertex_data_array [sample_vertex]).write_uint32_array
                [0, 1, 2]).yield.1)).begin
            = .ok it
          ∧ it.eq (TLVReader.mk (span_of 0 (((({} : TLVWriter).write_string
                [0x74]).write_vertex_data_array [sample_vertex]).write_uint32_array
                [0, 1, 2]).yield.1)).end_
            = true) :=
  composite_write_nests_fresh_buffer [0xff] 0 [0x74] 100 101 TextureFormat.RGB
    TextureUsage.SRGB [0xaa] [sample_vertex] [0, 1, 2] (by decide) (by decide)

/-! ## The size of an entry -/

theorem size_of_small_value (e : TLVEntry) (h : e.value_.size < 2 ^ 32 - 8) :
    e.size = 8 + e.value_.size := by
  simp only [TLVEntry.size]
  omega

theorem size_of_large_value (e : TLVEntry) (h : e.value_.size = 4294967288) : e.size = 0 := by
  simp only [TLVEntry.size, h]
  norm_num

theorem size_of_large_string (p : List Byte) (hp : p.length = 4294967288) :
    Iterator.deref ⟨⟨0, (TLVWriter.write_string {} p).yield.1⟩⟩
        = .ok ⟨TLVType.STRING, ⟨8, p⟩⟩
      ∧ (⟨TLVType.STRING, ⟨8, p⟩⟩ : TLVEntry).value_.size = 4294967288
      ∧ TLVEntry.size ⟨TLVType.STRING, ⟨8, p⟩⟩ = 0 :=
  ⟨(increment_large_string p hp).1, hp, size_of_large_value _ hp⟩

/-- C24, the code at the failing input: the entry that `operator*` returns over the
buffer a writer yields for a string of `2 ^ 32 - 8` bytes has a value of
`n = 2 ^ 32 - 8` bytes, and `size()` returns 0 on it, where the claim has
`8 + n = 2 ^ 32`. -/
theorem size_wraps_on_large_value :
    Iterator.deref ⟨⟨0, (TLVWriter.write_string {} (List.replicate 4294967288 0)).yield.1⟩⟩
        = .ok ⟨TLVType.STRING, ⟨8, List.replicate 4294967288 0⟩⟩
      ∧ (⟨TLVType.STRING, ⟨8, List.replicate 4294967288 0⟩⟩ : TLVEntry).value_.size
        = 4294967288
      ∧ TLVEntry.size ⟨TLVType.STRING, ⟨8, List.replicate 4294967288 0⟩⟩ = 0 :=
  size_of_large_string (List.replicate 4294967288 0) (List.length_replicate _ _)

/-! ## Termination of the iteration -/

theorem increment_decreases (it next : Iterator) (h : it.increment = .ok next)
    (hsmall : 8 + load_uint32 (it.buffer_.bytes.drop 4) < 2 ^ 32) :
    next.buffer_.size + 8 ≤ it.buffer_.size := by
  by_cases h8 : it.buffer_.size < 8
  · rw [increment_of_deref_error it _ (deref_of_short it h8)] at h; cases h
  · by_cases hL : it.buffer_.size < 8 + load_uint32 (it.buffer_.bytes.drop 4)
    · rw [increment_of_deref_error it _ (deref_of_cut_value it (by omega) hL)] at h; cases h
    · rw [increment_removes_record it (by omega) (by omega) hsmall] at h
      cases h
      simp only [Span.size, List.length_drop] at hL ⊢
      omega

theorem iteration_stalls_on_large_string (p : List Byte) (hp : p.length = 4294967288) :
    (∀ n, Iterator.advance n (TLVReader.mk (span_of 0 (TLVWriter.write_string {} p).yield.1)).begin
        = .ok (TLVReader.mk (span_of 0 (TLVWriter.write_string {} p).yield.1)).begin)
      ∧ (TLVReader.mk (span_of 0 (TLVWriter.write_string {} p).yield.1)).begin.eq
          (TLVReader.mk (span_of 0 (TLVWriter.write_string {} p).yield.1)).end_ = false
      ∧ (TLVReader.mk (span_of 0 (TLVWriter.write_string {} p).yield.1)).begin.deref
        = .ok ⟨TLVType.STRING, ⟨8, p⟩⟩
      ∧ (∀ fuel, (TLVReader.mk (span_of 0 (TLVWriter.write_string {} p).yield.1)).entries fuel
        = none) := by
  obtain ⟨hd, hi, hl⟩ := increment_large_string p hp
  have hne : Iterator.eq ⟨⟨0, (TLVWriter.write_string {} p).yield.1⟩⟩
      ⟨⟨0 + (TLVWriter.write_string {} p).yield.1.length, []⟩⟩ = false :=
    eq_end_false _ _ _ (by rw [hl]; norm_num)
  refine ⟨?_, hne, hd, ?_⟩
  · intro n
    induction n with
    | zero => rfl
    | succ n ih =>
      simp only [TLVReader.begin, span_of] at ih ⊢
      simp only [Iterator.advance, hi, ok_bind, ih]
  · intro fuel
    simp only [TLVReader.entries, TLVReader.begin, TLVReader.end_, span_of, Span.size]
    induction fuel with
    | zero => rfl
    | succ f ih =>
      simp only [Iterator.collect, hne, Bool.false_eq_true, if_false, hd, hi, ih]

/-- C29, the code at the failing input: over the buffer a writer yields for a
string of `2 ^ 32 - 8` bytes, every number of increments from `begin()` gives
`begin()` again, which differs from `end()` and dereferences without throwing;
the range loop does not finish with any amount of fuel. No increment decreases
the remaining length. -/
theorem iteration_does_not_terminate_on_large_record :
    (∀ n, Iterator.advance n
          (TLVReader.mk (span_of 0
            (TLVWriter.write_string {} (List.replicate 4294967288 0)).yield.1)).begin
        = .ok (TLVReader.mk (span_of 0
            (TLVWriter.write_string {} (List.replicate 4294967288 0)).yield.1)).begin)
      ∧ (TLVReader.mk (span_of 0
            (TLVWriter.write_string {} (List.replicate 4294967288 0)).yield.1)).begin.eq
          (TLVReader.mk (span_of 0
            (TLVWriter.write_string {} (List.replicate 4294967288 0)).yield.1)).end_ = false
      ∧ (TLVReader.mk (span_of 0
            (TLVWriter.write_string {} (List.replicate 4294967288 0)).yield.1)).begin.deref
        = .ok ⟨TLVType.STRING, ⟨8, List.replicate 4294967288 0⟩⟩
      ∧ (∀ fuel, (TLVReader.mk (span_of 0
            (TLVWriter.write_string {} (List.replicate 4294967288 0)).yield.1)).entries fuel
        = none) :=
  iteration_stalls_on_large_string (List.replicate 4294967288 0) (List.length_replicate _ _)

/-! ## The length field written by the writer -/

theorem write_entry_take (b : List Byte) (t : TLVType) (n : Nat) (x : List Byte)
    (h : n ≤ x.length) :
    write_entry b t n (x.take n) = b ++ record_bytes t.value (x.take n) := by
  have hl : (x.take n).length = n := by rw [List.length_take]; omega
  rw [write_entry_eq, record_bytes, hl]

theorem primitive_write_is_record (w : TLVWriter) (c : WriteCall)
    (hc : c.is_composite = false) :
    ∃ p : List Byte, p.length < 2 ^ 32
      ∧ (w.write c).buffer_ = w.buffer_ ++ record_bytes c.type.value p := by
  cases c with
  | uint32 v =>
    exact ⟨uint32_bytes v, by rw [uint32_bytes_length]; norm_num, by
      simp only [TLVWriter.write, write_uint32_buffer, record_bytes, uint32_bytes_length,
        WriteCall.type, TLVType.UINT32]⟩
  | uint32_array xs =>
    have hl := uint32_array_bytes_length xs
    refine ⟨(uint32_array_bytes xs).take (xs.length * 4 % 2 ^ 64 % 2 ^ 32), ?_, ?_⟩
    · rw [List.length_take]; omega
    · simp only [TLVWriter.write, TLVWriter.write_uint32_array, WriteCall.type]
      exact write_entry_take w.buffer_ TLVType.UINT32_ARRAY
        (xs.length * 4 % 2 ^ 64 % 2 ^ 32) (uint32_array_bytes xs) (by omega)
  | string v =>
    refine ⟨v.take (v.length % 2 ^ 32), ?_, ?_⟩
    · rw [List.length_take]; omega
    · simp only [TLVWriter.write, TLVWriter.write_string, WriteCall.type]
      exact write_entry_take w.buffer_ TLVType.STRING (v.length % 2 ^ 32) v (Nat.mod_le _ _)
  | byte_array v =>
    refine ⟨v.take (v.length % 2 ^ 32), ?_, ?_⟩
    · rw [List.length_take]; omega
    · simp only [TLVWriter.write, TLVWriter.write_byte_array, WriteCall.type]
      exact write_entry_take w.buffer_ TLVType.BYTE_ARRAY (v.length % 2 ^ 32) v
        (Nat.mod_le _ _)
  | texture_format v =>
    exact ⟨uint32_bytes v.value, by rw [uint32_bytes_length]; norm_num, by
      simp only [TLVWriter.write, write_texture_format_buffer, record_bytes,
        uint32_bytes_length, WriteCall.type, TLVType.TEXTURE_FORMAT]⟩
  | texture_usage v =>
    exact ⟨uint32_bytes v.value, by rw [uint32_bytes_length]; norm_num, by
      simp only [TLVWriter.write, write_texture_usage_buffer, record_bytes,
        uint32_bytes_length, WriteCall.type, TLVType.TEXTURE_USAGE]⟩
  | vertex_data v =>
    exact ⟨v.bytes, by rw [v.size_eq, sizeof_VertexData]; norm_num, by
      simp only [TLVWriter.write, write_vertex_data_buffer, record_bytes, v.size_eq,
        sizeof_VertexData, WriteCall.type, TLVType.VERTEX_DATA]⟩
  | vertex_data_array vs =>
    have hl := vertex_data_array_bytes_length vs
    refine ⟨(vertex_data_array_bytes vs).take
      (vs.length * sizeof_VertexData % 2 ^ 64 % 2 ^ 32), ?_, ?_⟩
    · rw [List.length_take]; omega
    · simp only [TLVWriter.write, TLVWriter.write_vertex_data_array, WriteCall.type]
      exact write_entry_take w.buffer_ TLVType.VERTEX_DATA_ARRAY
        (vs.length * sizeof_VertexData % 2 ^ 64 % 2 ^ 32) (vertex_data_array_bytes vs)
        (by rw [hl]; omega)
  | texture_description name width height format usage data => cases hc
  | mesh_data name vertices indices => cases hc

theorem texture_write_of_large_data (d : List Byte) (hd : d.length = 4294967232) :
    (TLVWriter.write_texture_description {} [] 1 1 TextureFormat.RGB TextureUsage.SRGB
          d).yield.1
        = uint32_bytes 8 ++ (uint32_bytes 0
          ++ texture_description_value_bytes [] 1 1 TextureFormat.RGB TextureUsage.SRGB d)
      ∧ (texture_description_value_bytes [] 1 1 TextureFormat.RGB TextureUsage.SRGB d).length
        = 4294967296
      ∧ (TLVReader.mk (span_of 0 (TLVWriter.write_texture_description {} [] 1 1
          TextureFormat.RGB TextureUsage.SRGB d).yield.1)).begin.deref
        = .ok ⟨TLVType.TEXTURE_DESCRIPTION, ⟨8, []⟩⟩ := by
  have hv := texture_description_value_bytes_eq [] 1 1 TextureFormat.RGB TextureUsage.SRGB d
    (by simp) (by rw [hd]; norm_num)
  have hlen : (texture_description_value_bytes [] 1 1 TextureFormat.RGB TextureUsage.SRGB
      d).length = 4294967296 := by
    rw [hv]
    simp only [List.length_append, uint32_bytes_length, List.length_nil, hd]
  have h0 : uint32_bytes 4294967296 = uint32_bytes 0 := by decide
  have hb : (TLVWriter.write_texture_description {} [] 1 1 TextureFormat.RGB
      TextureUsage.SRGB d).yield.1
      = uint32_bytes 8 ++ (uint32_bytes 0
        ++ texture_description_value_bytes [] 1 1 TextureFormat.RGB TextureUsage.SRGB d) := by
    simp only [TLVWriter.yield, write_texture_description_buffer, hlen, h0, List.nil_append]
  refine ⟨hb, hlen, ?_⟩
  have h := deref_record 0 8 []
    (texture_description_value_bytes [] 1 1 TextureFormat.RGB TextureUsage.SRGB d) (by simp)
  simp only [List.length_nil, List.nil_append, Nat.zero_add] at h
  rw [hb]
  exact h

/-- C23, the code at the failing input: the texture overload given an empty name
and `2 ^ 32 - 64` data bytes builds a nested buffer of `2 ^ 32` bytes and appends
the length field `LE32(0)` followed by all `2 ^ 32` bytes; a reader over the
yielded buffer sees a `TEXTURE_DESCRIPTION` record with an empty value. -/
theorem composite_length_field_wraps :
    (TLVWriter.write_texture_description {} [] 1 1 TextureFormat.RGB TextureUsage.SRGB
          (List.replicate 4294967232 0)).yield.1
        = uint32_bytes 8 ++ (uint32_bytes 0
          ++ texture_description_value_bytes [] 1 1 TextureFormat.RGB TextureUsage.SRGB
            (List.replicate 4294967232 0))
      ∧ (texture_description_value_bytes [] 1 1 TextureFormat.RGB TextureUsage.SRGB
          (List.replicate 4294967232 0)).length = 4294967296
      ∧ (TLVReader.mk (span_of 0 (TLVWriter.write_texture_description {} [] 1 1
          TextureFormat.RGB TextureUsage.SRGB (List.replicate 4294967232 0)).yield.1)).begin.deref
        = .ok ⟨TLVType.TEXTURE_DESCRIPTION, ⟨8, []⟩⟩ :=
  texture_write_of_large_data (List.replicate 4294967232 0) (List.length_replicate _ _)

/-! ## Array getters -/

theorem little_endian_32_drop (s : List Byte) (k i : Nat) :
    little_endian_32 (s.drop k) i = little_endian_32 s (k + i) := by
  simp only [little_endian_32, List.getD_eq_getElem?_getD, List.getElem?_drop, Nat.add_assoc]

theorem load_uint32_array_eq (n : Nat) (s : List Byte) :
    load_uint32_array n s = (List.range n).map (fun i => little_endian_32 s (4 * i)) := by
  induction n generalizing s with
  | zero => rfl
  | succ n ih =>
    rw [load_uint32_array, ih, List.range_succ_eq_map, List.map_cons, List.map_map,
      load_uint32_eq_little_endian_32]
    congr 1
    apply List.map_congr_left
    intro i _
    simp only [Function.comp, little_endian_32_drop]
    congr 1
    omega

theorem load_vertex_data_bytes_of_fits (s : List Byte) (h : sizeof_VertexData ≤ s.length) :
    (load_vertex_data s).bytes = s.take 44 := by
  simp only [sizeof_VertexData] at h
  simp only [load_vertex_data, sizeof_VertexData, List.length_take]
  have : 44 - min 44 s.length = 0 := by omega
  rw [this]
  simp

theorem load_vertex_data_array_eq (n : Nat) (s : List Byte) (h : sizeof_VertexData * n ≤ s.length) :
    (load_vertex_data_array n s).map VertexData.bytes
      = (List.range n).map (fun i => (s.drop (44 * i)).take 44) := by
  simp only [sizeof_VertexData] at h
  induction n generalizing s with
  | zero => rfl
  | succ n ih =>
    rw [load_vertex_data_array, List.map_cons,
      load_vertex_data_bytes_of_fits s (by simp only [sizeof_VertexData]; omega),
      ih (s.drop sizeof_VertexData) (by
        simp only [sizeof_VertexData, List.length_drop]; omega),
      List.range_succ_eq_map, List.map_cons, List.map_map]
    congr 1
    apply List.map_congr_left
    intro i _
    simp only [Function.comp, sizeof_VertexData, List.drop_drop]
    congr 2
    omega

theorem uint32_array_value_of_multiple (value : Span) (h : value.size % 4 = 0) :
    TLVEntry.uint32_array_value ⟨TLVType.UINT32_ARRAY, value⟩
      = .ok (.filled ((List.range (value.size / 4)).map
          (fun i => little_endian_32 value.bytes (4 * i)))) := by
  have hc : value.size ≤ value.size / 4 * 4 := by omega
  simp only [TLVEntry.uint32_array_value, ensure_beq_of_eq _ _ _ rfl, ok_bind,
    load_uint32_array_eq, if_pos hc, pure, Except.pure]

theorem uint32_array_value_of_remainder (value : Span) (h : value.size % 4 ≠ 0) :
    TLVEntry.uint32_array_value ⟨TLVType.UINT32_ARRAY, value⟩
      = .ok (.overrun (value.size / 4 * 4) value.size) := by
  have hc : ¬ value.size ≤ value.size / 4 * 4 := by omega
  simp only [TLVEntry.uint32_array_value, ensure_beq_of_eq _ _ _ rfl, ok_bind, if_neg hc, pure,
    Except.pure]

theorem vertex_data_array_value_of_multiple (value : Span) (h : value.size % 44 = 0) :
    ∃ vertices, TLVEntry.vertex_data_array_value ⟨TLVType.VERTEX_DATA_ARRAY, value⟩
        = .ok (.filled vertices)
      ∧ vertices.length = value.size / 44
      ∧ vertices.map VertexData.bytes
        = (List.range (value.size / 44)).map (fun i => (value.bytes.drop (44 * i)).take 44) := by
  have hv := load_vertex_data_array_eq (value.size / sizeof_VertexData) value.bytes (by
    simp only [sizeof_VertexData, Span.size]; omega)
  have hc : value.size ≤ value.size / sizeof_VertexData * sizeof_VertexData := by
    simp only [sizeof_VertexData]; omega
  refine ⟨load_vertex_data_array (value.size / sizeof_VertexData) value.bytes, ?_, ?_, hv⟩
  · simp only [TLVEntry.vertex_data_array_value, ensure_beq_of_eq _ _ _ rfl, ok_bind, if_pos hc,
      pure, Except.pure]
  · have := congrArg List.length hv
    simpa [sizeof_VertexData] using this

theorem vertex_data_array_value_of_remainder (value : Span) (h : value.size % 44 ≠ 0) :
    TLVEntry.vertex_data_array_value ⟨TLVType.VERTEX_DATA_ARRAY, value⟩
      = .ok (.overrun (value.size / 44 * 44) value.size) := by
  have hc : ¬ value.size ≤ value.size / 44 * 44 := by omega
  simp only [TLVEntry.vertex_data_array_value, ensure_beq_of_eq _ _ _ rfl, ok_bind,
    sizeof_VertexData, if_neg hc, pure, Except.pure]

/-- C26, the code at the failing input: on a `UINT32_ARRAY` entry with 6 value bytes
`uint32_array_value()` allocates one element and has `std::memcpy` write 6 bytes into
its 4 bytes of storage, and with 3 value bytes it writes 3 bytes through the
`data()` of an empty vector; `vertex_data_array_value()` does the same with 47 and
with 43 value bytes. No vector of `L / 4` (resp. `L / 44`) elements is returned
with defined behaviour. -/
theorem array_getters_overrun_on_remainder :
    TLVEntry.uint32_array_value
          ⟨TLVType.UINT32_ARRAY, ⟨0, [0x01, 0x02, 0x03, 0x04, 0x05, 0x06]⟩⟩
        = .ok (.overrun 4 6)
      ∧ TLVEntry.uint32_array_value ⟨TLVType.UINT32_ARRAY, ⟨0, [0x01, 0x02, 0x03]⟩⟩
        = .ok (.overrun 0 3)
      ∧ TLVEntry.vertex_data_array_value ⟨TLVType.VERTEX_DATA_ARRAY, ⟨0, List.replicate 47 0⟩⟩
        = .ok (.overrun 44 47)
      ∧ TLVEntry.vertex_data_array_value ⟨TLVType.VERTEX_DATA_ARRAY, ⟨0, List.replicate 43 0⟩⟩
        = .ok (.overrun 0 43) :=
  ⟨by rfl, by rfl, by rfl, by rfl⟩

/-- C30, the code at the failing input: on the `UINT32_ARRAY` entry with the five
value bytes `01 02 03 04 05` the getter passes its only check, allocates one
element (4 bytes) and copies 5 bytes into it; on a `VERTEX_DATA_ARRAY` entry with
45 value bytes it allocates one vertex (44 bytes) and copies 45. -/
theorem array_getters_copy_past_allocation :
    TLVEntry.uint32_array_value ⟨TLVType.UINT32_ARRAY, ⟨0, [0x01, 0x02, 0x03, 0x04, 0x05]⟩⟩
        = .ok (.overrun 4 5)
      ∧ TLVEntry.uint32_array_value_copied_bytes
          ⟨TLVType.UINT32_ARRAY, ⟨0, [0x01, 0x02, 0x03, 0x04, 0x05]⟩⟩ = 5
      ∧ TLVEntry.uint32_array_value_allocated_bytes
          ⟨TLVType.UINT32_ARRAY, ⟨0, [0x01, 0x02, 0x03, 0x04, 0x05]⟩⟩ = 4
      ∧ TLVEntry.vertex_data_array_value
          ⟨TLVType.VERTEX_DATA_ARRAY, ⟨0, List.replicate 45 0⟩⟩ = .ok (.overrun 44 45)
      ∧ TLVEntry.vertex_data_array_value_copied_bytes
          ⟨TLVType.VERTEX_DATA_ARRAY, ⟨0, List.replicate 45 0⟩⟩ = 45
      ∧ TLVEntry.vertex_data_array_value_allocated_bytes
          ⟨TLVType.VERTEX_DATA_ARRAY, ⟨0, List.replicate 45 0⟩⟩ = 44 :=
  ⟨by rfl, by rfl, by rfl, by rfl, by rfl, by rfl⟩

theorem array_copy_fits_iff (e : TLVEntry) :
    (e.uint32_array_value_copied_bytes ≤ e.uint32_array_value_allocated_bytes
        ↔ e.value_.size % 4 = 0)
      ∧ (e.vertex_data_array_value_copied_bytes ≤ e.vertex_data_array_value_allocated_bytes
        ↔ e.value_.size % 44 = 0) := by
  simp only [TLVEntry.uint32_array_value_copied_bytes,
    TLVEntry.uint32_array_value_allocated_bytes, TLVEntry.vertex_data_array_value_copied_bytes,
    TLVEntry.vertex_data_array_value_allocated_bytes, sizeof_VertexData]
  constructor <;> omega

/-! ## The schema check of `texture_description_value` -/

theorem bind_ok_inv {α β : Type} (x : Except Exception α) (f : α → Except Exception β) (b : β)
    (h : (x >>= f) = .ok b) : ∃ a, x = .ok a ∧ f a = .ok b := by
  cases x with
  | error err => cases h
  | ok a => exact ⟨a, rfl, h⟩

theorem ensure_ok_inv (c : Bool) (msg : String) (h : ensure c msg = .ok ()) : c = true := by
  cases c with
  | true => rfl
  | false => cases h

theorem deref_ok_inv (it : Iterator) (entry : TLVEntry) (h : it.deref = .ok entry) :
    8 ≤ it.buffer_.size
      ∧ 8 + load_uint32 (it.buffer_.bytes.drop 4) ≤ it.buffer_.size
      ∧ entry = ⟨⟨load_uint32 it.buffer_.bytes⟩,
          it.buffer_.subspan 8 (load_uint32 (it.buffer_.bytes.drop 4))⟩ := by
  by_cases h8 : it.buffer_.size < 8
  · rw [deref_of_short it h8] at h; cases h
  · by_cases hL : it.buffer_.size < 8 + load_uint32 (it.buffer_.bytes.drop 4)
    · rw [deref_of_cut_value it (by omega) hL] at h; cases h
    · rw [deref_of_fits it (by omega) (by omega)] at h
      cases h
      exact ⟨by omega, by omega, rfl⟩

theorem uint32_bytes_load_uint32 (s : List Byte) (h : 4 ≤ s.length) :
    uint32_bytes (load_uint32 s) = s.take 4 := by
  rcases s with _ | ⟨a, _ | ⟨b, _ | ⟨c, _ | ⟨d, t⟩⟩⟩⟩
  · simp at h
  · simp at h
  · simp at h
  · simp at h
  · simp only [load_uint32, uint32_bytes, List.take_succ_cons, List.take_zero, List.foldr_cons,
      List.foldr_nil, Fin.ofNat, List.cons.injEq, and_true]
    refine ⟨?_, ?_, ?_, ?_⟩ <;> apply Fin.ext <;> simp only [Fin.val_mk] <;> omega

theorem record_split (s : List Byte) (h8 : 8 ≤ s.length)
    (hL : 8 + load_uint32 (s.drop 4) ≤ s.length) :
    s = record_bytes (load_uint32 s) ((s.drop 8).take (load_uint32 (s.drop 4)))
      ++ s.drop (8 + load_uint32 (s.drop 4)) := by
  have hl : ((s.drop 8).take (load_uint32 (s.drop 4))).length = load_uint32 (s.drop 4) := by
    rw [List.length_take, List.length_drop]; omega
  have e1 : s = s.take 4 ++ s.drop 4 := (List.take_append_drop 4 s).symm
  have e2 : s.drop 4 = (s.drop 4).take 4 ++ s.drop 8 := by
    have := (List.take_append_drop 4 (s.drop 4)).symm
    rw [List.drop_drop] at this
    exact this
  have e3 : s.drop 8 = (s.drop 8).take (load_uint32 (s.drop 4))
      ++ s.drop (8 + load_uint32 (s.drop 4)) := by
    have := (List.take_append_drop (load_uint32 (s.drop 4)) (s.drop 8)).symm
    rw [List.drop_drop] at this
    exact this
  rw [record_bytes, hl, uint32_bytes_load_uint32 s (by omega),
    uint32_bytes_load_uint32 (s.drop 4) (by rw [List.length_drop]; omega)]
  simp only [List.append_assoc]
  rw [← e3, ← e2, ← e1]

theorem record_step (it next : Iterator) (entry : TLVEntry) (hs : it.buffer_.size < 2 ^ 32)
    (hd : it.deref = .ok entry) (hi : it.increment = .ok next) :
    it.buffer_.bytes = record_bytes entry.type_.value entry.value_.bytes ++ next.buffer_.bytes
      ∧ next.buffer_.size < 2 ^ 32 := by
  obtain ⟨h8, hL, rfl⟩ := deref_ok_inv it entry hd
  rw [increment_removes_record it h8 hL (by omega)] at hi
  cases hi
  simp only [Span.size] at h8 hL hs
  refine ⟨record_split it.buffer_.bytes h8 hL, ?_⟩
  simp only [Span.size, List.length_drop]
  omega

theorem deref_last_record (a t : Nat) (p : List Byte) (hp : p.length < 2 ^ 32) :
    Iterator.deref ⟨⟨a, uint32_bytes t ++ (uint32_bytes p.length ++ p)⟩⟩
      = .ok ⟨⟨t % 2 ^ 32⟩, ⟨a + 8, p⟩⟩ := by
  have h := deref_record a t p [] hp
  rw [List.append_nil] at h
  exact h

theorem increment_last_record (a t : Nat) (p : List Byte) (hp : p.length + 8 < 2 ^ 32) :
    Iterator.increment ⟨⟨a, uint32_bytes t ++ (uint32_bytes p.length ++ p)⟩⟩
      = .ok ⟨⟨a + (8 + p.length), []⟩⟩ := by
  have h := increment_record a t p [] hp
  rw [List.append_nil] at h
  exact h

theorem deref_record_of_four (a t : Nat) (p rest : List Byte) (h : p.length = 4) :
    Iterator.deref ⟨⟨a, uint32_bytes t ++ (uint32_bytes 4 ++ (p ++ rest))⟩⟩
      = .ok ⟨⟨t % 2 ^ 32⟩, ⟨a + 8, p⟩⟩ := by
  have hd := deref_record a t p rest (by omega)
  rw [h] at hd
  exact hd

theorem increment_record_of_four (a t : Nat) (p rest : List Byte) (h : p.length = 4) :
    Iterator.increment ⟨⟨a, uint32_bytes t ++ (uint32_bytes 4 ++ (p ++ rest))⟩⟩
      = .ok ⟨⟨a + (8 + 4), rest⟩⟩ := by
  have hi := increment_record a t p rest (by omega)
  rw [h] at hi
  exact hi

theorem texture_description_value_of_records (a : Nat) (p1 p2 p3 p4 p5 p6 : List Byte)
    (h1 : p1.length + 8 < 2 ^ 32) (h2 : p2.length = 4) (h3 : p3.length = 4)
    (h4 : p4.length = 4) (h5 : p5.length = 4) (h6 : p6.length + 8 < 2 ^ 32) :
    TLVEntry.texture_description_value ⟨TLVType.TEXTURE_DESCRIPTION, ⟨a,
        record_bytes 2 p1 ++ (record_bytes 0 p2 ++ (record_bytes 0 p3 ++ (record_bytes 4 p4
          ++ (record_bytes 5 p5 ++ record_bytes 3 p6))))⟩⟩
      = .ok ⟨load_uint32 p2, load_uint32 p3, ⟨load_uint32 p4⟩, ⟨load_uint32 p5⟩, p6⟩ := by
  simp only [record_bytes, List.append_assoc, h2, h3, h4, h5]
  simp only [TLVEntry.texture_description_value, TLVReader.begin, TLVReader.end_, ok_bind,
    deref_record _ 2 p1 _ (by omega), increment_record _ 2 p1 _ h1,
    deref_record_of_four _ 0 p2 _ h2, increment_record_of_four _ 0 p2 _ h2,
    deref_record_of_four _ 0 p3 _ h3, increment_record_of_four _ 0 p3 _ h3,
    deref_record_of_four _ 4 p4 _ h4, increment_record_of_four _ 4 p4 _ h4,
    deref_record_of_four _ 5 p5 _ h5, increment_record_of_four _ 5 p5 _ h5,
    deref_last_record _ 3 p6 (by omega), increment_last_record _ 3 p6 h6,
    TLVEntry.type, eq_end_false_record,
    TLVEntry.uint32_value, TLVEntry.texture_format_value, TLVEntry.texture_usage_value,
    TLVEntry.byte_array_value, Span.size, h2, h3, h4, h5,
    TLVType.STRING, TLVType.UINT32, TLVType.TEXTURE_FORMAT, TLVType.TEXTURE_USAGE,
    TLVType.BYTE_ARRAY, TLVType.TEXTURE_DESCRIPTION, Nat.reducePow, Nat.reduceMod,
    beq_self_eq_true, ensure_true, Bool.not_false]
  rw [eq_end_true _ _ (by
    simp only [List.length_append, uint32_bytes_length, h2, h3, h4, h5]; omega)]
  rfl

theorem uint32_value_ok_inv (e : TLVEntry) (v : Nat) (h : e.uint32_value = .ok v) :
    e.type_ = TLVType.UINT32 ∧ e.value_.size = 4 ∧ v = load_uint32 e.value_.bytes := by
  by_cases ht : e.type_ = TLVType.UINT32
  · by_cases hs : e.value_.size = 4
    · rw [uint32_value_of_fits e ht hs] at h
      cases h
      exact ⟨ht, hs, rfl⟩
    · rw [uint32_value_of_size_ne e ht hs] at h; cases h
  · rw [uint32_value_of_tag_ne e ht] at h; cases h

theorem texture_format_value_ok_inv (e : TLVEntry) (v : TextureFormat)
    (h : e.texture_format_value = .ok v) :
    e.type_ = TLVType.TEXTURE_FORMAT ∧ e.value_.size = 4
      ∧ v = ⟨load_uint32 e.value_.bytes⟩ := by
  by_cases ht : e.type_ = TLVType.TEXTURE_FORMAT
  · by_cases hs : e.value_.size = 4
    · simp only [TLVEntry.texture_format_value, ensure_beq_of_eq _ _ _ ht,
        ensure_beq_of_eq _ _ _ hs, ok_bind, pure, Except.pure] at h
      cases h
      exact ⟨ht, hs, rfl⟩
    · simp only [TLVEntry.texture_format_value, ensure_beq_of_eq _ _ _ ht,
        ensure_beq_of_ne _ _ _ hs, ok_bind, error_bind] at h
      cases h
  · simp only [TLVEntry.texture_format_value, ensure_beq_of_ne _ _ _ ht, error_bind] at h
    cases h

theorem texture_usage_value_ok_inv (e : TLVEntry) (v : TextureUsage)
    (h : e.texture_usage_value = .ok v) :
    e.type_ = TLVType.TEXTURE_USAGE ∧ e.value_.size = 4
      ∧ v = ⟨load_uint32 e.value_.bytes⟩ := by
  by_cases ht : e.type_ = TLVType.TEXTURE_USAGE
  · by_cases hs : e.value_.size = 4
    · simp only [TLVEntry.texture_usage_value, ensure_beq_of_eq _ _ _ ht,
        ensure_beq_of_eq _ _ _ hs, ok_bind, pure, Except.pure] at h
      cases h
      exact ⟨ht, hs, rfl⟩
    · simp only [TLVEntry.texture_usage_value, ensure_beq_of_eq _ _ _ ht,
        ensure_beq_of_ne _ _ _ hs, ok_bind, error_bind] at h
      cases h
  · simp only [TLVEntry.texture_usage_value, ensure_beq_of_ne _ _ _ ht, error_bind] at h
    cases h

theorem byte_array_value_ok_inv (e : TLVEntry) (v : List Byte)
    (h : e.byte_array_value = .ok v) :
    e.type_ = TLVType.BYTE_ARRAY ∧ v = e.value_.bytes := by
  by_cases ht : e.type_ = TLVType.BYTE_ARRAY
  · simp only [TLVEntry.byte_array_value, ensure_beq_of_eq _ _ _ ht, ok_bind, pure,
      Except.pure] at h
    cases h
    exact ⟨ht, rfl⟩
  · simp only [TLVEntry.byte_array_value, ensure_beq_of_ne _ _ _ ht, error_bind] at h
    cases h

theorem texture_description_value_ok_inv (e : TLVEntry) (td : TextureDescription)
    (hs : e.value_.size < 2 ^ 32) (h : e.texture_description_value = .ok td) :
    ∃ p1 p2 p3 p4 p5 p6 : List Byte,
      p2.length = 4 ∧ p3.length = 4 ∧ p4.length = 4 ∧ p5.length = 4
        ∧ e.value_.bytes = record_bytes 2 p1 ++ (record_bytes 0 p2 ++ (record_bytes 0 p3
            ++ (record_bytes 4 p4 ++ (record_bytes 5 p5 ++ record_bytes 3 p6))))
        ∧ td = ⟨load_uint32 p2, load_uint32 p3, ⟨load_uint32 p4⟩, ⟨load_uint32 p5⟩, p6⟩ := by
  simp only [TLVEntry.texture_description_value, TLVReader.begin, TLVReader.end_] at h
  obtain ⟨_, -, g0⟩ := bind_ok_inv _ _ _ h
  clear h
  obtain ⟨x0, d0, g1⟩ := bind_ok_inv _ _ _ g0
  clear g0
  obtain ⟨_, t0, g2⟩ := bind_ok_inv _ _ _ g1
  clear g1
  obtain ⟨c1, i0, g3⟩ := bind_ok_inv _ _ _ g2
  clear g2
  obtain ⟨x1, d1, g4⟩ := bind_ok_inv _ _ _ g3
  clear g3
  obtain ⟨width, u1, g5⟩ := bind_ok_inv _ _ _ g4
  clear g4
  obtain ⟨c2, i1, g6⟩ := bind_ok_inv _ _ _ g5
  clear g5
  obtain ⟨_, -, g7⟩ := bind_ok_inv _ _ _ g6
  clear g6
  obtain ⟨x2, d2, g8⟩ := bind_ok_inv _ _ _ g7
  clear g7
  obtain ⟨height, u2, g9⟩ := bind_ok_inv _ _ _ g8
  clear g8
  obtain ⟨c3, i2, g10⟩ := bind_ok_inv _ _ _ g9
  clear g9
  obtain ⟨_, -, g11⟩ := bind_ok_inv _ _ _ g10
  clear g10
  obtain ⟨x3, d3, g12⟩ := bind_ok_inv _ _ _ g11
  clear g11
  obtain ⟨format, u3, g13⟩ := bind_ok_inv _ _ _ g12
  clear g12
  obtain ⟨c4, i3, g14⟩ := bind_ok_inv _ _ _ g13
  clear g13
  obtain ⟨_, -, g15⟩ := bind_ok_inv _ _ _ g14
  clear g14
  obtain ⟨x4, d4, g16⟩ := bind_ok_inv _ _ _ g15
  clear g15
  obtain ⟨usage, u4, g17⟩ := bind_ok_inv _ _ _ g16
  clear g16
  obtain ⟨c5, i4, g18⟩ := bind_ok_inv _ _ _ g17
  clear g17
  obtain ⟨_, -, g19⟩ := bind_ok_inv _ _ _ g18
  clear g18
  obtain ⟨x5, d5, g20⟩ := bind_ok_inv _ _ _ g19
  clear g19
  obtain ⟨data, u5, g21⟩ := bind_ok_inv _ _ _ g20
  clear g20
  obtain ⟨c6, i5, g22⟩ := bind_ok_inv _ _ _ g21
  clear g21
  obtain ⟨_, n6, g23⟩ := bind_ok_inv _ _ _ g22
  clear g22
  have hx0 : x0.type_ = TLVType.STRING := by
    have := ensure_ok_inv _ _ t0
    simpa [TLVEntry.type] using this
  obtain ⟨hx1, hl1, rfl⟩ := uint32_value_ok_inv x1 width u1
  obtain ⟨hx2, hl2, rfl⟩ := uint32_value_ok_inv x2 height u2
  obtain ⟨hx3, hl3, rfl⟩ := texture_format_value_ok_inv x3 format u3
  obtain ⟨hx4, hl4, rfl⟩ := texture_usage_value_ok_inv x4 usage u4
  obtain ⟨hx5, rfl⟩ := byte_array_value_ok_inv x5 data u5
  obtain ⟨b0, s0⟩ := record_step ⟨e.value_⟩ c1 x0 hs d0 i0
  obtain ⟨b1, s1⟩ := record_step c1 c2 x1 s0 d1 i1
  obtain ⟨b2, s2⟩ := record_step c2 c3 x2 s1 d2 i2
  obtain ⟨b3, s3⟩ := record_step c3 c4 x3 s2 d3 i3
  obtain ⟨b4, s4⟩ := record_step c4 c5 x4 s3 d4 i4
  obtain ⟨b5, _⟩ := record_step c5 c6 x5 s4 d5 i5
  have hend : c6.buffer_.bytes = [] := by
    have := ensure_ok_inv _ _ n6
    simp only [Iterator.eq, Span.size, List.length_nil, Bool.and_eq_true, beq_iff_eq] at this
    exact List.length_eq_zero.mp this.2.symm
  refine ⟨x0.value_.bytes, x1.value_.bytes, x2.value_.bytes, x3.value_.bytes, x4.value_.bytes,
    x5.value_.bytes, hl1, hl2, hl3, hl4, ?_, ?_⟩
  · simp only [hx0, hx1, hx2, hx3, hx4, hx5, hend, List.append_nil, TLVType.STRING,
      TLVType.UINT32, TLVType.TEXTURE_FORMAT, TLVType.TEXTURE_USAGE, TLVType.BYTE_ARRAY]
      at b0 b1 b2 b3 b4 b5
    rw [b0, b1, b2, b3, b4, b5]
  · cases g23
    rfl

theorem texture_description_value_iff_of_small (e : TLVEntry)
    (ht : e.type_ = TLVType.TEXTURE_DESCRIPTION) (hs : e.value_.size < 2 ^ 32) :
    ((∃ td, e.texture_description_value = .ok td)
        ↔ ∃ p1 p2 p3 p4 p5 p6 : List Byte,
          p2.length = 4 ∧ p3.length = 4 ∧ p4.length = 4 ∧ p5.length = 4
            ∧ e.value_.bytes = record_bytes 2 p1 ++ (record_bytes 0 p2 ++ (record_bytes 0 p3
                ++ (record_bytes 4 p4 ++ (record_bytes 5 p5 ++ record_bytes 3 p6)))))
      ∧ ((∃ err, e.texture_description_value = .error err)
        ↔ ¬ ∃ p1 p2 p3 p4 p5 p6 : List Byte,
          p2.length = 4 ∧ p3.length = 4 ∧ p4.length = 4 ∧ p5.length = 4
            ∧ e.value_.bytes = record_bytes 2 p1 ++ (record_bytes 0 p2 ++ (record_bytes 0 p3
                ++ (record_bytes 4 p4 ++ (record_bytes 5 p5 ++ record_bytes 3 p6))))) := by
  have hiff : (∃ td, e.texture_description_value = .ok td)
      ↔ ∃ p1 p2 p3 p4 p5 p6 : List Byte,
        p2.length = 4 ∧ p3.length = 4 ∧ p4.length = 4 ∧ p5.length = 4
          ∧ e.value_.bytes = record_bytes 2 p1 ++ (record_bytes 0 p2 ++ (record_bytes 0 p3
              ++ (record_bytes 4 p4 ++ (record_bytes 5 p5 ++ record_bytes 3 p6)))) := by
    constructor
    · rintro ⟨td, h⟩
      obtain ⟨p1, p2, p3, p4, p5, p6, h2, h3, h4, h5, hb, _⟩ :=
        texture_description_value_ok_inv e td hs h
      exact ⟨p1, p2, p3, p4, p5, p6, h2, h3, h4, h5, hb⟩
    · rintro ⟨p1, p2, p3, p4, p5, p6, h2, h3, h4, h5, hb⟩
      have hlen : e.value_.bytes.length < 2 ^ 32 := hs
      rw [hb] at hlen
      simp only [record_bytes, List.length_append, uint32_bytes_length] at hlen
      have he : e = ⟨TLVType.TEXTURE_DESCRIPTION, ⟨e.value_.data,
          record_bytes 2 p1 ++ (record_bytes 0 p2 ++ (record_bytes 0 p3
            ++ (record_bytes 4 p4 ++ (record_bytes 5 p5 ++ record_bytes 3 p6))))⟩⟩ := by
        rw [← hb, ← ht]
      rw [he]
      exact ⟨_, texture_description_value_of_records e.value_.data p1 p2 p3 p4 p5 p6
        (by omega) h2 h3 h4 h5 (by omega)⟩
  refine ⟨hiff, ?_⟩
  rw [← hiff]
  constructor
  · rintro ⟨err, he⟩ ⟨td, htd⟩
    rw [he] at htd
    cases htd
  · intro hno
    cases hr : e.texture_description_value with
    | error err => exact ⟨err, rfl⟩
    | ok td => exact absurd ⟨td, hr⟩ hno

theorem texture_value_of_large_name (p : List Byte) (hp : p.length = 4294967288) :
    texture_description_value_bytes p 1 1 TextureFormat.RGB TextureUsage.SRGB []
        = record_bytes 2 p ++ (record_bytes 0 (uint32_bytes 1) ++ (record_bytes 0 (uint32_bytes 1)
          ++ (record_bytes 4 (uint32_bytes 0) ++ (record_bytes 5 (uint32_bytes 2)
            ++ record_bytes 3 []))))
      ∧ TLVEntry.texture_description_value ⟨TLVType.TEXTURE_DESCRIPTION,
          ⟨0, texture_description_value_bytes p 1 1 TextureFormat.RGB TextureUsage.SRGB []⟩⟩
        = .error ⟨"incorrect type"⟩ := by
  have hv := texture_description_value_bytes_eq p 1 1 TextureFormat.RGB TextureUsage.SRGB []
    (by rw [hp]; norm_num) (by simp)
  constructor
  · rw [hv]
    simp only [record_bytes, uint32_bytes_length, List.length_nil, List.append_nil,
      List.append_assoc, TextureFormat.RGB, TextureUsage.SRGB]
  · rw [hv]
    simp only [TLVEntry.texture_description_value, TLVReader.begin,
      (increment_large_record 0 2 p _ hp).1, (increment_large_record 0 2 p _ hp).2, ok_bind,
      ensure_beq_of_eq _ _ _ rfl, TLVEntry.type]
    rfl

/-- C25, the code at the failing input: the nested buffer the texture overload
builds for a name of `2 ^ 32 - 8` bytes is a well-formed buffer of six records
with the tags and sizes of the schema, and `texture_description_value()` on a
`TEXTURE_DESCRIPTION` entry over it throws: the cursor stays on the name record
after the first increment, so `uint32_value()` meets the tag `STRING`. -/
theorem texture_description_value_rejects_large_name :
    texture_description_value_bytes (List.replicate 4294967288 0) 1 1 TextureFormat.RGB
          TextureUsage.SRGB []
        = record_bytes 2 (List.replicate 4294967288 0)
          ++ (record_bytes 0 (uint32_bytes 1) ++ (record_bytes 0 (uint32_bytes 1)
          ++ (record_bytes 4 (uint32_bytes 0) ++ (record_bytes 5 (uint32_bytes 2)
            ++ record_bytes 3 []))))
      ∧ TLVEntry.texture_description_value ⟨TLVType.TEXTURE_DESCRIPTION,
          ⟨0, texture_description_value_bytes (List.replicate 4294967288 0) 1 1
            TextureFormat.RGB TextureUsage.SRGB []⟩⟩
        = .error ⟨"incorrect type"⟩ :=
  texture_value_of_large_name (List.replicate 4294967288 0) (List.length_replicate _ _)

/-! ## Enumerators inside a texture description -/

/-- C27 as stated fails: the buffer a writer yields for a texture with usage
`FRAMEBUFFER` is decoded by `texture_description_value()` into a description with
usage `FRAMEBUFFER`; a nested `TEXTURE_FORMAT` record holding 7 and a nested
`TEXTURE_USAGE` record holding `DEPTH` are decoded as they are. -/
theorem texture_description_value_keeps_any_enumerator :
    ((TLVReader.mk (span_of 0 (TLVWriter.write_texture_description {} [0x74] 1 1
          TextureFormat.RGB TextureUsage.FRAMEBUFFER [0xaa]).yield.1)).begin.deref
        >>= TLVEntry.texture_description_value)
        = .ok ⟨1, 1, TextureFormat.RGB, TextureUsage.FRAMEBUFFER, [0xaa]⟩
      ∧ TLVEntry.texture_description_value ⟨TLVType.TEXTURE_DESCRIPTION, ⟨0,
          record_bytes 2 [0x74] ++ (record_bytes 0 (uint32_bytes 1)
            ++ (record_bytes 0 (uint32_bytes 1) ++ (record_bytes 4 (uint32_bytes 7)
            ++ (record_bytes 5 (uint32_bytes 1) ++ record_bytes 3 []))))⟩⟩
        = .ok ⟨1, 1, ⟨7⟩, TextureUsage.DEPTH, []⟩
      ∧ TextureUsage.FRAMEBUFFER ≠ TextureUsage.SRGB
      ∧ TextureUsage.FRAMEBUFFER ≠ TextureUsage.DATA
      ∧ TextureUsage.DEPTH ≠ TextureUsage.SRGB
      ∧ TextureUsage.DEPTH ≠ TextureUsage.DATA
      ∧ (⟨7⟩ : TextureFormat) ≠ TextureFormat.RGB
      ∧ (⟨7⟩ : TextureFormat) ≠ TextureFormat.RGBA :=
  ⟨by rfl, by rfl, by decide, by decide, by decide, by decide, by decide, by decide⟩

/-- C27 amended: `texture_description_value()` checks the tag and the 4-byte size
of the nested `TEXTURE_FORMAT` and `TEXTURE_USAGE` records and not their values:
on a nested value of six records with the tags and sizes of the schema it returns
the description whose format and usage are the little-endian 32-bit values held
by the fourth and fifth records, whatever they are. -/
theorem texture_description_value_copies_enumerators (a : Nat)
    (p1 p2 p3 p4 p5 p6 : List Byte)
    (h1 : p1.length + 8 < 2 ^ 32) (h2 : p2.length = 4) (h3 : p3.length = 4)
    (h4 : p4.length = 4) (h5 : p5.length = 4) (h6 : p6.length + 8 < 2 ^ 32) :
    TLVEntry.texture_description_value ⟨TLVType.TEXTURE_DESCRIPTION, ⟨a,
        record_bytes 2 p1 ++ (record_bytes 0 p2 ++ (record_bytes 0 p3 ++ (record_bytes 4 p4
          ++ (record_bytes 5 p5 ++ record_bytes 3 p6))))⟩⟩
      = .ok ⟨little_endian_32 p2 0, little_endian_32 p3 0, ⟨little_endian_32 p4 0⟩,
          ⟨little_endian_32 p5 0⟩, p6⟩ := by
  rw [texture_description_value_of_records a p1 p2 p3 p4 p5 p6 h1 h2 h3 h4 h5 h6]
  simp only [load_uint32_eq_little_endian_32]

/-- Witness of C27 amended: format bytes `07 00 00 00` and usage bytes
`00 00 00 00` (`FRAMEBUFFER`). -/
theorem texture_description_value_copies_enumerators_witness :
    TLVEntry.texture_description_value ⟨TLVType.TEXTURE_DESCRIPTION, ⟨0,
        record_bytes 2 [0x74] ++ (record_bytes 0 [0x01, 0x00, 0x00, 0x00]
          ++ (record_bytes 0 [0x01, 0x00, 0x00, 0x00] ++ (record_bytes 4 [0x07, 0x00, 0x00, 0x00]
          ++ (record_bytes 5 [0x00, 0x00, 0x00, 0x00] ++ record_bytes 3 [0xaa]))))⟩⟩
      = .ok ⟨little_endian_32 [0x01, 0x00, 0x00, 0x00] 0,
          little_endian_32 [0x01, 0x00, 0x00, 0x00] 0,
          ⟨little_endian_32 [0x07, 0x00, 0x00, 0x00] 0⟩,
          ⟨little_endian_32 [0x00, 0x00, 0x00, 0x00] 0⟩, [0xaa]⟩ :=
  texture_description_value_copies_enumerators 0 [0x74] [0x01, 0x00, 0x00, 0x00]
    [0x01, 0x00, 0x00, 0x00] [0x07, 0x00, 0x00, 0x00] [0x00, 0x00, 0x00, 0x00] [0xaa]
    (by decide) rfl rfl rfl rfl (by decide)

/-! ## Iterators and entries stay inside the buffer -/

theorem increment_suffix (base : Span) (it next : Iterator) (k : Nat)
    (hk : k ≤ base.size) (hdata : it.buffer_.data = base.data + k)
    (hbytes : it.buffer_.bytes = base.bytes.drop k) (h : it.increment = .ok next) :
    ∃ k', k' ≤ base.size ∧ next.buffer_.data = base.data + k'
      ∧ next.buffer_.bytes = base.bytes.drop k' := by
  unfold Iterator.increment at h
  cases hd : it.deref with
  | error err => rw [hd] at h; cases h
  | ok entry =>
    rw [hd, ok_bind] at h
    cases h
    have hsz : it.buffer_.size = base.size - k := by
      simp only [Span.size, hbytes, List.length_drop]
    refine ⟨k + (it.buffer_.size - (it.buffer_.size - entry.size)), ?_, ?_, ?_⟩
    · omega
    · simp only [Span.last, hdata]; omega
    · simp only [Span.last, hbytes, List.drop_drop]

theorem advance_suffix (reader : TLVReader) (n : Nat) (it : Iterator)
    (h : Iterator.advance n reader.begin = .ok it) :
    ∃ k, k ≤ reader.buffer_.size ∧ it.buffer_.data = reader.buffer_.data + k
      ∧ it.buffer_.bytes = reader.buffer_.bytes.drop k := by
  have gen : ∀ (n : Nat) (start last : Iterator) (k : Nat), k ≤ reader.buffer_.size →
      start.buffer_.data = reader.buffer_.data + k →
      start.buffer_.bytes = reader.buffer_.bytes.drop k →
      Iterator.advance n start = .ok last →
      ∃ k', k' ≤ reader.buffer_.size ∧ last.buffer_.data = reader.buffer_.data + k'
        ∧ last.buffer_.bytes = reader.buffer_.bytes.drop k' := by
    intro n
    induction n with
    | zero =>
      intro start last k hk hd hb ha
      cases ha
      exact ⟨k, hk, hd, hb⟩
    | succ n ih =>
      intro start last k hk hd hb ha
      unfold Iterator.advance at ha
      cases hi : start.increment with
      | error err => rw [hi] at ha; cases ha
      | ok next =>
        rw [hi, ok_bind] at ha
        obtain ⟨k', hk', hd', hb'⟩ := increment_suffix reader.buffer_ start next k hk hd hb hi
        exact ih next last k' hk' hd' hb' ha
  exact gen n reader.begin it 0 (Nat.zero_le _) rfl rfl h

/-- C28: an iterator reached from `begin()` by successful increments views a
suffix of the reader's buffer: it starts `k` bytes in and ends at the buffer end.
With fewer than 8 bytes left `operator*` and `operator++` throw before any read;
with 8 bytes or more they read the 8 header bytes of the slice and throw when the
length `L` declared at offset `k + 4` of the buffer exceeds what is left after the
header. An entry the iterator dereferences to has a value of exactly the declared
`L` bytes, the bytes `[k + 8, k + 8 + L)` of the reader's buffer, so the arguments
of `subspan(8, L)` are within the slice and the value ends at or before the buffer
end; `size()` of the entry is at most the remaining length, so the argument of
`last` in `operator++` does not underflow, and `operator++` gives the slice that
starts `size()` bytes further on. -/
theorem reachable_stay_inside_buffer (reader : TLVReader) (n : Nat) (it : Iterator)
    (h : Iterator.advance n reader.begin = .ok it) :
    ∃ k, k ≤ reader.buffer_.size
      ∧ it.buffer_.data = reader.buffer_.data + k
      ∧ it.buffer_.bytes = reader.buffer_.bytes.drop k
      ∧ it.buffer_.data + it.buffer_.size = reader.buffer_.data + reader.buffer_.size
      ∧ (it.buffer_.size < 8 →
          it.deref = .error ⟨"invalid entry size"⟩
            ∧ it.increment = .error ⟨"invalid entry size"⟩)
      ∧ (8 ≤ it.buffer_.size →
          it.buffer_.size < 8 + little_endian_32 reader.buffer_.bytes (k + 4) →
          it.deref = .error ⟨"invalid length"⟩
            ∧ it.increment = .error ⟨"invalid length"⟩)
      ∧ (∀ entry, it.deref = .ok entry →
          8 ≤ it.buffer_.size
            ∧ 8 + little_endian_32 reader.buffer_.bytes (k + 4) ≤ it.buffer_.size
            ∧ k + 8 + little_endian_32 reader.buffer_.bytes (k + 4) ≤ reader.buffer_.size
            ∧ entry.value_.size = little_endian_32 reader.buffer_.bytes (k + 4)
            ∧ entry.value_.data = reader.buffer_.data + (k + 8)
            ∧ entry.value_.bytes
              = (reader.buffer_.bytes.drop (k + 8)).take
                  (little_endian_32 reader.buffer_.bytes (k + 4))
            ∧ entry.value_.data + entry.value_.size
              ≤ reader.buffer_.data + reader.buffer_.size
            ∧ entry.size ≤ it.buffer_.size
            ∧ ∃ next, it.increment = .ok next
              ∧ next.buffer_.data = it.buffer_.data + entry.size
              ∧ next.buffer_.bytes = it.buffer_.bytes.drop entry.size) := by
  obtain ⟨k, hk, hdata, hbytes⟩ := advance_suffix reader n it h
  have hsz : it.buffer_.size = reader.buffer_.size - k := by
    simp only [Span.size, hbytes, List.length_drop]
  have hdecl : load_uint32 (it.buffer_.bytes.drop 4)
      = little_endian_32 reader.buffer_.bytes (k + 4) := by
    rw [load_uint32_drop_eq_little_endian_32, hbytes, little_endian_32_drop]
  refine ⟨k, hk, hdata, hbytes, ?_, ?_, ?_, ?_⟩
  · rw [hdata, hsz]; omega
  · intro h8
    exact ⟨deref_of_short it h8, increment_of_deref_error it _ (deref_of_short it h8)⟩
  · intro h8 hL
    rw [← hdecl] at hL
    exact ⟨deref_of_cut_value it h8 hL,
      increment_of_deref_error it _ (deref_of_cut_value it h8 hL)⟩
  · intro entry hd
    obtain ⟨h8, hL, rfl⟩ := deref_ok_inv it entry hd
    have hvs : (it.buffer_.subspan 8 (load_uint32 (it.buffer_.bytes.drop 4))).size
        = load_uint32 (it.buffer_.bytes.drop 4) := by
      simp only [Span.subspan, Span.size, List.length_take, List.length_drop]
      simp only [Span.size] at hL
      omega
    have hinc := increment_of_fits it h8 hL
    simp only [hdecl] at hL hvs hinc ⊢
    have hle : (4 + 4 + little_endian_32 reader.buffer_.bytes (k + 4)) % 2 ^ 32
        ≤ it.buffer_.size := by
      have := Nat.mod_le (4 + 4 + little_endian_32 reader.buffer_.bytes (k + 4)) (2 ^ 32)
      omega
    rw [hvs] at hinc
    refine ⟨h8, hL, by omega, hvs, ?_, ?_, ?_, ?_, _, hinc, ?_, ?_⟩
    · simp only [Span.subspan, hdata]; omega
    · simp only [Span.subspan, hbytes, List.drop_drop]
    · rw [hvs]
      simp only [Span.subspan, hdata]
      omega
    · simp only [TLVEntry.size, hvs]
      exact hle
    · simp only [Span.last, TLVEntry.size, hvs, Nat.sub_sub_self hle]
    · simp only [Span.last, TLVEntry.size, hvs, Nat.sub_sub_self hle]

/-- Witness of C28: the 22-byte buffer of two records and the iterator after one
increment, 12 bytes in. -/
theorem reachable_stay_inside_buffer_witness :
    ∃ k, k ≤ (TLVReader.mk ⟨0, [0x00, 0x00, 0x00, 0x00, 0x04, 0x00, 0x00, 0x00, 0xdd, 0xcc, 0xbb, 0xaa,
        0x02, 0x00, 0x00, 0x00, 0x02, 0x00, 0x00, 0x00, 0x79, 0x6f]⟩).buffer_.size
      ∧ (⟨⟨12, [0x02, 0x00, 0x00, 0x00, 0x02, 0x00, 0x00, 0x00, 0x79, 0x6f]⟩⟩ : Iterator).buffer_.data = (TLVReader.mk ⟨0, [0x00, 0x00, 0x00, 0x00, 0x04, 0x00, 0x00, 0x00, 0xdd, 0xcc, 0xbb, 0xaa,
        0x02, 0x00, 0x00, 0x00, 0x02, 0x00, 0x00, 0x00, 0x79, 0x6f]⟩).buffer_.data + k
      ∧ (⟨⟨12, [0x02, 0x00, 0x00, 0x00, 0x02, 0x00, 0x00, 0x00, 0x79, 0x6f]⟩⟩ : Iterator).buffer_.bytes = (TLVReader.mk ⟨0, [0x00, 0x00, 0x00, 0x00, 0x04, 0x00, 0x00, 0x00, 0xdd, 0xcc, 0xbb, 0xaa,
        0x02, 0x00, 0x00, 0x00, 0x02, 0x00, 0x00, 0x00, 0x79, 0x6f]⟩).buffer_.bytes.drop k
      ∧ (⟨⟨12, [0x02, 0x00, 0x00, 0x00, 0x02, 0x00, 0x00, 0x00, 0x79, 0x6f]⟩⟩ : Iterator).buffer_.data + (⟨⟨12, [0x02, 0x00, 0x00, 0x00, 0x02, 0x00, 0x00, 0x00, 0x79, 0x6f]⟩⟩ : Iterator).buffer_.size = (TLVReader.mk ⟨0, [0x00, 0x00, 0x00, 0x00, 0x04, 0x00, 0x00, 0x00, 0xdd, 0xcc, 0xbb, 0xaa,
        0x02, 0x00, 0x00, 0x00, 0x02, 0x00, 0x00, 0x00, 0x79, 0x6f]⟩).buffer_.data + (TLVReader.mk ⟨0, [0x00, 0x00, 0x00, 0x00, 0x04, 0x00, 0x00, 0x00, 0xdd, 0xcc, 0xbb, 0xaa,
        0x02, 0x00, 0x00, 0x00, 0x02, 0x00, 0x00, 0x00, 0x79, 0x6f]⟩).buffer_.size
      ∧ ((⟨⟨12, [0x02, 0x00, 0x00, 0x00, 0x02, 0x00, 0x00, 0x00, 0x79, 0x6f]⟩⟩ : Iterator).buffer_.size < 8 →
          (⟨⟨12, [0x02, 0x00, 0x00, 0x00, 0x02, 0x00, 0x00, 0x00, 0x79, 0x6f]⟩⟩ : Iterator).deref = .error ⟨"invalid entry size"⟩
            ∧ (⟨⟨12, [0x02, 0x00, 0x00, 0x00, 0x02, 0x00, 0x00, 0x00, 0x79, 0x6f]⟩⟩ : Iterator).increment = .error ⟨"invalid entry size"⟩)
      ∧ (8 ≤ (⟨⟨12, [0x02, 0x00, 0x00, 0x00, 0x02, 0x00, 0x00, 0x00, 0x79, 0x6f]⟩⟩ : Iterator).buffer_.size →
          (⟨⟨12, [0x02, 0x00, 0x00, 0x00, 0x02, 0x00, 0x00, 0x00, 0x79, 0x6f]⟩⟩ : Iterator).buffer_.size < 8 + little_endian_32 (TLVReader.mk ⟨0, [0x00, 0x00, 0x00, 0x00, 0x04, 0x00, 0x00, 0x00, 0xdd, 0xcc, 0xbb, 0xaa,
        0x02, 0x00, 0x00, 0x00, 0x02, 0x00, 0x00, 0x00, 0x79, 0x6f]⟩).buffer_.bytes (k + 4) →
          (⟨⟨12, [0x02, 0x00, 0x00, 0x00, 0x02, 0x00, 0x00, 0x00, 0x79, 0x6f]⟩⟩ : Iterator).deref = .error ⟨"invalid length"⟩
            ∧ (⟨⟨12, [0x02, 0x00, 0x00, 0x00, 0x02, 0x00, 0x00, 0x00, 0x79, 0x6f]⟩⟩ : Iterator).increment = .error ⟨"invalid length"⟩)
      ∧ (∀ entry, (⟨⟨12, [0x02, 0x00, 0x00, 0x00, 0x02, 0x00, 0x00, 0x00, 0x79, 0x6f]⟩⟩ : Iterator).deref = .ok entry →
          8 ≤ (⟨⟨12, [0x02, 0x00, 0x00, 0x00, 0x02, 0x00, 0x00, 0x00, 0x79, 0x6f]⟩⟩ : Iterator).buffer_.size
            ∧ 8 + little_endian_32 (TLVReader.mk ⟨0, [0x00, 0x00, 0x00, 0x00, 0x04, 0x00, 0x00, 0x00, 0xdd, 0xcc, 0xbb, 0xaa,
        0x02, 0x00, 0x00, 0x00, 0x02, 0x00, 0x00, 0x00, 0x79, 0x6f]⟩).buffer_.bytes (k + 4) ≤ (⟨⟨12, [0x02, 0x00, 0x00, 0x00, 0x02, 0x00, 0x00, 0x00, 0x79, 0x6f]⟩⟩ : Iterator).buffer_.size
            ∧ k + 8 + little_endian_32 (TLVReader.mk ⟨0, [0x00, 0x00, 0x00, 0x00, 0x04, 0x00, 0x00, 0x00, 0xdd, 0xcc, 0xbb, 0xaa,
        0x02, 0x00, 0x00, 0x00, 0x02, 0x00, 0x00, 0x00, 0x79, 0x6f]⟩).buffer_.bytes (k + 4) ≤ (TLVReader.mk ⟨0, [0x00, 0x00, 0x00, 0x00, 0x04, 0x00, 0x00, 0x00, 0xdd, 0xcc, 0xbb, 0xaa,
        0x02, 0x00, 0x00, 0x00, 0x02, 0x00, 0x00, 0x00, 0x79, 0x6f]⟩).buffer_.size
            ∧ entry.value_.size = little_endian_32 (TLVReader.mk ⟨0, [0x00, 0x00, 0x00, 0x00, 0x04, 0x00, 0x00, 0x00, 0xdd, 0xcc, 0xbb, 0xaa,
        0x02, 0x00, 0x00, 0x00, 0x02, 0x00, 0x00, 0x00, 0x79, 0x6f]⟩).buffer_.bytes (k + 4)
            ∧ entry.value_.data = (TLVReader.mk ⟨0, [0x00, 0x00, 0x00, 0x00, 0x04, 0x00, 0x00, 0x00, 0xdd, 0xcc, 0xbb, 0xaa,
        0x02, 0x00, 0x00, 0x00, 0x02, 0x00, 0x00, 0x00, 0x79, 0x6f]⟩).buffer_.data + (k + 8)
            ∧ entry.value_.bytes
              = ((TLVReader.mk ⟨0, [0x00, 0x00, 0x00, 0x00, 0x04, 0x00, 0x00, 0x00, 0xdd, 0xcc, 0xbb, 0xaa,
        0x02, 0x00, 0x00, 0x00, 0x02, 0x00, 0x00, 0x00, 0x79, 0x6f]⟩).buffer_.bytes.drop (k + 8)).take
                  (little_endian_32 (TLVReader.mk ⟨0, [0x00, 0x00, 0x00, 0x00, 0x04, 0x00, 0x00, 0x00, 0xdd, 0xcc, 0xbb, 0xaa,
        0x02, 0x00, 0x00, 0x00, 0x02, 0x00, 0x00, 0x00, 0x79, 0x6f]⟩).buffer_.bytes (k + 4))
            ∧ entry.value_.data + entry.value_.size
              ≤ (TLVReader.mk ⟨0, [0x00, 0x00, 0x00, 0x00, 0x04, 0x00, 0x00, 0x00, 0xdd, 0xcc, 0xbb, 0xaa,
        0x02, 0x00, 0x00, 0x00, 0x02, 0x00, 0x00, 0x00, 0x79, 0x6f]⟩).buffer_.data + (TLVReader.mk ⟨0, [0x00, 0x00, 0x00, 0x00, 0x04, 0x00, 0x00, 0x00, 0xdd, 0xcc, 0xbb, 0xaa,
        0x02, 0x00, 0x00, 0x00, 0x02, 0x00, 0x00, 0x00, 0x79, 0x6f]⟩).buffer_.size
            ∧ entry.size ≤ (⟨⟨12, [0x02, 0x00, 0x00, 0x00, 0x02, 0x00, 0x00, 0x00, 0x79, 0x6f]⟩⟩ : Iterator).buffer_.size
            ∧ ∃ next, (⟨⟨12, [0x02, 0x00, 0x00, 0x00, 0x02, 0x00, 0x00, 0x00, 0x79, 0x6f]⟩⟩ : Iterator).increment = .ok next
              ∧ next.buffer_.data = (⟨⟨12, [0x02, 0x00, 0x00, 0x00, 0x02, 0x00, 0x00, 0x00, 0x79, 0x6f]⟩⟩ : Iterator).buffer_.data + entry.size
              ∧ next.buffer_.bytes = (⟨⟨12, [0x02, 0x00, 0x00, 0x00, 0x02, 0x00, 0x00, 0x00, 0x79, 0x6f]⟩⟩ : Iterator).buffer_.bytes.drop entry.size) :=
  reachable_stay_inside_buffer
    (TLVReader.mk ⟨0, [0x00, 0x00, 0x00, 0x00, 0x04, 0x00, 0x00, 0x00, 0xdd, 0xcc, 0xbb, 0xaa,
      0x02, 0x00, 0x00, 0x00, 0x02, 0x00, 0x00, 0x00, 0x79, 0x6f]⟩)
    1 ⟨⟨12, [0x02, 0x00, 0x00, 0x00, 0x02, 0x00, 0x00, 0x00, 0x79, 0x6f]⟩⟩ (by rfl)

end game
